import Mathlib

/-!
Object wait subsystem of the Linux PAL (`Pal/src/host/Linux/db_object.c`).

A shallow embedding of `_DkObjectWaitOne`, `_DkObjectsWaitAny` and
`collect_heap_alloc_records`.

* Handles live in a heap `World.mem`, addressed by a non-null address; a
  `PAL_HANDLE` argument is an `Option Nat`, `none` being `NULL`.
* The host kernel is a parameter (`Env`): the reply of `pselect6` to its
  arguments and the answer of `ioctl(fd, FIONREAD, &val)` for a descriptor.
  Every system call issued is appended to `World.trace`.
* Machine integers are `Nat`/`Int` with explicit wrap-around where the C
  code converts between widths or signedness.
* A descriptor set is a 1024-bit object (`__FD_SETSIZE`). `FD_SET` and
  `FD_ISSET` act on the object itself; a macro handed a descriptor of 1024 or
  more accesses memory outside it, which `FD_SET_checked`, `FD_ISSET_checked`
  and the checked build loops record as `none`. Statements about the sets are
  made for handles whose descriptors fit the sets (`fds_fit`).
* The registry of live handles is the list of their allocation call sites,
  in list order from `heap_alloc_head`.
-/

namespace DbObject

/-! ## Constants and macros declared in headers outside `db_object.c` -/

/-- Modelled from the spec: `MAX_FDS` of `pal_host.h` (not among the sources), the
fixed capacity of a handle's descriptor slots. The octal masks used by
`db_object.c` (`00011`, `01001`, `01110`) place the four per-slot bits three
positions apart, which is the packing for three slots. -/
def MAX_FDS : Nat := 3

/-- Modelled from the spec: `HAS_FDS` of `pal_host.h`, the mask of all interest bits
(`interest_read` of slots 0..2 and `interest_write` of slots 0..2). -/
def HAS_FDS : Nat := 0o77

/-- Modelled from the spec: `RFD(n)` of `pal_host.h`, the `interest_read` bit of slot `n`;
it is the bit that `(flags >> n) & 00001` reads. -/
def RFD (n : Nat) : Nat := 0o1 <<< n

/-- Modelled from the spec: `WFD(n)` of `pal_host.h`, the `interest_write` bit of slot `n`;
it is the bit that `(flags >> n) & 00010` reads. -/
def WFD (n : Nat) : Nat := 0o10 <<< n

/-- Modelled from the spec: `WRITEABLE(n)` of `pal_host.h`, the `result_writable` bit of
slot `n`; it is the bit that `(flags >> n) & 00100` reads. -/
def WRITEABLE (n : Nat) : Nat := 0o100 <<< n

/-- Modelled from the spec: `ERROR(n)` of `pal_host.h`, the `result_error` bit of slot `n`;
it is the bit that `(flags >> n) & 01000` reads. -/
def ERROR (n : Nat) : Nat := 0o1000 <<< n

/-- Modelled from the spec: `PAL_IDX_POISON`, the "unused slot" sentinel `((PAL_IDX) -1)`
for the 32-bit unsigned `PAL_IDX`. -/
def PAL_IDX_POISON : Nat := 2 ^ 32 - 1

/-- Modelled from the spec: `PAL_ERROR_NOTSUPPORT` of `pal_error.h` (the spec's
`NotSupported`). -/
def PAL_ERROR_NOTSUPPORT : Int := 3

/-- Modelled from the spec: `PAL_ERROR_INTERRUPTED` of `pal_error.h` (the spec's
`Interrupted`). -/
def PAL_ERROR_INTERRUPTED : Int := 13

/-- Modelled from the spec: `PAL_ERROR_TRYAGAIN` of `pal_error.h` (the spec's
`WouldBlock`). -/
def PAL_ERROR_TRYAGAIN : Int := 19

/-- Linux `EINTR` (`asm/errno.h`). -/
def EINTR : Int := 4

/-- Linux `ERESTART` (`asm/errno.h`). -/
def ERESTART : Int := 85

/-- Modelled from the spec: `IS_ERR(ret)` of the system-call wrappers, true when the
raw system call result is a negated error code. -/
def IS_ERR (ret : Int) : Bool := decide (ret < 0)

/-- Modelled from the spec: `ERRNO(ret)`, the host error code of a failed system call. -/
def ERRNO (ret : Int) : Int := -ret

/-! ## Machine integer conversions -/

/-- Conversion of a value to C `int` (32-bit two's complement wrap). -/
def toInt32 (z : Int) : Int := (z + 2 ^ 31) % 2 ^ 32 - 2 ^ 31

/-- Conversion of a value to C `unsigned int` (32 bits). -/
def toUInt32 (z : Int) : Nat := (z % 2 ^ 32).toNat

/-- Conversion of a value to C `long` (64-bit two's complement wrap). -/
def toLong (z : Int) : Int := (z + 2 ^ 63) % 2 ^ 64 - 2 ^ 63

/-- Conversion of a value to C `unsigned long` (64 bits). -/
def toULong (z : Int) : Nat := (z % 2 ^ 64).toNat

/-! ## Descriptor sets (`__kernel_fd_set`) as 1024-bit bitmaps -/

/-- The number of bits of a `__kernel_fd_set` (`__FD_SETSIZE` of
`<linux/posix_types.h>`): the object is an array of 1024 bits and no more. -/
def __FD_SETSIZE : Nat := 1024

/-- The bitmap `__FD_ZERO` leaves behind. -/
def FD_ZERO : Nat := 0

/-- The macro `__FD_SET(fd, &set)` as it acts on the 1024-bit object `set`:
bit `fd` is set when `fd` lies inside the object.  With `fd` of 1024 and above
the macro writes outside the object, which leaves the object itself as it was;
where that write lands is not part of this model (see `FD_SET_checked`). -/
def FD_SET (fd : Nat) (set : Nat) : Nat :=
  if fd < __FD_SETSIZE then set ||| (1 <<< fd) else set

/-- The macro `__FD_ISSET(fd, &set)` on the 1024-bit object `set`: bit `fd` of
the object.  No bit of the object answers for `fd` of 1024 and above (the macro
then reads outside the object). -/
def FD_ISSET (fd : Nat) (set : Nat) : Bool :=
  decide (fd < __FD_SETSIZE) && set.testBit fd

/-- The macro `__FD_SET(fd, &set)` with the bounds of the object made explicit:
`none` stands for the write outside the 1024-bit object, after which the C
program has no defined behaviour. -/
def FD_SET_checked (fd : Nat) (set : Nat) : Option Nat :=
  if fd < __FD_SETSIZE then some (FD_SET fd set) else none

/-- The macro `__FD_ISSET(fd, &set)` with the bounds of the object made
explicit: `none` stands for the read outside the 1024-bit object. -/
def FD_ISSET_checked (fd : Nat) (set : Nat) : Option Bool :=
  if fd < __FD_SETSIZE then some (FD_ISSET fd set) else none

/-! ## Data model -/

/-- Modelled from the spec: the handle kind tag (`pal_type_*`); `db_object.c` names only
`pipe`, `pipeprv`, `tcp`, `udp` and `process`. -/
inductive pal_type where
  | file | pipe | pipesrv | pipecli | pipeprv | dev | dir
  | tcp | tcpsrv | udp | udpsrv | process | mcast | thread
  | semaphore | event | gipc
deriving DecidableEq, Repr

/-- Modelled from the spec: the handle (spec §3: kind tag, descriptor slots, flags
word); its declaration is in `pal_host.h`, not among the sources. The fields
are those `db_object.c` reads through `HANDLE_HDR`: the kind tag, the 32-bit
flags word (`PAL_FLG`) and the descriptor slots `fds[i]` (`PAL_IDX`, 32-bit
unsigned). -/
structure pal_handle where
  type : pal_type
  flags : Nat
  fds : Nat → Nat

/-- Modelled from the spec: the macro `IS_HANDLE_TYPE(handle, t)`, a test of the kind tag. -/
def IS_HANDLE_TYPE (handle : pal_handle) (t : pal_type) : Bool :=
  decide (handle.type = t)

/-- The host's `struct timespec` (`linux/time.h`). -/
structure timespec where
  tv_sec : Int
  tv_nsec : Int
deriving DecidableEq, Repr

/-- A system call issued by the wait path, with its arguments. -/
inductive Syscall where
  | pselect6 (nfds : Int) (rfds wfds efds : Nat) (timeout : Option timespec)
  | ioctl_FIONREAD (fd : Nat)
deriving DecidableEq, Repr

/-- The mutable state: the heap of handles by address, and the system calls
issued so far (oldest first). -/
structure World where
  mem : Nat → pal_handle
  trace : List Syscall

/-- What `pselect6` hands back: its return value and the three descriptor
sets as the kernel rewrote them in place. -/
structure SelectReply where
  ret : Int
  rfds : Nat
  wfds : Nat
  efds : Nat
deriving DecidableEq, Repr

/-- What `ioctl(fd, FIONREAD, &val)` hands back: its return value and the
content of `val` (initialised to 0 by the caller) after the call. -/
structure IoctlReply where
  ret : Int
  val : Nat
deriving DecidableEq, Repr

/-- Modelled from the spec: the `wait` operation of the capability table (spec §3 and
§6), `int (*wait)(PAL_HANDLE, uint64_t)`; it is given the handle's address
and the timeout, and may do anything to the state. -/
abbrev wait_fn := Nat → Nat → World → Int × World

/-- Modelled from the spec: the capability table `struct handle_ops`, of which
`db_object.c` uses the `wait` entry only (`none`: a null entry). -/
structure handle_ops where
  wait : Option wait_fn

/-- Everything `db_object.c` calls but does not define, as parameters: the
host kernel (`pselect6` as a function of its arguments, the byte-count query
`ioctl(fd, FIONREAD, &val)` as a function of the descriptor), the host error
translation `unix_to_pal_error` and the operation table lookup
`HANDLE_OPS`. -/
structure Env where
  pselect6 : Int → Nat → Nat → Nat → Option timespec → SelectReply
  ioctl_FIONREAD : Nat → IoctlReply
  unix_to_pal_error : Int → Int
  HANDLE_OPS : pal_handle → handle_ops

/-! ## The deadline (lines 58-66 and 224-231) -/

/-- The pointer handed to `pselect6` as its deadline, `timeout >= 0 ?
&timeout_ts : NULL`, with `timeout_ts` filled in as in lines 60-66 (the same
statements stand at lines 226-231). `timeout` is a `uint64_t`, so the test
`timeout >= 0` is on an unsigned value; `sec` and `microsec` are `long`, and
arithmetic on them wraps at 64 bits. -/
def timeout_ts (timeout : Nat) : Option timespec :=
  if timeout ≥ 0 then
    let sec : Int := toLong ((toULong timeout / 1000000 : Nat) : Int)
    let microsec : Int :=
      toLong ((toULong ((toULong timeout : Int) - toLong (sec * 1000000)) : Nat) : Int)
    some { tv_sec := sec, tv_nsec := toLong (microsec * 1000) }
  else
    none

/-! ## The build phase (lines 68-98 and 182-219) -/

/-- The three watch sets and the `nfds` counter of the build phase. -/
structure WatchSets where
  rfds : Nat
  wfds : Nat
  efds : Nat
  nfds : Int
deriving DecidableEq, Repr

/-- State after `__FD_ZERO` on the three sets and `nfds = 0`. -/
def WatchSets.init : WatchSets :=
  { rfds := FD_ZERO, wfds := FD_ZERO, efds := FD_ZERO, nfds := 0 }

/-- One iteration of the build loop over slot `i` (lines 74-97, and the same
statements at lines 194-217). `nfds` is an `int`, `fd` a 32-bit unsigned
`PAL_IDX`: `nfds <= fd` compares as unsigned, `fd + 1` wraps at 32 bits and
is converted back to `int`. -/
def watch_slot (handle : pal_handle) (s : WatchSets) (i : Nat) : WatchSets :=
  let flags := handle.flags >>> i
  if flags &&& 0o11 = 0 then s
  else
    let fd := handle.fds i
    if fd = PAL_IDX_POISON then s
    else
      let s1 :=
        if flags &&& 0o1001 = 0o1 then
          { s with rfds := FD_SET fd s.rfds, efds := FD_SET fd s.efds }
        else s
      let s2 :=
        if flags &&& 0o1110 = 0o10 then
          { s1 with wfds := FD_SET fd s1.wfds, efds := FD_SET fd s1.efds }
        else s1
      if FD_ISSET fd s2.efds then
        if toUInt32 s2.nfds ≤ fd then
          { s2 with nfds := toInt32 (((fd + 1) % 2 ^ 32 : Nat) : Int) }
        else s2
      else s2

/-- The build loop `for (i = 0; i < MAX_FDS; i++)` over one handle. -/
def watch_handle (handle : pal_handle) (s : WatchSets) : WatchSets :=
  (List.range MAX_FDS).foldl (watch_slot handle) s

/-- One iteration of the build loop (lines 74-97) with the bounds of the three
sets made explicit: the statements of `watch_slot`, each `__FD_SET` and
`__FD_ISSET` through its checked form, so that the iteration has no result
(`none`) when it hands a macro a descriptor outside the 1024-bit sets. -/
def watch_slot_checked (handle : pal_handle) (s : WatchSets) (i : Nat) : Option WatchSets :=
  let flags := handle.flags >>> i
  if flags &&& 0o11 = 0 then some s
  else
    let fd := handle.fds i
    if fd = PAL_IDX_POISON then some s
    else
      (if flags &&& 0o1001 = 0o1 then
        (FD_SET_checked fd s.rfds).bind fun r =>
        (FD_SET_checked fd s.efds).bind fun e =>
        some { s with rfds := r, efds := e }
      else some s).bind fun s1 =>
      (if flags &&& 0o1110 = 0o10 then
        (FD_SET_checked fd s1.wfds).bind fun x =>
        (FD_SET_checked fd s1.efds).bind fun e =>
        some { s1 with wfds := x, efds := e }
      else some s1).bind fun s2 =>
      (FD_ISSET_checked fd s2.efds).bind fun b =>
      if b then
        if toUInt32 s2.nfds ≤ fd then
          some { s2 with nfds := toInt32 (((fd + 1) % 2 ^ 32 : Nat) : Int) }
        else some s2
      else some s2

/-- The build loop over one handle, with the bounds of the sets made explicit. -/
def watch_handle_checked (handle : pal_handle) (s : WatchSets) : Option WatchSets :=
  (List.range MAX_FDS).foldlM (watch_slot_checked handle) s

/-! ## The classify phase -/

/-- The statement `HANDLE_HDR(handle)->flags |= bits`. -/
def or_flags (w : World) (handle : Nat) (bits : Nat) : World :=
  { w with
    mem := Function.update w.mem handle
      { w.mem handle with flags := (w.mem handle).flags ||| bits } }

/-- The test of lines 135-139 (and 272-276): the handle kinds that get the
byte-count query. -/
def is_stream_type (handle : pal_handle) : Bool :=
  IS_HANDLE_TYPE handle pal_type.pipe ||
  IS_HANDLE_TYPE handle pal_type.pipeprv ||
  IS_HANDLE_TYPE handle pal_type.tcp ||
  IS_HANDLE_TYPE handle pal_type.udp ||
  IS_HANDLE_TYPE handle pal_type.process

/-- Lines 134-148 (and 271-285): the byte-count query on a descriptor that
the host reported readable. -/
def check_closed (env : Env) (handle : Nat) (r : SelectReply) (fd i : Nat)
    (w : World) : World :=
  if FD_ISSET fd r.rfds then
    if is_stream_type (w.mem handle) then
      let w1 := { w with trace := w.trace ++ [Syscall.ioctl_FIONREAD fd] }
      let q := env.ioctl_FIONREAD fd
      if IS_ERR q.ret || q.val = 0 then or_flags w1 handle (ERROR i) else w1
    else w
  else w

/-- Lines 150-153 (and 289-292): record writable and error results. -/
def set_results (handle : Nat) (r : SelectReply) (fd i : Nat) (w : World) : World :=
  let w1 := if FD_ISSET fd r.wfds then or_flags w handle (WRITEABLE i) else w
  if FD_ISSET fd r.efds then or_flags w1 handle (ERROR i) else w1

/-- One iteration of the classify loop of `_DkObjectWaitOne` over slot `i`
(lines 119-153); `r` holds the sets as `pselect6` left them. -/
def classify_slot (env : Env) (handle : Nat) (r : SelectReply) (w : World)
    (i : Nat) : World :=
  let flags := (w.mem handle).flags >>> i
  if flags &&& 0o11 = 0 then w
  else
    let fd := (w.mem handle).fds i
    if fd = PAL_IDX_POISON then w
    else if !FD_ISSET fd r.rfds && !FD_ISSET fd r.wfds && !FD_ISSET fd r.efds then w
    else set_results handle r fd i (check_closed env handle r fd i w)

/-- One iteration of the inner classify loop of `_DkObjectsWaitAny` over slot
`i` of `handle` (lines 256-292); the second component is `polled_hdl`. -/
def classify_slot_any (env : Env) (handle : Nat) (r : SelectReply)
    (st : World × Option Nat) (i : Nat) : World × Option Nat :=
  let flags := (st.1.mem handle).flags >>> i
  if flags &&& 0o11 = 0 then st
  else
    let fd := (st.1.mem handle).fds i
    if fd = PAL_IDX_POISON then st
    else if !FD_ISSET fd r.rfds && !FD_ISSET fd r.wfds && !FD_ISSET fd r.efds then st
    else
      let w1 := check_closed env handle r fd i st.1
      let polled_hdl := match st.2 with
        | some p => some p
        | none => some handle
      (set_results handle r fd i w1, polled_hdl)

/-! ## `_DkObjectWaitOne` (lines 53-165) -/

/-- The function `_DkObjectWaitOne(handle, timeout)` on the non-null handle
at address `handle` (the function dereferences its argument at line 57
without a test). Returns the `int` result and the final state. -/
def _DkObjectWaitOne (env : Env) (handle : Nat) (timeout : Nat) (w : World) :
    Int × World :=
  if (w.mem handle).flags &&& HAS_FDS ≠ 0 then
    let ts := timeout_ts timeout
    let s := watch_handle (w.mem handle) WatchSets.init
    if s.nfds = 0 then (-PAL_ERROR_TRYAGAIN, w)
    else
      let w1 := { w with
        trace := w.trace ++ [Syscall.pselect6 s.nfds s.rfds s.wfds s.efds ts] }
      let r := env.pselect6 s.nfds s.rfds s.wfds s.efds ts
      if IS_ERR r.ret then
        if ERRNO r.ret = EINTR ∨ ERRNO r.ret = ERESTART then
          (-PAL_ERROR_INTERRUPTED, w1)
        else (env.unix_to_pal_error (ERRNO r.ret), w1)
      else if r.ret = 0 then (-PAL_ERROR_TRYAGAIN, w1)
      else (0, (List.range MAX_FDS).foldl (classify_slot env handle r) w1)
  else
    match (env.HANDLE_OPS (w.mem handle)).wait with
    | none => (-PAL_ERROR_NOTSUPPORT, w)
    | some wait => wait handle timeout w

/-! ## `_DkObjectsWaitAny` (lines 169-298) -/

/-- Outcome of `_DkObjectsWaitAny`: the `int` result, what was stored through
the output parameter `polled` (`none`: nothing was stored; `some none`:
`NULL` was stored; `some (some p)`: the handle at `p`), and the final state. -/
structure WaitAnyResult where
  ret : Int
  polled : Option (Option Nat)
  world : World

/-- One iteration of the outer build loop (lines 189-218): a null entry is
skipped, the slots of any other are added to the watch sets. -/
def watch_entry (w : World) (s : WatchSets) (handle : Option Nat) : WatchSets :=
  match handle with
  | none => s
  | some p => watch_handle (w.mem p) s

/-- The outer build loop over the handle array (lines 188-219). -/
def watch_array (w : World) (handleArray : List (Option Nat)) : WatchSets :=
  handleArray.foldl (watch_entry w) WatchSets.init

/-- One iteration of the outer build loop, with the bounds of the sets made
explicit. -/
def watch_entry_checked (w : World) (s : WatchSets) (handle : Option Nat) : Option WatchSets :=
  match handle with
  | none => some s
  | some p => watch_handle_checked (w.mem p) s

/-- The outer build loop over the handle array, with the bounds of the sets
made explicit. -/
def watch_array_checked (w : World) (handleArray : List (Option Nat)) : Option WatchSets :=
  handleArray.foldlM (watch_entry_checked w) WatchSets.init

/-- One iteration of the outer classify loop (lines 251-293): a null entry is
skipped, the slots of any other are classified. -/
def classify_entry (env : Env) (r : SelectReply) (st : World × Option Nat)
    (handle : Option Nat) : World × Option Nat :=
  match handle with
  | none => st
  | some p => (List.range MAX_FDS).foldl (classify_slot_any env p r) st

/-- The outer classify loop over the handle array (lines 248-294), started
with `polled_hdl = NULL`. -/
def classify_array (env : Env) (r : SelectReply) (w : World)
    (handleArray : List (Option Nat)) : World × Option Nat :=
  handleArray.foldl (classify_entry env r) (w, none)

/-- The function `_DkObjectsWaitAny(count, handleArray, timeout, polled)`;
`count` is the length of `handleArray`, whose entries are handle addresses
or `NULL` (`none`). The result is `none` when the function dereferences a
null pointer (a single null entry is passed on to `_DkObjectWaitOne`). -/
def _DkObjectsWaitAny (env : Env) (handleArray : List (Option Nat))
    (timeout : Nat) (w : World) : Option WaitAnyResult :=
  match handleArray with
  | [] => some { ret := 0, polled := none, world := w }
  | [handle0] =>
    match handle0 with
    | none => none
    | some p =>
      let rv := _DkObjectWaitOne env p timeout w
      if rv.1 = 0 then some { ret := rv.1, polled := some (some p), world := rv.2 }
      else some { ret := rv.1, polled := none, world := rv.2 }
  | _ =>
    let s := watch_array w handleArray
    if s.nfds = 0 then
      some { ret := -PAL_ERROR_TRYAGAIN, polled := none, world := w }
    else
      let ts := timeout_ts timeout
      let w1 := { w with
        trace := w.trace ++ [Syscall.pselect6 s.nfds s.rfds s.wfds s.efds ts] }
      let r := env.pselect6 s.nfds s.rfds s.wfds s.efds ts
      if IS_ERR r.ret then
        if ERRNO r.ret = EINTR ∨ ERRNO r.ret = ERESTART then
          some { ret := -PAL_ERROR_INTERRUPTED, polled := none, world := w1 }
        else
          some { ret := env.unix_to_pal_error (ERRNO r.ret), polled := none, world := w1 }
      else if r.ret = 0 then
        some { ret := -PAL_ERROR_TRYAGAIN, polled := none, world := w1 }
      else
        let st := classify_array env r w1 handleArray
        some { ret := if st.2.isSome then 0 else -PAL_ERROR_TRYAGAIN,
               polled := some st.2, world := st.1 }

/-! ## `collect_heap_alloc_records` (lines 305-342) -/

/-- Modelled from the spec: the allocation record `{call_site_identifier, count}` (spec
§3), `HEAP_ALLOC_RECORD`, declared outside `db_object.c`: the call site
`caller` and the 64-bit `count`. -/
structure HEAP_ALLOC_RECORD where
  caller : Nat
  count : Nat
deriving DecidableEq, Repr

/-- Modelled from the spec: `sizeof(HEAP_ALLOC_RECORD)`, the two 8-byte fields of the
record (a code address and a `PAL_NUM`). -/
def sizeof_HEAP_ALLOC_RECORD : Nat := 16

/-- The number of whole records in the buffer that
`malloc(sizeof(HEAP_ALLOC_RECORD) * max_records)` returns: the size is a
64-bit unsigned product and wraps at `2^64`. -/
def buffer_records (max_records : Nat) : Nat :=
  (sizeof_HEAP_ALLOC_RECORD * max_records) % 2 ^ 64 / sizeof_HEAP_ALLOC_RECORD

/-- The inner loop `for (i = 0; i < nrecords; i++)` of lines 325-329, entered
at the `int` index `i` with `left = nrecords - i` iterations to go: it stops
at the first record whose call site is `caller`, incrementing its count, or
at `i == nrecords`. Returns the final `i` and the records; `none` stands
for an access `records[i]` outside the buffer. (`i++` cannot overflow: the
body runs with `i < nrecords`.) -/
def scan_records (caller : Nat) :
    Nat → Int → List HEAP_ALLOC_RECORD → Option (Int × List HEAP_ALLOC_RECORD)
  | 0, i, records => some (i, records)
  | left + 1, i, records =>
    if i < 0 ∨ (records.length : Int) ≤ i then none
    else if caller = (records.getD i.toNat { caller := 0, count := 0 }).caller then
      some (i, records.set i.toNat
        { caller := (records.getD i.toNat { caller := 0, count := 0 }).caller,
          count := ((records.getD i.toNat { caller := 0, count := 0 }).count + 1) % 2 ^ 64 })
    else scan_records caller left (i + 1) records

/-- The outer loop of lines 320-337 over the registry, given as the call
sites of the live handles in list order from `heap_alloc_head`. `nrecords`
is an `int`; `nrecords == max_records` compares it, converted, with the
64-bit unsigned `max_records`. `none` stands for a write `records[nrecords]`
outside the buffer and for the overflow of `nrecords++`. -/
def collect_loop (max_records : Nat) :
    List Nat → List HEAP_ALLOC_RECORD → Int → Option (List HEAP_ALLOC_RECORD)
  | [], records, _ => some records
  | caller :: next, records, nrecords =>
    match scan_records caller nrecords.toNat 0 records with
    | none => none
    | some (i, records1) =>
      if i = nrecords then
        if toULong nrecords = max_records % 2 ^ 64 then some records1
        else if nrecords < 0 ∨ (records1.length : Int) ≤ nrecords then none
        else if nrecords = 2147483647 then none
        else
          collect_loop max_records next
            (records1.set nrecords.toNat { caller := caller, count := 1 })
            (nrecords + 1)
      else collect_loop max_records next records1 nrecords

/-- The function `collect_heap_alloc_records(max_records)` on the registry
`heap_alloc_head`; `malloc_ok` tells whether the output buffer could be
allocated. The result is `some none` for `NULL`, `some (some records)` for
the buffer returned, of `buffer_records max_records` records, and `none`
when the loop steps outside the buffer or overflows `nrecords`. The lock is
not modelled. -/
def collect_heap_alloc_records (malloc_ok : Bool) (heap_alloc_head : List Nat)
    (max_records : Nat) : Option (Option (List HEAP_ALLOC_RECORD)) :=
  if !malloc_ok then some none
  else
    (collect_loop max_records heap_alloc_head
      (List.replicate (buffer_records max_records) { caller := 0, count := 0 }) 0).map some

/-! ## The specification's vocabulary -/

/-- Spec §3, `interest_read` of slot `i`: the `RFD(i)` bit of the flags word. -/
def interest_read (h : pal_handle) (i : Nat) : Bool := h.flags &&& RFD i != 0

/-- Spec §3, `interest_write` of slot `i`: the `WFD(i)` bit of the flags word. -/
def interest_write (h : pal_handle) (i : Nat) : Bool := h.flags &&& WFD i != 0

/-- Spec §3, `result_writable` of slot `i`: the `WRITEABLE(i)` bit. -/
def result_writable (h : pal_handle) (i : Nat) : Bool := h.flags &&& WRITEABLE i != 0

/-- Spec §3, `result_error` of slot `i`: the `ERROR(i)` bit. -/
def result_error (h : pal_handle) (i : Nat) : Bool := h.flags &&& ERROR i != 0

/-- Spec §3: slot `i` holds a descriptor, not the "unused" sentinel. -/
def occupied (h : pal_handle) (i : Nat) : Bool := h.fds i != PAL_IDX_POISON

/-- Spec §4.3 step 7: descriptor `fd` appears in one of the three result sets. -/
def in_result (r : SelectReply) (fd : Nat) : Bool :=
  FD_ISSET fd r.rfds || FD_ISSET fd r.wfds || FD_ISSET fd r.efds

/-- Spec §4.3 step 7: slot `i` is an occupied interest-bearing slot whose
descriptor appears in one of the result sets. -/
def slot_fires (h : pal_handle) (r : SelectReply) (i : Nat) : Bool :=
  (interest_read h i || interest_write h i) && occupied h i && in_result r (h.fds i)

/-- Spec §4.2: the stream kinds, whose readable descriptors are asked for their
byte count, are pipe, private pipe, TCP, UDP and process, and no other kind. -/
def stream_kind : pal_type → Bool
  | pal_type.pipe => true
  | pal_type.pipeprv => true
  | pal_type.tcp => true
  | pal_type.udp => true
  | pal_type.process => true
  | pal_type.file => false
  | pal_type.pipesrv => false
  | pal_type.pipecli => false
  | pal_type.dev => false
  | pal_type.dir => false
  | pal_type.tcpsrv => false
  | pal_type.udpsrv => false
  | pal_type.mcast => false
  | pal_type.thread => false
  | pal_type.semaphore => false
  | pal_type.event => false
  | pal_type.gipc => false

/-- Spec §4.2: the byte-count query on `fd` fails or reports zero. -/
def query_closed (env : Env) (fd : Nat) : Bool :=
  IS_ERR (env.ioctl_FIONREAD fd).ret || decide ((env.ioctl_FIONREAD fd).val = 0)

/-- Spec §4.3 step 7: the wait sets `result_error` of slot `i`. -/
def sets_error (env : Env) (h : pal_handle) (r : SelectReply) (i : Nat) : Bool :=
  slot_fires h r i &&
    (FD_ISSET (h.fds i) r.efds ||
      (FD_ISSET (h.fds i) r.rfds && stream_kind h.type && query_closed env (h.fds i)))

/-- Spec §4.3 step 7: the wait sets `result_writable` of slot `i`. -/
def sets_writable (h : pal_handle) (r : SelectReply) (i : Nat) : Bool :=
  slot_fires h r i && FD_ISSET (h.fds i) r.wfds

/-- The result bits of slot `i` that spec §4.3 step 7 sets. -/
def slot_result_bits (env : Env) (h : pal_handle) (r : SelectReply) (i : Nat) : Nat :=
  (if sets_error env h r i then ERROR i else 0) |||
    (if sets_writable h r i then WRITEABLE i else 0)

/-- The result bits of all slots that spec §4.3 step 7 sets. -/
def result_bits (env : Env) (h : pal_handle) (r : SelectReply) : Nat :=
  ((List.range MAX_FDS).map (slot_result_bits env h r)).foldr (fun a b => a ||| b) 0

/-- Spec §4.2: the byte-count queries due for slot `i`. -/
def slot_queries (h : pal_handle) (r : SelectReply) (i : Nat) : List Syscall :=
  if slot_fires h r i && FD_ISSET (h.fds i) r.rfds && stream_kind h.type then
    [Syscall.ioctl_FIONREAD (h.fds i)]
  else []

/-- A handle with result bits OR-ed into its flags word. -/
def with_bits (h : pal_handle) (bits : Nat) : pal_handle :=
  { h with flags := h.flags ||| bits }

/-- A word with no bit among the six interest bits. -/
def high_only (x : Nat) : Prop := ∀ k, k < 6 → x.testBit k = false

/-- The result bits of the slots in `l`. -/
def bits_list (env : Env) (h : pal_handle) (r : SelectReply) (l : List Nat) : Nat :=
  (l.map (slot_result_bits env h r)).foldr (fun a b => a ||| b) 0

/-- The byte-count queries due for the slots in `l`, in order. -/
def queries_list (h : pal_handle) (r : SelectReply) (l : List Nat) : List Syscall :=
  l.foldr (fun i acc => slot_queries h r i ++ acc) []

/-- Spec §4.2: the byte-count queries due for a handle, in slot order. -/
def handle_queries (h : pal_handle) (r : SelectReply) : List Syscall :=
  queries_list h r (List.range MAX_FDS)

/-- The slot is put in read-watch by the build loop: occupied, `interest_read`
set, `result_error` clear (the test `(flags & 01001) == 00001`). -/
def watches_read (h : pal_handle) (i : Nat) : Bool :=
  occupied h i && interest_read h i && !result_error h i

/-- The slot is put in write-watch by the build loop: occupied,
`interest_write` set, `result_writable` and `result_error` clear (the test
`(flags & 01110) == 00010`). -/
def watches_write (h : pal_handle) (i : Nat) : Bool :=
  occupied h i && interest_write h i && !result_writable h i && !result_error h i

/-- The three sets after the build step for slot `i`, `nfds` left alone. -/
def watch_sets_step (h : pal_handle) (s : WatchSets) (i : Nat) : WatchSets :=
  let s1 :=
    if watches_read h i then
      { s with rfds := FD_SET (h.fds i) s.rfds, efds := FD_SET (h.fds i) s.efds }
    else s
  if watches_write h i then
    { s1 with wfds := FD_SET (h.fds i) s1.wfds, efds := FD_SET (h.fds i) s1.efds }
  else s1

/-- The statement `if (nfds <= fd) nfds = fd + 1;`. -/
def bump_nfds (s : WatchSets) (fd : Nat) : WatchSets :=
  if toUInt32 s.nfds ≤ fd then { s with nfds := toInt32 (((fd + 1) % 2 ^ 32 : Nat) : Int) }
  else s

/-- The body of the build loop with its tests read as slot predicates. -/
def watch_slot_spec (h : pal_handle) (s : WatchSets) (i : Nat) : WatchSets :=
  if ((interest_read h i || interest_write h i) && occupied h i &&
      FD_ISSET (h.fds i) (watch_sets_step h s i).efds) = true then
    bump_nfds (watch_sets_step h s i) (h.fds i)
  else watch_sets_step h s i

/-- The descriptors of the handle fit the 1024-bit descriptor set: every
occupied slot with an interest flag, the slots whose descriptor the wait code
hands to `__FD_SET` or `__FD_ISSET`, holds a descriptor below `__FD_SETSIZE`. -/
def fds_fit (h : pal_handle) : Prop :=
  ∀ i, i < MAX_FDS → occupied h i = true →
    (interest_read h i || interest_write h i) = true → h.fds i < __FD_SETSIZE

instance (h : pal_handle) : Decidable (fds_fit h) := by
  unfold fds_fit; exact inferInstance

/-- The watch sets `_DkObjectWaitOne` builds for a handle. -/
def watch_of (h : pal_handle) : WatchSets := watch_handle h WatchSets.init

/-- The `pselect6` call made with the watch sets `s` and the deadline of `timeout`. -/
def select_call (s : WatchSets) (timeout : Nat) : Syscall :=
  Syscall.pselect6 s.nfds s.rfds s.wfds s.efds (timeout_ts timeout)

/-- The host's reply to `select_call s timeout`. -/
def host_reply (env : Env) (s : WatchSets) (timeout : Nat) : SelectReply :=
  env.pselect6 s.nfds s.rfds s.wfds s.efds (timeout_ts timeout)

/-- Spec §4.4: some occupied interest-bearing slot of the handle has its
descriptor in one of the result sets. -/
def handle_fires (h : pal_handle) (r : SelectReply) : Bool :=
  (List.range MAX_FDS).any (slot_fires h r)

/-- The non-null entries of a handle array, in list order. -/
def handles_of (handleArray : List (Option Nat)) : List Nat :=
  handleArray.filterMap id

/-- Spec §4.4: the first non-null handle, in list order, for which a slot
test fires. -/
def first_ready (w : World) (r : SelectReply) (handleArray : List (Option Nat)) :
    Option Nat :=
  (handles_of handleArray).find? (fun p => handle_fires (w.mem p) r)

/-- The statement `polled_hdl = polled_hdl ? : handle`. -/
def keep_first (cur : Option Nat) (p : Nat) : Option Nat :=
  match cur with
  | some q => some q
  | none => some p

/-- The heap after the handles at the addresses in `visited` had their result
bits OR-ed in (spec §4.3 step 7 applied to each). -/
def mem_after (env : Env) (r : SelectReply) (m : Nat → pal_handle) (visited : List Nat) :
    Nat → pal_handle :=
  fun q => if q ∈ visited then with_bits (m q) (result_bits env (m q) r) else m q

/-- The byte-count queries due for the handles at `ps`, in order. -/
def queries_of (m : Nat → pal_handle) (r : SelectReply) (ps : List Nat) : List Syscall :=
  ps.foldr (fun p acc => handle_queries (m p) r ++ acc) []

/-- Spec §4.3 steps 5-6: how the outcome `host_ret` of the host wait maps to
the result `ret` when nothing is ready: interruption, any other host error
(translated), timeout; none of them success, as long as the translation of
the host error is not itself 0. -/
def host_outcome (env : Env) (host_ret ret : Int) : Prop :=
  ((host_ret = -EINTR ∨ host_ret = -ERESTART) → ret = -PAL_ERROR_INTERRUPTED) ∧
  (host_ret < 0 → host_ret ≠ -EINTR → host_ret ≠ -ERESTART →
    ret = env.unix_to_pal_error (-host_ret)) ∧
  (host_ret = 0 → ret = -PAL_ERROR_TRYAGAIN) ∧
  (host_ret ≤ 0 → env.unix_to_pal_error (-host_ret) ≠ 0 → ret ≠ 0)

/-- The inner loop of `collect_heap_alloc_records` on mathematical integers,
inside a buffer that holds every index met: entered at index `i` with `left`
iterations to go, it stops at the first record whose call site is `caller`,
incrementing its count, or after the last iteration. -/
def scan_table (caller : Nat) :
    Nat → Nat → List HEAP_ALLOC_RECORD → Nat × List HEAP_ALLOC_RECORD
  | 0, i, records => (i, records)
  | left + 1, i, records =>
    if caller = (records.getD i { caller := 0, count := 0 }).caller then
      (i, records.set i
        { caller := (records.getD i { caller := 0, count := 0 }).caller,
          count := ((records.getD i { caller := 0, count := 0 }).count + 1) % 2 ^ 64 })
    else scan_table caller left (i + 1) records

/-- The outer loop of `collect_heap_alloc_records` on mathematical integers,
inside a buffer of `max_records` records. -/
def collect_table (max_records : Nat) :
    List Nat → List HEAP_ALLOC_RECORD → Nat → List HEAP_ALLOC_RECORD
  | [], records, _ => records
  | caller :: next, records, nrecords =>
    if (scan_table caller nrecords 0 records).1 = nrecords then
      if nrecords = max_records then (scan_table caller nrecords 0 records).2
      else
        collect_table max_records next
          ((scan_table caller nrecords 0 records).2.set nrecords
            { caller := caller, count := 1 })
          (nrecords + 1)
    else collect_table max_records next (scan_table caller nrecords 0 records).2 nrecords

/-! ## Scenarios -/

/-- A heap in which every address holds the handle `h`, no call issued yet. -/
def world_of (h : pal_handle) : World := { mem := fun _ => h, trace := [] }

/-- A host on which one watched descriptor is writable: `pselect6` returns 1
and leaves the write set as it was given, the other two empty. -/
def host_writable : Env where
  pselect6 := fun _ _ wfds _ _ => { ret := 1, rfds := 0, wfds := wfds, efds := 0 }
  ioctl_FIONREAD := fun _ => { ret := 0, val := 1 }
  unix_to_pal_error := fun _ => -6
  HANDLE_OPS := fun _ => { wait := none }

/-- A host on which the peer has closed: `pselect6` returns 1 and leaves the
read set as it was given, and the byte-count query reports 0 bytes. -/
def host_eof : Env where
  pselect6 := fun _ rfds _ _ _ => { ret := 1, rfds := rfds, wfds := 0, efds := 0 }
  ioctl_FIONREAD := fun _ => { ret := 0, val := 0 }
  unix_to_pal_error := fun _ => -6
  HANDLE_OPS := fun _ => { wait := none }

/-- A private-pipe handle with one descriptor (5) and write interest in it. -/
def pipeprv_writer : pal_handle :=
  { type := pal_type.pipeprv, flags := WFD 0,
    fds := fun i => if i = 0 then 5 else PAL_IDX_POISON }

/-- A TCP handle with one descriptor (7) and read interest in it. -/
def tcp_reader : pal_handle :=
  { type := pal_type.tcp, flags := RFD 0,
    fds := fun i => if i = 0 then 7 else PAL_IDX_POISON }

/-- A UDP handle with one descriptor (3) and write interest in it. -/
def udp_writer : pal_handle :=
  { type := pal_type.udp, flags := WFD 0,
    fds := fun i => if i = 0 then 3 else PAL_IDX_POISON }

/-- An event handle: no descriptor, no interest bit. -/
def event_handle : pal_handle :=
  { type := pal_type.event, flags := 0, fds := fun _ => PAL_IDX_POISON }

/-- A pipe handle with read interest registered on a slot that holds no
descriptor. -/
def pipe_unused : pal_handle :=
  { type := pal_type.pipe, flags := RFD 0, fds := fun _ => PAL_IDX_POISON }

/-- A heap with `pipeprv_writer` at address 1 and `udp_writer` elsewhere. -/
def two_writers : World :=
  { mem := fun a => if a = 1 then pipeprv_writer else udp_writer, trace := [] }

/-- A heap with `tcp_reader` at address 3 and event handles elsewhere. -/
def third_reader : World :=
  { mem := fun a => if a = 3 then tcp_reader else event_handle, trace := [] }

/-- A heap with `pipe_unused` at address 1 and event handles elsewhere. -/
def unused_and_event : World :=
  { mem := fun a => if a = 1 then pipe_unused else event_handle, trace := [] }

/-- A host whose `pselect6` times out: it returns 0 and empties the sets. -/
def host_timeout : Env where
  pselect6 := fun _ _ _ _ _ => { ret := 0, rfds := 0, wfds := 0, efds := 0 }
  ioctl_FIONREAD := fun _ => { ret := 0, val := 1 }
  unix_to_pal_error := fun _ => -6
  HANDLE_OPS := fun _ => { wait := none }

/-- A host whose `pselect6` is interrupted by a signal (`-EINTR`). -/
def host_interrupted : Env where
  pselect6 := fun _ r w e _ => { ret := -4, rfds := r, wfds := w, efds := e }
  ioctl_FIONREAD := fun _ => { ret := 0, val := 1 }
  unix_to_pal_error := fun _ => -6
  HANDLE_OPS := fun _ => { wait := none }

/-- An operation table whose `wait` for event handles returns the negated
timeout it was called with, and which has no `wait` for other kinds. -/
def host_event : Env where
  pselect6 := fun _ _ _ _ _ => { ret := 0, rfds := 0, wfds := 0, efds := 0 }
  ioctl_FIONREAD := fun _ => { ret := 0, val := 1 }
  unix_to_pal_error := fun _ => -6
  HANDLE_OPS := fun h =>
    if h.type = pal_type.event then { wait := some (fun _ t w => (-(t : Int), w)) }
    else { wait := none }

/-- A TCP handle with one descriptor (7) and read interest in it, on which an
earlier wait has left `result_error` set. -/
def tcp_reader_errored : pal_handle :=
  { type := pal_type.tcp, flags := RFD 0 ||| ERROR 0,
    fds := fun i => if i = 0 then 7 else PAL_IDX_POISON }

/-- A UDP handle with one descriptor (3) and write interest in it, on which an
earlier wait has left `result_writable` set. -/
def udp_writer_reported : pal_handle :=
  { type := pal_type.udp, flags := WFD 0 ||| WRITEABLE 0,
    fds := fun i => if i = 0 then 3 else PAL_IDX_POISON }

/-- A pipe handle with descriptors 4 (read interest) and 9 (write interest). -/
def pipe_duplex : pal_handle :=
  { type := pal_type.pipe, flags := RFD 0 ||| WFD 1,
    fds := fun i => if i = 0 then 4 else if i = 1 then 9 else PAL_IDX_POISON }

/-- A heap with `pipe_duplex` at address 1 and `udp_writer` elsewhere. -/
def duplex_and_writer : World :=
  { mem := fun a => if a = 1 then pipe_duplex else udp_writer, trace := [] }

/-- A host whose `pselect6` reports one ready descriptor but hands back three
empty sets. -/
def host_spurious : Env where
  pselect6 := fun _ _ _ _ _ => { ret := 1, rfds := 0, wfds := 0, efds := 0 }
  ioctl_FIONREAD := fun _ => { ret := 0, val := 1 }
  unix_to_pal_error := fun _ => -6
  HANDLE_OPS := fun _ => { wait := none }

/-- The word `x` holds only result bits (`WRITEABLE(i)`, `ERROR(i)`) of
occupied interest-bearing slots of `h`. -/
def own_result_bits (h : pal_handle) (x : Nat) : Prop :=
  ∀ k, x.testBit k = true →
    ∃ i, i < MAX_FDS ∧ (2 ^ k = WRITEABLE i ∨ 2 ^ k = ERROR i) ∧
      occupied h i = true ∧ (interest_read h i || interest_write h i) = true

/-- Spec §3 (ownership): what a wait may do to a handle. Kind tag and
descriptor slots stay; the interest bits stay; a result bit that was set
stays set; the flags word is the old one OR-ed with result bits of the
handle's own occupied interest-bearing slots. -/
def wait_frame (h h' : pal_handle) : Prop :=
  h'.type = h.type ∧ h'.fds = h.fds ∧
  (∀ i, i < MAX_FDS →
    interest_read h' i = interest_read h i ∧ interest_write h' i = interest_write h i ∧
    (result_writable h i = true → result_writable h' i = true) ∧
    (result_error h i = true → result_error h' i = true)) ∧
  ∃ x, h'.flags = h.flags ||| x ∧ own_result_bits h x

/-- What the build loop maintains: read-watch and write-watch lie within
error-watch, `nfds` is a non-negative `int`, above every watched
descriptor, and is one plus a watched descriptor unless it is 0. -/
def nfds_inv (s : WatchSets) : Prop :=
  (∀ d, FD_ISSET d s.rfds = true → FD_ISSET d s.efds = true) ∧
  (∀ d, FD_ISSET d s.wfds = true → FD_ISSET d s.efds = true) ∧
  (0 ≤ s.nfds ∧ s.nfds < 2 ^ 31) ∧
  (∀ d, FD_ISSET d s.efds = true → (d : Int) < s.nfds) ∧
  (s.nfds ≠ 0 → ∃ d, FD_ISSET d s.efds = true ∧ s.nfds = (d : Int) + 1)

/-- The descriptor bound handed to the host with the sets `s`: read-watch and
write-watch lie within error-watch; `nfds` is 0 exactly when the three sets
are empty; otherwise it is one plus a watched descriptor and above every
watched descriptor, that is one plus the largest. -/
def descriptor_bound (s : WatchSets) : Prop :=
  (∀ d, FD_ISSET d s.rfds = true ∨ FD_ISSET d s.wfds = true → FD_ISSET d s.efds = true) ∧
  (s.nfds = 0 ↔ (s.rfds = FD_ZERO ∧ s.wfds = FD_ZERO ∧ s.efds = FD_ZERO)) ∧
  (s.nfds ≠ 0 → ∃ d, FD_ISSET d s.efds = true ∧ s.nfds = (d : Int) + 1) ∧
  (∀ d, FD_ISSET d s.rfds = true ∨ FD_ISSET d s.wfds = true ∨ FD_ISSET d s.efds = true →
    (d : Int) < s.nfds)

/-- A TCP handle with read interest in the descriptor 1024, the first one
past the last bit of a descriptor set. -/
def fd1024_reader : pal_handle :=
  { type := pal_type.tcp, flags := RFD 0,
    fds := fun i => if i = 0 then 1024 else PAL_IDX_POISON }

/-- The distinct call sites of a registry, in order of first occurrence. -/
def first_occurrences : List Nat → List Nat
  | [] => []
  | c :: l => c :: (first_occurrences l).filter (fun x => decide (x ≠ c))

/-- Spec §4.5: the summary of a list of handles, one record for each distinct
call site in order of first occurrence, counting the handles allocated at
it. -/
def summary (l : List Nat) : List HEAP_ALLOC_RECORD :=
  (first_occurrences l).map (fun c => { caller := c, count := l.count c })

/-- The records of the output buffer that were never written (`memset` to 0). -/
def padding (k : Nat) : List HEAP_ALLOC_RECORD :=
  List.replicate k { caller := 0, count := 0 }

/-- The system calls of one wait on the watch sets `s`: none when nothing is
watched (`nfds` is 0); otherwise the `pselect6` call, followed, when the host
reports ready descriptors with the result sets of `r`, by the byte-count
queries `qs` due for those result sets. -/
def wait_calls (s : WatchSets) (timeout : Nat) (r : SelectReply) (qs : List Syscall) :
    List Syscall :=
  if s.nfds = 0 then []
  else select_call s timeout :: (if 0 < r.ret then qs else [])

/-! ## Lemmas -/

theorem testBit_true_lt {m n k : Nat} (hm : m < 2 ^ n) (hk : m.testBit k = true) : k < n := by
  by_contra hlt
  have h2 : m < 2 ^ k := lt_of_lt_of_le hm (Nat.pow_le_pow_right (by decide) (by omega))
  rw [Nat.testBit_lt_two_pow h2] at hk
  exact Bool.noConfusion hk

theorem and_eq_iff (x m c : Nat) (hc : c &&& m = c) :
    x &&& m = c ↔ ∀ k, m.testBit k = true → x.testBit k = c.testBit k := by
  constructor
  · intro h k hk
    have := congrArg (fun z => Nat.testBit z k) h
    simpa [Nat.testBit_and, hk] using this
  · intro h
    apply Nat.eq_of_testBit_eq
    intro k
    rw [Nat.testBit_and]
    cases hm : m.testBit k with
    | true => simp [h k hm]
    | false =>
      have := congrArg (fun z => Nat.testBit z k) hc
      simp [Nat.testBit_and, hm] at this
      simp [this]

theorem mask11 (x : Nat) : x &&& 0o11 = 0 ↔ (x.testBit 0 = false ∧ x.testBit 3 = false) := by
  rw [and_eq_iff x 0o11 0 (by decide)]
  constructor
  · intro h
    exact ⟨by simpa using h 0 (by decide), by simpa using h 3 (by decide)⟩
  · rintro ⟨h0, h3⟩ k hk
    have hlt : k < 4 := testBit_true_lt (m := 0o11) (by decide) hk
    interval_cases k <;>
      first
      | exact absurd hk (by decide)
      | exact h0.trans (by decide)
      | exact h3.trans (by decide)

theorem mask1001 (x : Nat) : x &&& 0o1001 = 0o1 ↔ (x.testBit 0 = true ∧ x.testBit 9 = false) := by
  rw [and_eq_iff x 0o1001 0o1 (by decide)]
  constructor
  · intro h
    exact ⟨by simpa using h 0 (by decide), by simpa using h 9 (by decide)⟩
  · rintro ⟨h0, h3⟩ k hk
    have hlt : k < 10 := testBit_true_lt (m := 0o1001) (by decide) hk
    interval_cases k <;>
      first
      | exact absurd hk (by decide)
      | exact h0.trans (by decide)
      | exact h3.trans (by decide)

theorem mask1110 (x : Nat) : x &&& 0o1110 = 0o10 ↔
    (x.testBit 3 = true ∧ x.testBit 6 = false ∧ x.testBit 9 = false) := by
  rw [and_eq_iff x 0o1110 0o10 (by decide)]
  constructor
  · intro h
    exact ⟨by simpa using h 3 (by decide), by simpa using h 6 (by decide),
      by simpa using h 9 (by decide)⟩
  · rintro ⟨h0, h3, h9⟩ k hk
    have hlt : k < 10 := testBit_true_lt (m := 0o1110) (by decide) hk
    interval_cases k <;>
      first
      | exact absurd hk (by decide)
      | exact h0.trans (by decide)
      | exact h3.trans (by decide)
      | exact h9.trans (by decide)

theorem and_shift_ne_zero (x j i : Nat) : (x &&& (2 ^ j <<< i) != 0) = x.testBit (i + j) := by
  rw [Nat.shiftLeft_eq, ← Nat.pow_add, Nat.and_two_pow, Nat.add_comm j i]
  cases x.testBit (i + j) <;> simp

theorem interest_read_eq (h : pal_handle) (i : Nat) :
    interest_read h i = h.flags.testBit i := by
  simpa using and_shift_ne_zero h.flags 0 i

theorem interest_write_eq (h : pal_handle) (i : Nat) :
    interest_write h i = h.flags.testBit (i + 3) :=
  and_shift_ne_zero h.flags 3 i

theorem result_writable_eq (h : pal_handle) (i : Nat) :
    result_writable h i = h.flags.testBit (i + 6) :=
  and_shift_ne_zero h.flags 6 i

theorem result_error_eq (h : pal_handle) (i : Nat) :
    result_error h i = h.flags.testBit (i + 9) :=
  and_shift_ne_zero h.flags 9 i

theorem shift_mask11 (f i : Nat) :
    (f >>> i) &&& 0o11 = 0 ↔ (f.testBit i = false ∧ f.testBit (i + 3) = false) := by
  rw [mask11]; simp [Nat.testBit_shiftRight]

theorem shift_mask1001 (f i : Nat) :
    (f >>> i) &&& 0o1001 = 0o1 ↔ (f.testBit i = true ∧ f.testBit (i + 9) = false) := by
  rw [mask1001]; simp [Nat.testBit_shiftRight]

theorem shift_mask1110 (f i : Nat) :
    (f >>> i) &&& 0o1110 = 0o10 ↔
      (f.testBit (i + 3) = true ∧ f.testBit (i + 6) = false ∧ f.testBit (i + 9) = false) := by
  rw [mask1110]; simp [Nat.testBit_shiftRight]

theorem with_bits_zero (h : pal_handle) : with_bits h 0 = h := by
  simp [with_bits]

theorem with_bits_with_bits (h : pal_handle) (a b : Nat) :
    with_bits (with_bits h a) b = with_bits h (a ||| b) := by
  simp [with_bits, Nat.or_assoc]

theorem or_left_idem (a b : Nat) : a ||| (a ||| b) = a ||| b := by
  rw [← Nat.or_assoc, Nat.or_self]

theorem or_flags_eq (w : World) (p bits : Nat) :
    or_flags w p bits =
      { mem := Function.update w.mem p (with_bits (w.mem p) bits), trace := w.trace } := rfl

theorem slot_fires_iff (h : pal_handle) (r : SelectReply) (i : Nat) :
    slot_fires h r i = true ↔
      ¬ ((h.flags >>> i) &&& 0o11 = 0) ∧ h.fds i ≠ PAL_IDX_POISON ∧
      ¬ ((!FD_ISSET (h.fds i) r.rfds && !FD_ISSET (h.fds i) r.wfds &&
          !FD_ISSET (h.fds i) r.efds) = true) := by
  rw [shift_mask11]
  simp only [slot_fires, interest_read_eq, interest_write_eq, occupied, in_result]
  cases h.flags.testBit i <;> cases h.flags.testBit (i + 3) <;>
    cases FD_ISSET (h.fds i) r.rfds <;> cases FD_ISSET (h.fds i) r.wfds <;>
    cases FD_ISSET (h.fds i) r.efds <;> simp

/-- The kind test of the code is the spec's list of stream kinds. -/
theorem is_stream_type_eq (h : pal_handle) : is_stream_type h = stream_kind h.type := by
  unfold is_stream_type IS_HANDLE_TYPE
  cases h.type <;> rfl

/-- The classify step as a closed form: OR the slot's result bits into the
handle at `p`, and log the slot's byte-count query. -/
theorem classify_slot_eq (env : Env) (p : Nat) (r : SelectReply) (w : World) (i : Nat) :
    classify_slot env p r w i =
      { mem := Function.update w.mem p
          (with_bits (w.mem p) (slot_result_bits env (w.mem p) r i)),
        trace := w.trace ++ slot_queries (w.mem p) r i } := by
  by_cases hf : slot_fires (w.mem p) r i = true
  · have hf2 := (slot_fires_iff _ _ _).1 hf
    obtain ⟨h1, h2, h3⟩ := hf2
    simp only [classify_slot, if_neg h1, if_neg h2, if_neg h3]
    simp only [set_results, check_closed, or_flags_eq, slot_result_bits, sets_error,
      sets_writable, slot_queries, query_closed, hf, Bool.true_and, is_stream_type_eq]
    cases hr : FD_ISSET ((w.mem p).fds i) r.rfds <;>
      cases hw : FD_ISSET ((w.mem p).fds i) r.wfds <;>
      cases he : FD_ISSET ((w.mem p).fds i) r.efds <;>
      cases hs : stream_kind (w.mem p).type <;>
      cases hq : (IS_ERR (env.ioctl_FIONREAD ((w.mem p).fds i)).ret ||
        decide ((env.ioctl_FIONREAD ((w.mem p).fds i)).val = 0)) <;>
      simp [hq, with_bits_with_bits, with_bits_zero, Nat.or_comm, or_left_idem]
  · have hf' : slot_fires (w.mem p) r i = false := by simpa using hf
    have hw : classify_slot env p r w i = w := by
      have := (not_congr (slot_fires_iff (w.mem p) r i)).1 hf
      simp only [classify_slot]
      by_cases h1 : ((w.mem p).flags >>> i) &&& 0o11 = 0
      · simp [h1]
      · by_cases h2 : (w.mem p).fds i = PAL_IDX_POISON
        · simp [h1, h2]
        · have h3 : (!FD_ISSET ((w.mem p).fds i) r.rfds && !FD_ISSET ((w.mem p).fds i) r.wfds &&
            !FD_ISSET ((w.mem p).fds i) r.efds) = true := by
            by_contra h3
            exact this ⟨h1, h2, h3⟩
          simp only [if_neg h1, if_neg h2, if_pos h3]
    rw [hw]
    simp [slot_result_bits, sets_error, sets_writable, slot_queries, hf', with_bits_zero]

theorem high_only_zero : high_only 0 := by
  intro k _; simp

theorem high_only_or {a b : Nat} (ha : high_only a) (hb : high_only b) :
    high_only (a ||| b) := by
  intro k hk; simp [Nat.testBit_or, ha k hk, hb k hk]

theorem high_only_ERROR (i : Nat) : high_only (ERROR i) := by
  intro k hk
  have : ERROR i = 2 ^ (i + 9) := by
    simp [ERROR, Nat.shiftLeft_eq, Nat.pow_add, Nat.mul_comm]
  rw [this, Nat.testBit_two_pow]
  simp; omega

theorem high_only_WRITEABLE (i : Nat) : high_only (WRITEABLE i) := by
  intro k hk
  have : WRITEABLE i = 2 ^ (i + 6) := by
    simp [WRITEABLE, Nat.shiftLeft_eq, Nat.pow_add, Nat.mul_comm]
  rw [this, Nat.testBit_two_pow]
  simp; omega

theorem high_only_slot_result_bits (env : Env) (h : pal_handle) (r : SelectReply) (i : Nat) :
    high_only (slot_result_bits env h r i) := by
  unfold slot_result_bits
  apply high_only_or
  · split
    · exact high_only_ERROR i
    · exact high_only_zero
  · split
    · exact high_only_WRITEABLE i
    · exact high_only_zero

theorem slot_fires_with_bits (h : pal_handle) (r : SelectReply) {x i : Nat}
    (hx : high_only x) (hi : i < MAX_FDS) :
    slot_fires (with_bits h x) r i = slot_fires h r i := by
  have hi3 : i < 3 := hi
  simp only [slot_fires, interest_read_eq, interest_write_eq, occupied, with_bits,
    Nat.testBit_or, hx i (by omega), hx (i + 3) (by omega), Bool.or_false]

theorem slot_result_bits_with_bits (env : Env) (h : pal_handle) (r : SelectReply) {x i : Nat}
    (hx : high_only x) (hi : i < MAX_FDS) :
    slot_result_bits env (with_bits h x) r i = slot_result_bits env h r i := by
  simp only [slot_result_bits, sets_error, sets_writable, slot_fires_with_bits h r hx hi]
  rfl

theorem slot_queries_with_bits (h : pal_handle) (r : SelectReply) {x i : Nat}
    (hx : high_only x) (hi : i < MAX_FDS) :
    slot_queries (with_bits h x) r i = slot_queries h r i := by
  simp only [slot_queries, slot_fires_with_bits h r hx hi]
  rfl

theorem high_only_bits_list (env : Env) (h : pal_handle) (r : SelectReply) (l : List Nat) :
    high_only (bits_list env h r l) := by
  induction l with
  | nil => exact high_only_zero
  | cons i l ih => exact high_only_or (high_only_slot_result_bits env h r i) ih

theorem high_only_result_bits (env : Env) (h : pal_handle) (r : SelectReply) :
    high_only (result_bits env h r) :=
  high_only_bits_list env h r (List.range MAX_FDS)

theorem bits_list_with_bits (env : Env) (h : pal_handle) (r : SelectReply) {x : Nat}
    (hx : high_only x) (l : List Nat) (hl : ∀ i ∈ l, i < MAX_FDS) :
    bits_list env (with_bits h x) r l = bits_list env h r l := by
  induction l with
  | nil => rfl
  | cons i l ih =>
    have h1 := slot_result_bits_with_bits env h r hx (hl i (List.mem_cons_self i l))
    have h2 := ih (fun j hj => hl j (List.mem_cons_of_mem i hj))
    simp only [bits_list, List.map_cons, List.foldr_cons] at h2 ⊢
    rw [h1, h2]

theorem queries_list_with_bits (h : pal_handle) (r : SelectReply) {x : Nat}
    (hx : high_only x) (l : List Nat) (hl : ∀ i ∈ l, i < MAX_FDS) :
    queries_list (with_bits h x) r l = queries_list h r l := by
  induction l with
  | nil => rfl
  | cons i l ih =>
    have h1 := slot_queries_with_bits h r hx (hl i (List.mem_cons_self i l))
    have h2 := ih (fun j hj => hl j (List.mem_cons_of_mem i hj))
    simp only [queries_list, List.foldr_cons] at h2 ⊢
    rw [h1, h2]

/-- The classify loop over the slots in `l` as a closed form. -/
theorem classify_fold_eq (env : Env) (p : Nat) (r : SelectReply) (l : List Nat)
    (hl : ∀ i ∈ l, i < MAX_FDS) (w : World) :
    l.foldl (classify_slot env p r) w =
      { mem := Function.update w.mem p (with_bits (w.mem p) (bits_list env (w.mem p) r l)),
        trace := w.trace ++ queries_list (w.mem p) r l } := by
  induction l generalizing w with
  | nil => simp [bits_list, queries_list, with_bits_zero]
  | cons i l ih =>
    have hl' : ∀ j ∈ l, j < MAX_FDS := fun j hj => hl j (List.mem_cons_of_mem i hj)
    have hx := high_only_slot_result_bits env (w.mem p) r i
    rw [List.foldl_cons, ih hl', classify_slot_eq]
    simp only [Function.update_same, Function.update_idem,
      bits_list_with_bits env (w.mem p) r hx l hl',
      queries_list_with_bits (w.mem p) r hx l hl', with_bits_with_bits, List.append_assoc]
    rfl

theorem FD_ISSET_FD_SET (d fd s : Nat) :
    FD_ISSET d (FD_SET fd s) =
      (FD_ISSET d s || (decide (fd = d) && decide (fd < __FD_SETSIZE))) := by
  unfold FD_ISSET FD_SET
  by_cases hfd : fd < __FD_SETSIZE
  · rw [if_pos hfd]
    by_cases hd : d < __FD_SETSIZE
    · simp [hfd, hd, Nat.testBit_or, Nat.one_shiftLeft, Nat.testBit_two_pow]
    · have : fd ≠ d := fun e => hd (e ▸ hfd)
      simp [hfd, hd, this]
  · rw [if_neg hfd]; simp [hfd]

theorem FD_ISSET_FD_SET_of_lt (d fd s : Nat) (hfd : fd < __FD_SETSIZE) :
    FD_ISSET d (FD_SET fd s) = (FD_ISSET d s || decide (fd = d)) := by
  rw [FD_ISSET_FD_SET]; simp [hfd]

theorem FD_ISSET_lt {d x : Nat} (h : FD_ISSET d x = true) : d < __FD_SETSIZE := by
  simp only [FD_ISSET, Bool.and_eq_true, decide_eq_true_eq] at h
  exact h.1

theorem FD_ISSET_FD_ZERO (d : Nat) : FD_ISSET d FD_ZERO = false := by
  simp [FD_ISSET, FD_ZERO]

theorem watches_read_iff (h : pal_handle) (i : Nat) :
    watches_read h i = true ↔
      h.fds i ≠ PAL_IDX_POISON ∧ (h.flags >>> i) &&& 0o1001 = 0o1 := by
  rw [shift_mask1001]
  simp only [watches_read, occupied, interest_read_eq, result_error_eq]
  cases h.flags.testBit i <;> cases h.flags.testBit (i + 9) <;> simp

theorem watches_write_iff (h : pal_handle) (i : Nat) :
    watches_write h i = true ↔
      h.fds i ≠ PAL_IDX_POISON ∧ (h.flags >>> i) &&& 0o1110 = 0o10 := by
  rw [shift_mask1110]
  simp only [watches_write, occupied, interest_write_eq, result_writable_eq, result_error_eq]
  cases h.flags.testBit (i + 3) <;> cases h.flags.testBit (i + 6) <;>
    cases h.flags.testBit (i + 9) <;> simp

theorem interest_iff (h : pal_handle) (i : Nat) :
    (interest_read h i || interest_write h i) = true ↔ ¬ ((h.flags >>> i) &&& 0o11 = 0) := by
  rw [shift_mask11, interest_read_eq, interest_write_eq]
  cases h.flags.testBit i <;> cases h.flags.testBit (i + 3) <;> simp

theorem watches_read_interest {h : pal_handle} {i : Nat} (hc : watches_read h i = true) :
    interest_read h i = true ∧ occupied h i = true ∧ result_error h i = false := by
  simp only [watches_read, Bool.and_eq_true, Bool.not_eq_true'] at hc
  exact ⟨hc.1.2, hc.1.1, hc.2⟩

theorem watches_write_interest {h : pal_handle} {i : Nat} (hc : watches_write h i = true) :
    interest_write h i = true ∧ occupied h i = true ∧ result_writable h i = false ∧
      result_error h i = false := by
  simp only [watches_write, Bool.and_eq_true, Bool.not_eq_true'] at hc
  exact ⟨hc.1.1.2, hc.1.1.1, hc.1.2, hc.2⟩

theorem watch_slot_eq (h : pal_handle) (s : WatchSets) (i : Nat) :
    watch_slot h s i = watch_slot_spec h s i := by
  have hint := interest_iff h i
  by_cases h1 : (h.flags >>> i) &&& 0o11 = 0
  · have hi : (interest_read h i || interest_write h i) = false := by
      cases hc : (interest_read h i || interest_write h i)
      · rfl
      · exact absurd h1 (hint.1 hc)
    have hnr : watches_read h i = false := by
      cases hc : watches_read h i
      · rfl
      · have := (watches_read_interest hc).1
        simp [this] at hi
    have hnw : watches_write h i = false := by
      cases hc : watches_write h i
      · rfl
      · have := (watches_write_interest hc).1
        simp [this] at hi
    simp [watch_slot, watch_slot_spec, watch_sets_step, h1, hi, hnr, hnw]
  · have hi : (interest_read h i || interest_write h i) = true := hint.2 h1
    by_cases h2 : h.fds i = PAL_IDX_POISON
    · have ho : occupied h i = false := by simp [occupied, h2]
      have hnr : watches_read h i = false := by simp [watches_read, ho]
      have hnw : watches_write h i = false := by simp [watches_write, ho]
      simp [watch_slot, watch_slot_spec, watch_sets_step, h1, h2, hi, hnr, hnw, ho]
    · have ho : occupied h i = true := by simp [occupied, h2]
      have hr : watches_read h i = decide ((h.flags >>> i) &&& 0o1001 = 0o1) := by
        have := watches_read_iff h i
        by_cases hR : (h.flags >>> i) &&& 0o1001 = 0o1
        · simp [hR, this.2 ⟨h2, hR⟩]
        · cases hc : watches_read h i
          · simp [hR]
          · exact absurd (this.1 hc).2 hR
      have hw : watches_write h i = decide ((h.flags >>> i) &&& 0o1110 = 0o10) := by
        have := watches_write_iff h i
        by_cases hW : (h.flags >>> i) &&& 0o1110 = 0o10
        · simp [hW, this.2 ⟨h2, hW⟩]
        · cases hc : watches_write h i
          · simp [hW]
          · exact absurd (this.1 hc).2 hW
      simp only [watch_slot, watch_slot_spec, watch_sets_step, bump_nfds, if_neg h1, if_neg h2,
        hi, ho, hr, hw, Bool.true_and, decide_eq_true_eq]

theorem toInt32_succ_ne_zero {fd : Nat} (h1 : fd < 2 ^ 32) (h2 : fd ≠ PAL_IDX_POISON) :
    toInt32 (((fd + 1) % 2 ^ 32 : Nat) : Int) ≠ 0 := by
  simp only [toInt32, PAL_IDX_POISON] at *
  norm_num at *
  omega

theorem toUInt32_zero : toUInt32 0 = 0 := by
  simp [toUInt32]

@[simp]
theorem bump_nfds_rfds (s : WatchSets) (fd : Nat) : (bump_nfds s fd).rfds = s.rfds := by
  unfold bump_nfds; split <;> rfl

@[simp]
theorem bump_nfds_wfds (s : WatchSets) (fd : Nat) : (bump_nfds s fd).wfds = s.wfds := by
  unfold bump_nfds; split <;> rfl

@[simp]
theorem bump_nfds_efds (s : WatchSets) (fd : Nat) : (bump_nfds s fd).efds = s.efds := by
  unfold bump_nfds; split <;> rfl

@[simp]
theorem watch_sets_step_nfds (h : pal_handle) (s : WatchSets) (i : Nat) :
    (watch_sets_step h s i).nfds = s.nfds := by
  unfold watch_sets_step; split <;> split <;> rfl

theorem watch_sets_step_rfds (h : pal_handle) (s : WatchSets) (i : Nat) :
    (watch_sets_step h s i).rfds =
      if watches_read h i then FD_SET (h.fds i) s.rfds else s.rfds := by
  unfold watch_sets_step; split <;> split <;> simp_all

theorem watch_sets_step_wfds (h : pal_handle) (s : WatchSets) (i : Nat) :
    (watch_sets_step h s i).wfds =
      if watches_write h i then FD_SET (h.fds i) s.wfds else s.wfds := by
  unfold watch_sets_step; split <;> split <;> simp_all

theorem FD_SET_idem (fd s : Nat) : FD_SET fd (FD_SET fd s) = FD_SET fd s := by
  unfold FD_SET
  by_cases hfd : fd < __FD_SETSIZE <;> simp [hfd, Nat.or_assoc]

theorem watch_sets_step_efds (h : pal_handle) (s : WatchSets) (i : Nat) :
    (watch_sets_step h s i).efds =
      if (watches_read h i || watches_write h i) then FD_SET (h.fds i) s.efds else s.efds := by
  unfold watch_sets_step; split <;> split <;> simp_all [FD_SET_idem]

theorem watch_slot_rfds (h : pal_handle) (s : WatchSets) (i : Nat) :
    (watch_slot h s i).rfds = if watches_read h i then FD_SET (h.fds i) s.rfds else s.rfds := by
  rw [watch_slot_eq, watch_slot_spec]; split <;> simp [watch_sets_step_rfds]

theorem watch_slot_wfds (h : pal_handle) (s : WatchSets) (i : Nat) :
    (watch_slot h s i).wfds = if watches_write h i then FD_SET (h.fds i) s.wfds else s.wfds := by
  rw [watch_slot_eq, watch_slot_spec]; split <;> simp [watch_sets_step_wfds]

theorem watch_slot_efds (h : pal_handle) (s : WatchSets) (i : Nat) :
    (watch_slot h s i).efds =
      if (watches_read h i || watches_write h i) then FD_SET (h.fds i) s.efds else s.efds := by
  rw [watch_slot_eq, watch_slot_spec]; split <;> simp [watch_sets_step_efds]

theorem bump_nfds_ne_zero_of_ne {s : WatchSets} {fd : Nat} (h1 : fd < 2 ^ 32)
    (h2 : fd ≠ PAL_IDX_POISON) : (bump_nfds s fd).nfds ≠ 0 := by
  unfold bump_nfds
  split
  · exact toInt32_succ_ne_zero h1 h2
  · rename_i hle
    intro h0
    apply hle
    rw [h0, toUInt32_zero]
    exact Nat.zero_le _

/-- No slot of `l` is put in a watch set. -/
theorem watch_fold_idle (h : pal_handle) (l : List Nat) (s : WatchSets)
    (hs : s.efds = FD_ZERO)
    (hl : ∀ i ∈ l, watches_read h i = false ∧ watches_write h i = false) :
    l.foldl (watch_slot h) s = s := by
  induction l with
  | nil => rfl
  | cons i l ih =>
    have hi := hl i (List.mem_cons_self i l)
    have hstep : watch_slot h s i = s := by
      rw [watch_slot_eq]
      simp [watch_slot_spec, watch_sets_step, hi.1, hi.2, hs, FD_ISSET_FD_ZERO]
    rw [List.foldl_cons, hstep]
    exact ih (fun j hj => hl j (List.mem_cons_of_mem i hj))

theorem watch_slot_nfds_ne_zero (h : pal_handle) (s : WatchSets) (i : Nat)
    (hs : s.nfds ≠ 0) : (watch_slot h s i).nfds ≠ 0 := by
  rw [watch_slot_eq, watch_slot_spec]
  split
  · rename_i hc
    simp only [Bool.and_eq_true] at hc
    have hne : h.fds i ≠ PAL_IDX_POISON := by simpa [occupied] using hc.1.2
    have hr : h.fds i < 2 ^ 32 :=
      lt_trans (FD_ISSET_lt hc.2) (by unfold __FD_SETSIZE; norm_num)
    exact bump_nfds_ne_zero_of_ne hr hne
  · simpa using hs

theorem watch_fold_nfds_ne_zero (h : pal_handle) (l : List Nat) (s : WatchSets)
    (hs : s.nfds ≠ 0) :
    (l.foldl (watch_slot h) s).nfds ≠ 0 := by
  induction l generalizing s with
  | nil => exact hs
  | cons i l ih =>
    rw [List.foldl_cons]
    exact ih _ (watch_slot_nfds_ne_zero h s i hs)

theorem watch_slot_nfds_watched (h : pal_handle) (s : WatchSets) (i : Nat)
    (hr : h.fds i < __FD_SETSIZE) (hw : (watches_read h i || watches_write h i) = true) :
    (watch_slot h s i).nfds ≠ 0 := by
  have hio : (interest_read h i || interest_write h i) = true ∧ occupied h i = true := by
    rcases Bool.or_eq_true _ _ ▸ hw with hw | hw
    · have := watches_read_interest hw
      simp [this.1, this.2.1]
    · have := watches_write_interest hw
      simp [this.1, this.2.1]
  have hne : h.fds i ≠ PAL_IDX_POISON := by simpa [occupied] using hio.2
  have hmem : FD_ISSET (h.fds i) (watch_sets_step h s i).efds = true := by
    rw [watch_sets_step_efds, if_pos hw, FD_ISSET_FD_SET_of_lt _ _ _ hr]; simp
  rw [watch_slot_eq, watch_slot_spec, hio.1, hio.2, hmem]
  exact bump_nfds_ne_zero_of_ne (lt_trans hr (by unfold __FD_SETSIZE; norm_num)) hne

theorem watch_fold_nfds_watched (h : pal_handle) (l : List Nat) (s : WatchSets)
    (i : Nat) (hi : i ∈ l) (hr : h.fds i < __FD_SETSIZE)
    (hw : (watches_read h i || watches_write h i) = true) :
    (l.foldl (watch_slot h) s).nfds ≠ 0 := by
  induction l generalizing s with
  | nil => cases hi
  | cons j l ih =>
    rw [List.foldl_cons]
    rcases List.mem_cons.1 hi with rfl | hi'
    · exact watch_fold_nfds_ne_zero h l _ (watch_slot_nfds_watched h s i hr hw)
    · exact ih _ hi'

theorem range_lt_MAX_FDS : ∀ i ∈ List.range MAX_FDS, i < MAX_FDS :=
  fun _ hi => List.mem_range.1 hi

theorem IS_ERR_iff (z : Int) : IS_ERR z = true ↔ z < 0 := by
  simp [IS_ERR]

/-- The success path of `_DkObjectWaitOne` in closed form. -/
theorem waitone_ready (env : Env) (p timeout : Nat) (w : World)
    (hfds : (w.mem p).flags &&& HAS_FDS ≠ 0)
    (hn : (watch_of (w.mem p)).nfds ≠ 0)
    (hret : 0 < (host_reply env (watch_of (w.mem p)) timeout).ret) :
    _DkObjectWaitOne env p timeout w =
      (0, { mem := Function.update w.mem p
              (with_bits (w.mem p)
                (result_bits env (w.mem p) (host_reply env (watch_of (w.mem p)) timeout))),
            trace := w.trace ++ [select_call (watch_of (w.mem p)) timeout] ++
              handle_queries (w.mem p) (host_reply env (watch_of (w.mem p)) timeout) }) := by
  have hn' : (watch_handle (w.mem p) WatchSets.init).nfds ≠ 0 := hn
  have hret' : 0 < (env.pselect6 (watch_handle (w.mem p) WatchSets.init).nfds
      (watch_handle (w.mem p) WatchSets.init).rfds (watch_handle (w.mem p) WatchSets.init).wfds
      (watch_handle (w.mem p) WatchSets.init).efds (timeout_ts timeout)).ret := hret
  have h1 : ¬ IS_ERR (env.pselect6 (watch_handle (w.mem p) WatchSets.init).nfds
      (watch_handle (w.mem p) WatchSets.init).rfds (watch_handle (w.mem p) WatchSets.init).wfds
      (watch_handle (w.mem p) WatchSets.init).efds (timeout_ts timeout)).ret = true := by
    rw [IS_ERR_iff]; omega
  have h2 : (env.pselect6 (watch_handle (w.mem p) WatchSets.init).nfds
      (watch_handle (w.mem p) WatchSets.init).rfds (watch_handle (w.mem p) WatchSets.init).wfds
      (watch_handle (w.mem p) WatchSets.init).efds (timeout_ts timeout)).ret ≠ 0 := by omega
  simp only [_DkObjectWaitOne, if_pos hfds, if_neg hn', if_neg h1, if_neg h2]
  rw [classify_fold_eq env p _ _ range_lt_MAX_FDS]
  rfl

theorem ERROR_eq (i : Nat) : ERROR i = 2 ^ (i + 9) := by
  simp [ERROR, Nat.shiftLeft_eq, Nat.pow_add, Nat.mul_comm]

theorem WRITEABLE_eq (i : Nat) : WRITEABLE i = 2 ^ (i + 6) := by
  simp [WRITEABLE, Nat.shiftLeft_eq, Nat.pow_add, Nat.mul_comm]

theorem testBit_slot_result_bits (env : Env) (h : pal_handle) (r : SelectReply) (j k : Nat) :
    (slot_result_bits env h r j).testBit k =
      ((sets_error env h r j && decide (j + 9 = k)) ||
        (sets_writable h r j && decide (j + 6 = k))) := by
  unfold slot_result_bits
  rw [Nat.testBit_or]
  cases sets_error env h r j <;> cases sets_writable h r j <;>
    simp [ERROR_eq, WRITEABLE_eq, Nat.testBit_two_pow]

theorem result_bits_unfold (env : Env) (h : pal_handle) (r : SelectReply) :
    result_bits env h r =
      slot_result_bits env h r 0 |||
        (slot_result_bits env h r 1 ||| (slot_result_bits env h r 2 ||| 0)) := rfl

/-- Bit `ERROR(i)` of the result bits. -/
theorem result_bits_error (env : Env) (h : pal_handle) (r : SelectReply) {i : Nat}
    (hi : i < MAX_FDS) :
    (result_bits env h r).testBit (i + 9) = sets_error env h r i := by
  have hi3 : i < 3 := hi
  rw [result_bits_unfold]
  simp only [Nat.testBit_or, testBit_slot_result_bits, Nat.zero_testBit, Bool.or_false]
  interval_cases i <;> simp

/-- Bit `WRITEABLE(i)` of the result bits. -/
theorem result_bits_writable (env : Env) (h : pal_handle) (r : SelectReply) {i : Nat}
    (hi : i < MAX_FDS) :
    (result_bits env h r).testBit (i + 6) = sets_writable h r i := by
  have hi3 : i < 3 := hi
  rw [result_bits_unfold]
  simp only [Nat.testBit_or, testBit_slot_result_bits, Nat.zero_testBit, Bool.or_false]
  interval_cases i <;> simp

theorem result_error_with_bits (env : Env) (h : pal_handle) (r : SelectReply) {i : Nat}
    (hi : i < MAX_FDS) :
    result_error (with_bits h (result_bits env h r)) i =
      (result_error h i || sets_error env h r i) := by
  simp only [result_error_eq, with_bits, Nat.testBit_or, result_bits_error env h r hi]

theorem result_writable_with_bits (env : Env) (h : pal_handle) (r : SelectReply) {i : Nat}
    (hi : i < MAX_FDS) :
    result_writable (with_bits h (result_bits env h r)) i =
      (result_writable h i || sets_writable h r i) := by
  simp only [result_writable_eq, with_bits, Nat.testBit_or, result_bits_writable env h r hi]

theorem HAS_FDS_eq : HAS_FDS = 2 ^ 6 - 1 := by decide

/-- The `HAS_FDS` test fails exactly when no interest bit is set. -/
theorem has_fds_eq_zero_iff (f : Nat) :
    f &&& HAS_FDS = 0 ↔ ∀ k, k < 6 → f.testBit k = false := by
  rw [HAS_FDS_eq]
  constructor
  · intro h k hk
    have := congrArg (fun z => Nat.testBit z k) h
    simp only [Nat.testBit_and, Nat.testBit_two_pow_sub_one, Nat.zero_testBit, hk,
      decide_True, Bool.and_true] at this
    exact this
  · intro h
    apply Nat.eq_of_testBit_eq
    intro k
    rw [Nat.testBit_and, Nat.testBit_two_pow_sub_one]
    by_cases hk : k < 6
    · simp [h k hk]
    · simp [hk]

theorem has_fds_of_interest {h : pal_handle} {i : Nat} (hi : i < MAX_FDS)
    (hint : (interest_read h i || interest_write h i) = true) :
    h.flags &&& HAS_FDS ≠ 0 := by
  have hi3 : i < 3 := hi
  intro h0
  have hz := (has_fds_eq_zero_iff h.flags).1 h0
  rw [interest_read_eq, interest_write_eq, hz i (by omega), hz (i + 3) (by omega)] at hint
  exact Bool.noConfusion hint

theorem no_interest_of_has_fds_zero {h : pal_handle} (h0 : h.flags &&& HAS_FDS = 0)
    {i : Nat} (hi : i < MAX_FDS) :
    interest_read h i = false ∧ interest_write h i = false := by
  have hi3 : i < 3 := hi
  have hz := (has_fds_eq_zero_iff h.flags).1 h0
  rw [interest_read_eq, interest_write_eq]
  exact ⟨hz i (by omega), hz (i + 3) (by omega)⟩

theorem watch_fold_wfds_idle (h : pal_handle) (l : List Nat) (s : WatchSets)
    (hl : ∀ i ∈ l, watches_write h i = false) :
    (l.foldl (watch_slot h) s).wfds = s.wfds := by
  induction l generalizing s with
  | nil => rfl
  | cons i l ih =>
    rw [List.foldl_cons, ih _ (fun j hj => hl j (List.mem_cons_of_mem i hj)),
      watch_slot_wfds, hl i (List.mem_cons_self i l)]
    simp

theorem watch_of_nfds_ne_zero {h : pal_handle} {i : Nat} (hr : h.fds i < __FD_SETSIZE)
    (hi : i < MAX_FDS) (hw : (watches_read h i || watches_write h i) = true) :
    (watch_of h).nfds ≠ 0 :=
  watch_fold_nfds_watched h (List.range MAX_FDS) WatchSets.init
    i (List.mem_range.2 hi) hr hw

theorem waitone_ready_mem (env : Env) (p timeout : Nat) (w : World)
    (hfds : (w.mem p).flags &&& HAS_FDS ≠ 0)
    (hn : (watch_of (w.mem p)).nfds ≠ 0)
    (hret : 0 < (host_reply env (watch_of (w.mem p)) timeout).ret) :
    (_DkObjectWaitOne env p timeout w).2.mem p =
      with_bits (w.mem p)
        (result_bits env (w.mem p) (host_reply env (watch_of (w.mem p)) timeout)) := by
  rw [waitone_ready env p timeout w hfds hn hret]
  simp

theorem keep_first_idem (c : Option Nat) (p : Nat) :
    keep_first (keep_first c p) p = keep_first c p := by
  cases c <;> rfl

theorem classify_slot_any_eq (env : Env) (p : Nat) (r : SelectReply)
    (st : World × Option Nat) (i : Nat) :
    classify_slot_any env p r st i =
      (classify_slot env p r st.1 i,
        if slot_fires (st.1.mem p) r i then keep_first st.2 p else st.2) := by
  by_cases hf : slot_fires (st.1.mem p) r i = true
  · obtain ⟨h1, h2, h3⟩ := (slot_fires_iff _ _ _).1 hf
    simp only [classify_slot_any, classify_slot, if_neg h1, if_neg h2, if_neg h3, hf, if_true]
    rfl
  · have hf' : slot_fires (st.1.mem p) r i = false := by simpa using hf
    have hn := (not_congr (slot_fires_iff (st.1.mem p) r i)).1 hf
    simp only [classify_slot_any, classify_slot, hf']
    by_cases h1 : ((st.1.mem p).flags >>> i) &&& 0o11 = 0
    · simp [h1]
    · by_cases h2 : (st.1.mem p).fds i = PAL_IDX_POISON
      · simp [h1, h2]
      · have h3 : (!FD_ISSET ((st.1.mem p).fds i) r.rfds &&
            !FD_ISSET ((st.1.mem p).fds i) r.wfds &&
            !FD_ISSET ((st.1.mem p).fds i) r.efds) = true := by
          by_contra h3
          exact hn ⟨h1, h2, h3⟩
        simp only [if_neg h1, if_neg h2, if_pos h3]
        rfl

theorem any_fires_with_bits (h : pal_handle) (r : SelectReply) {x : Nat} (hx : high_only x)
    (l : List Nat) (hl : ∀ i ∈ l, i < MAX_FDS) :
    l.any (slot_fires (with_bits h x) r) = l.any (slot_fires h r) := by
  induction l with
  | nil => rfl
  | cons i l ih =>
    simp only [List.any_cons, slot_fires_with_bits h r hx (hl i (List.mem_cons_self i l)),
      ih (fun j hj => hl j (List.mem_cons_of_mem i hj))]

theorem classify_any_fold_eq (env : Env) (p : Nat) (r : SelectReply) (l : List Nat)
    (hl : ∀ i ∈ l, i < MAX_FDS) (st : World × Option Nat) :
    l.foldl (classify_slot_any env p r) st =
      (l.foldl (classify_slot env p r) st.1,
        if l.any (slot_fires (st.1.mem p) r) then keep_first st.2 p else st.2) := by
  induction l generalizing st with
  | nil => simp
  | cons i l ih =>
    have hl' : ∀ j ∈ l, j < MAX_FDS := fun j hj => hl j (List.mem_cons_of_mem i hj)
    have hx := high_only_slot_result_bits env (st.1.mem p) r i
    rw [List.foldl_cons, ih hl', classify_slot_any_eq, List.foldl_cons]
    simp only [classify_slot_eq, Function.update_same, any_fires_with_bits _ r hx l hl',
      List.any_cons]
    congr 1
    by_cases h1 : slot_fires (st.1.mem p) r i = true <;>
      by_cases h2 : l.any (slot_fires (st.1.mem p) r) = true <;>
      simp [h1, h2, keep_first_idem]

theorem handle_fires_with_bits (h : pal_handle) (r : SelectReply) {x : Nat}
    (hx : high_only x) : handle_fires (with_bits h x) r = handle_fires h r :=
  any_fires_with_bits h r hx (List.range MAX_FDS) range_lt_MAX_FDS

theorem result_bits_with_bits (env : Env) (h : pal_handle) (r : SelectReply) {x : Nat}
    (hx : high_only x) : result_bits env (with_bits h x) r = result_bits env h r :=
  bits_list_with_bits env h r hx (List.range MAX_FDS) range_lt_MAX_FDS

theorem handle_queries_with_bits (h : pal_handle) (r : SelectReply) {x : Nat}
    (hx : high_only x) : handle_queries (with_bits h x) r = handle_queries h r :=
  queries_list_with_bits h r hx (List.range MAX_FDS) range_lt_MAX_FDS

/-- In a heap reached by OR-ing result bits, every handle is the initial one
with some result bits added. -/
theorem mem_after_shape (env : Env) (r : SelectReply) (m : Nat → pal_handle) (V : List Nat)
    (q : Nat) : ∃ x, high_only x ∧ mem_after env r m V q = with_bits (m q) x := by
  unfold mem_after
  by_cases hq : q ∈ V
  · exact ⟨_, high_only_result_bits env (m q) r, by simp [hq]⟩
  · exact ⟨0, high_only_zero, by simp [hq, with_bits_zero]⟩

theorem mem_after_step (env : Env) (r : SelectReply) (m : Nat → pal_handle) (V : List Nat)
    (p : Nat) :
    Function.update (mem_after env r m V) p
        (with_bits (mem_after env r m V p) (result_bits env (mem_after env r m V p) r)) =
      mem_after env r m (V ++ [p]) := by
  funext q
  by_cases hqp : q = p
  · subst hqp
    rw [Function.update_same]
    have hrb := high_only_result_bits env (m q) r
    by_cases hq : q ∈ V
    · simp [mem_after, hq, result_bits_with_bits env (m q) r hrb, with_bits_with_bits]
    · simp [mem_after, hq]
  · rw [Function.update_noteq hqp]
    simp [mem_after, hqp]

/-- The outer classify loop in closed form, from any intermediate state. -/
theorem classify_entries_eq (env : Env) (r : SelectReply) (m : Nat → pal_handle)
    (hs : List (Option Nat)) (V : List Nat) (T : List Syscall) (pol : Option Nat) :
    hs.foldl (classify_entry env r) ({ mem := mem_after env r m V, trace := T }, pol) =
      ({ mem := mem_after env r m (V ++ handles_of hs),
         trace := T ++ queries_of m r (handles_of hs) },
        match pol with
        | some q => some q
        | none => (handles_of hs).find? (fun p => handle_fires (m p) r)) := by
  induction hs generalizing V T pol with
  | nil => cases pol <;> simp [handles_of, queries_of]
  | cons e hs ih =>
    cases e with
    | none =>
      rw [List.foldl_cons]
      simp only [classify_entry]
      rw [ih]
      simp [handles_of]
    | some p =>
      obtain ⟨x, hx, hshape⟩ := mem_after_shape env r m V p
      rw [List.foldl_cons]
      simp only [classify_entry]
      rw [classify_any_fold_eq env p r _ range_lt_MAX_FDS,
        classify_fold_eq env p r _ range_lt_MAX_FDS]
      have e1 : bits_list env (mem_after env r m V p) r (List.range MAX_FDS) =
          result_bits env (mem_after env r m V p) r := rfl
      have e2 : queries_list (mem_after env r m V p) r (List.range MAX_FDS) =
          handle_queries (m p) r := by
        rw [hshape]; exact handle_queries_with_bits (m p) r hx
      have e3 : (List.range MAX_FDS).any (slot_fires (mem_after env r m V p) r) =
          handle_fires (m p) r := by
        rw [hshape]; exact handle_fires_with_bits (m p) r hx
      simp only [e1, e2, e3, mem_after_step]
      rw [ih]
      have e4 : handles_of (some p :: hs) = p :: handles_of hs := by simp [handles_of]
      rw [e4]
      cases pol with
      | some q => simp [keep_first, queries_of]
      | none =>
        cases hf : handle_fires (m p) r <;> simp [keep_first, queries_of, List.find?_cons, hf]

theorem mem_after_nil (env : Env) (r : SelectReply) (m : Nat → pal_handle) :
    mem_after env r m [] = m := by
  funext q; simp [mem_after]

/-- The outer classify loop of `_DkObjectsWaitAny` in closed form. -/
theorem classify_array_eq (env : Env) (r : SelectReply) (w : World)
    (hs : List (Option Nat)) :
    classify_array env r w hs =
      ({ mem := mem_after env r w.mem (handles_of hs),
         trace := w.trace ++ queries_of w.mem r (handles_of hs) },
        first_ready w r hs) := by
  have := classify_entries_eq env r w.mem hs [] w.trace none
  rw [mem_after_nil] at this
  simpa [classify_array, first_ready] using this

/-- The multi-handle path of `_DkObjectsWaitAny` (two or more entries). -/
theorem waitany_multi_eq (env : Env) (a b : Option Nat) (tl : List (Option Nat))
    (timeout : Nat) (w : World) :
    _DkObjectsWaitAny env (a :: b :: tl) timeout w =
      if (watch_array w (a :: b :: tl)).nfds = 0 then
        some { ret := -PAL_ERROR_TRYAGAIN, polled := none, world := w }
      else if IS_ERR (host_reply env (watch_array w (a :: b :: tl)) timeout).ret then
        if ERRNO (host_reply env (watch_array w (a :: b :: tl)) timeout).ret = EINTR ∨
            ERRNO (host_reply env (watch_array w (a :: b :: tl)) timeout).ret = ERESTART then
          some { ret := -PAL_ERROR_INTERRUPTED, polled := none,
                 world := { w with trace := w.trace ++
                   [select_call (watch_array w (a :: b :: tl)) timeout] } }
        else
          some { ret := env.unix_to_pal_error
                   (ERRNO (host_reply env (watch_array w (a :: b :: tl)) timeout).ret),
                 polled := none,
                 world := { w with trace := w.trace ++
                   [select_call (watch_array w (a :: b :: tl)) timeout] } }
      else if (host_reply env (watch_array w (a :: b :: tl)) timeout).ret = 0 then
        some { ret := -PAL_ERROR_TRYAGAIN, polled := none,
               world := { w with trace := w.trace ++
                 [select_call (watch_array w (a :: b :: tl)) timeout] } }
      else
        some { ret := if (classify_array env
                   (host_reply env (watch_array w (a :: b :: tl)) timeout)
                   { w with trace := w.trace ++
                     [select_call (watch_array w (a :: b :: tl)) timeout] }
                   (a :: b :: tl)).2.isSome then 0 else -PAL_ERROR_TRYAGAIN,
               polled := some (classify_array env
                   (host_reply env (watch_array w (a :: b :: tl)) timeout)
                   { w with trace := w.trace ++
                     [select_call (watch_array w (a :: b :: tl)) timeout] }
                   (a :: b :: tl)).2,
               world := (classify_array env
                   (host_reply env (watch_array w (a :: b :: tl)) timeout)
                   { w with trace := w.trace ++
                     [select_call (watch_array w (a :: b :: tl)) timeout] }
                   (a :: b :: tl)).1 } := rfl

theorem two_le_length {α : Type} {l : List α} (h : 2 ≤ l.length) :
    ∃ a b tl, l = a :: b :: tl := by
  match l, h with
  | a :: b :: tl, _ => exact ⟨a, b, tl, rfl⟩

/-- The success path of the multi-handle `_DkObjectsWaitAny` in closed form. -/
theorem waitany_ready (env : Env) (hs : List (Option Nat)) (timeout : Nat) (w : World)
    (hlen : 2 ≤ hs.length)
    (hn : (watch_array w hs).nfds ≠ 0)
    (hret : 0 < (host_reply env (watch_array w hs) timeout).ret) :
    _DkObjectsWaitAny env hs timeout w =
      some { ret := if (first_ready w (host_reply env (watch_array w hs) timeout) hs).isSome
                    then 0 else -PAL_ERROR_TRYAGAIN,
             polled := some (first_ready w (host_reply env (watch_array w hs) timeout) hs),
             world :=
               { mem := mem_after env (host_reply env (watch_array w hs) timeout) w.mem
                   (handles_of hs),
                 trace := w.trace ++ [select_call (watch_array w hs) timeout] ++
                   queries_of w.mem (host_reply env (watch_array w hs) timeout)
                     (handles_of hs) } } := by
  obtain ⟨a, b, tl, rfl⟩ := two_le_length hlen
  have h1 : ¬ IS_ERR (host_reply env (watch_array w (a :: b :: tl)) timeout).ret = true := by
    rw [IS_ERR_iff]; omega
  have h2 : (host_reply env (watch_array w (a :: b :: tl)) timeout).ret ≠ 0 := by omega
  rw [waitany_multi_eq, if_neg hn, if_neg h1, if_neg h2, classify_array_eq]
  rfl

theorem slot_result_bits_idle (env : Env) (h : pal_handle) (r : SelectReply) (i : Nat)
    (hf : slot_fires h r i = false) : slot_result_bits env h r i = 0 := by
  simp [slot_result_bits, sets_error, sets_writable, hf]

theorem result_bits_idle (env : Env) (h : pal_handle) (r : SelectReply)
    (hf : handle_fires h r = false) : result_bits env h r = 0 := by
  have hall : ∀ i ∈ List.range MAX_FDS, slot_fires h r i = false := by
    intro i hi
    have := List.any_eq_false.1 hf i hi
    simpa using this
  have e0 := slot_result_bits_idle env h r 0 (hall 0 (by decide))
  have e1 := slot_result_bits_idle env h r 1 (hall 1 (by decide))
  have e2 := slot_result_bits_idle env h r 2 (hall 2 (by decide))
  rw [result_bits_unfold, e0, e1, e2]
  rfl

theorem mem_after_idle (env : Env) (r : SelectReply) (m : Nat → pal_handle) (V : List Nat)
    (hV : ∀ q ∈ V, handle_fires (m q) r = false) : mem_after env r m V = m := by
  funext q
  unfold mem_after
  by_cases hq : q ∈ V
  · simp [hq, result_bits_idle env (m q) r (hV q hq), with_bits_zero]
  · simp [hq]

/-- The descriptor path of `_DkObjectWaitOne`, up to the classify loop. -/
theorem waitone_fd_path (env : Env) (p timeout : Nat) (w : World)
    (hfds : (w.mem p).flags &&& HAS_FDS ≠ 0) :
    _DkObjectWaitOne env p timeout w =
      if (watch_of (w.mem p)).nfds = 0 then (-PAL_ERROR_TRYAGAIN, w)
      else if IS_ERR (host_reply env (watch_of (w.mem p)) timeout).ret then
        if ERRNO (host_reply env (watch_of (w.mem p)) timeout).ret = EINTR ∨
            ERRNO (host_reply env (watch_of (w.mem p)) timeout).ret = ERESTART then
          (-PAL_ERROR_INTERRUPTED,
            { w with trace := w.trace ++ [select_call (watch_of (w.mem p)) timeout] })
        else
          (env.unix_to_pal_error (ERRNO (host_reply env (watch_of (w.mem p)) timeout).ret),
            { w with trace := w.trace ++ [select_call (watch_of (w.mem p)) timeout] })
      else if (host_reply env (watch_of (w.mem p)) timeout).ret = 0 then
        (-PAL_ERROR_TRYAGAIN,
          { w with trace := w.trace ++ [select_call (watch_of (w.mem p)) timeout] })
      else
        (0, (List.range MAX_FDS).foldl
          (classify_slot env p (host_reply env (watch_of (w.mem p)) timeout))
          { w with trace := w.trace ++ [select_call (watch_of (w.mem p)) timeout] }) := by
  simp only [_DkObjectWaitOne, if_pos hfds]
  rfl

theorem PAL_ERROR_TRYAGAIN_ne : -PAL_ERROR_TRYAGAIN ≠ 0 := by decide

theorem PAL_ERROR_INTERRUPTED_ne : -PAL_ERROR_INTERRUPTED ≠ 0 := by decide

theorem host_outcome_intr (env : Env) {hr : Int} (h : hr = -EINTR ∨ hr = -ERESTART) :
    host_outcome env hr (-PAL_ERROR_INTERRUPTED) := by
  refine ⟨fun _ => rfl, ?_, ?_, fun _ _ => PAL_ERROR_INTERRUPTED_ne⟩
  · intro _ h1 h2
    rcases h with h | h
    · exact absurd h h1
    · exact absurd h h2
  · intro h0
    rcases h with h | h <;> simp [h0, EINTR, ERESTART] at h

theorem host_outcome_other (env : Env) {hr : Int} (hneg : hr < 0)
    (h : ¬ (hr = -EINTR ∨ hr = -ERESTART)) :
    host_outcome env hr (env.unix_to_pal_error (-hr)) := by
  refine ⟨fun h' => absurd h' h, fun _ _ _ => rfl, ?_, fun _ hne => hne⟩
  intro h0; omega

theorem host_outcome_zero (env : Env) {hr : Int} (h : hr = 0) :
    host_outcome env hr (-PAL_ERROR_TRYAGAIN) := by
  subst h
  refine ⟨?_, ?_, fun _ => rfl, fun _ _ => PAL_ERROR_TRYAGAIN_ne⟩
  · intro h; rcases h with h | h <;> simp [EINTR, ERESTART] at h
  · intro h; omega

theorem host_outcome_pos (env : Env) {hr : Int} (h : 0 < hr) (ret : Int) :
    host_outcome env hr ret := by
  refine ⟨?_, ?_, ?_, ?_⟩
  · intro h'; rcases h' with h' | h' <;> simp [h', EINTR, ERESTART] at h
  · intro h'; omega
  · intro h'; omega
  · intro h'; omega

theorem errno_intr_iff (hr : Int) :
    (ERRNO hr = EINTR ∨ ERRNO hr = ERESTART) ↔ (hr = -EINTR ∨ hr = -ERESTART) := by
  simp only [ERRNO]
  constructor <;> (intro h; rcases h with h | h) <;> first | (left; omega) | (right; omega)

/-- Membership in read-watch after the build loop over the slots in `l`. -/
theorem watch_fold_rfds (h : pal_handle) (d : Nat) (l : List Nat) (s : WatchSets) :
    FD_ISSET d (l.foldl (watch_slot h) s).rfds =
      (FD_ISSET d s.rfds || l.any (fun i => watches_read h i && (decide (h.fds i = d) && decide (h.fds i < __FD_SETSIZE)))) := by
  induction l generalizing s with
  | nil => simp
  | cons i l ih =>
    rw [List.foldl_cons, ih, watch_slot_rfds, List.any_cons]
    cases hw : watches_read h i <;> simp [FD_ISSET_FD_SET, Bool.or_assoc]

/-- Membership in write-watch after the build loop over the slots in `l`. -/
theorem watch_fold_wfds (h : pal_handle) (d : Nat) (l : List Nat) (s : WatchSets) :
    FD_ISSET d (l.foldl (watch_slot h) s).wfds =
      (FD_ISSET d s.wfds || l.any (fun i => watches_write h i && (decide (h.fds i = d) && decide (h.fds i < __FD_SETSIZE)))) := by
  induction l generalizing s with
  | nil => simp
  | cons i l ih =>
    rw [List.foldl_cons, ih, watch_slot_wfds, List.any_cons]
    cases hw : watches_write h i <;> simp [FD_ISSET_FD_SET, Bool.or_assoc]

/-- Membership in error-watch after the build loop over the slots in `l`. -/
theorem watch_fold_efds (h : pal_handle) (d : Nat) (l : List Nat) (s : WatchSets) :
    FD_ISSET d (l.foldl (watch_slot h) s).efds =
      (FD_ISSET d s.efds ||
        l.any (fun i => (watches_read h i || watches_write h i) && (decide (h.fds i = d) && decide (h.fds i < __FD_SETSIZE)))) := by
  induction l generalizing s with
  | nil => simp
  | cons i l ih =>
    rw [List.foldl_cons, ih, watch_slot_efds, List.any_cons]
    cases hw : (watches_read h i || watches_write h i) <;>
      simp [FD_ISSET_FD_SET, Bool.or_assoc]

/-- Membership in read-watch after the outer build loop. -/
theorem watch_entries_rfds (w : World) (d : Nat) (hs : List (Option Nat)) (s : WatchSets) :
    FD_ISSET d (hs.foldl (watch_entry w) s).rfds =
      (FD_ISSET d s.rfds || (handles_of hs).any (fun p => (List.range MAX_FDS).any
        (fun i => watches_read (w.mem p) i && (decide ((w.mem p).fds i = d) && decide ((w.mem p).fds i < __FD_SETSIZE))))) := by
  induction hs generalizing s with
  | nil => simp [handles_of]
  | cons e hs ih =>
    cases e with
    | none => rw [List.foldl_cons, ih]; simp [watch_entry, handles_of]
    | some p =>
      rw [List.foldl_cons, ih]
      simp only [watch_entry, watch_handle, watch_fold_rfds]
      simp [handles_of, Bool.or_assoc]

/-- Membership in write-watch after the outer build loop. -/
theorem watch_entries_wfds (w : World) (d : Nat) (hs : List (Option Nat)) (s : WatchSets) :
    FD_ISSET d (hs.foldl (watch_entry w) s).wfds =
      (FD_ISSET d s.wfds || (handles_of hs).any (fun p => (List.range MAX_FDS).any
        (fun i => watches_write (w.mem p) i && (decide ((w.mem p).fds i = d) && decide ((w.mem p).fds i < __FD_SETSIZE))))) := by
  induction hs generalizing s with
  | nil => simp [handles_of]
  | cons e hs ih =>
    cases e with
    | none => rw [List.foldl_cons, ih]; simp [watch_entry, handles_of]
    | some p =>
      rw [List.foldl_cons, ih]
      simp only [watch_entry, watch_handle, watch_fold_wfds]
      simp [handles_of, Bool.or_assoc]

/-- Membership in error-watch after the outer build loop. -/
theorem watch_entries_efds (w : World) (d : Nat) (hs : List (Option Nat)) (s : WatchSets) :
    FD_ISSET d (hs.foldl (watch_entry w) s).efds =
      (FD_ISSET d s.efds || (handles_of hs).any (fun p => (List.range MAX_FDS).any
        (fun i => (watches_read (w.mem p) i || watches_write (w.mem p) i) &&
          (decide ((w.mem p).fds i = d) && decide ((w.mem p).fds i < __FD_SETSIZE))))) := by
  induction hs generalizing s with
  | nil => simp [handles_of]
  | cons e hs ih =>
    cases e with
    | none => rw [List.foldl_cons, ih]; simp [watch_entry, handles_of]
    | some p =>
      rw [List.foldl_cons, ih]
      simp only [watch_entry, watch_handle, watch_fold_efds]
      simp [handles_of, Bool.or_assoc]

theorem any_slot_of_mem {f : Nat → Bool} {i : Nat} (hi : i < MAX_FDS) (hf : f i = true) :
    (List.range MAX_FDS).any f = true :=
  List.any_eq_true.2 ⟨i, List.mem_range.2 hi, hf⟩

theorem any_handle_of_mem {f : Nat → Bool} {hs : List (Option Nat)} {p : Nat}
    (hp : p ∈ handles_of hs) (hf : f p = true) : (handles_of hs).any f = true :=
  List.any_eq_true.2 ⟨p, hp, hf⟩

theorem handle_fires_iff (h : pal_handle) (r : SelectReply) :
    handle_fires h r = true ↔ ∃ i, i < MAX_FDS ∧ slot_fires h r i = true := by
  simp only [handle_fires, List.any_eq_true, List.mem_range]

theorem two_pow_64_int : (2 : Int) ^ 64 = 18446744073709551616 := by norm_num

theorem two_pow_63_int : (2 : Int) ^ 63 = 9223372036854775808 := by norm_num

theorem toULong_of_lt (t : Nat) (ht : t < 18446744073709551616) : toULong (t : Int) = t := by
  unfold toULong; rw [two_pow_64_int]; omega

theorem toLong_of_lt (z : Int) (h0 : 0 ≤ z) (h1 : z < 9223372036854775808) : toLong z = z := by
  unfold toLong; rw [two_pow_64_int, two_pow_63_int]; omega

/-- The deadline computed from a 64-bit timeout is exact. -/
theorem timeout_ts_eq (t : Nat) (ht : t < 2 ^ 64) :
    timeout_ts t =
      some { tv_sec := ((t / 1000000 : Nat) : Int),
             tv_nsec := (((t % 1000000) * 1000 : Nat) : Int) } := by
  have ht' : t < 18446744073709551616 := by norm_num at ht; exact ht
  have h0 : t ≥ 0 := Nat.zero_le t
  have hsec : toLong ((toULong (t : Int) / 1000000 : Nat) : Int) = ((t / 1000000 : Nat) : Int) := by
    rw [toULong_of_lt t ht']
    apply toLong_of_lt <;> omega
  have hmicro : toULong (((toULong (t : Int) : Nat) : Int) -
      toLong (((t / 1000000 : Nat) : Int) * 1000000)) = t % 1000000 := by
    rw [toULong_of_lt t ht']
    unfold toULong toLong
    rw [two_pow_64_int, two_pow_63_int]
    omega
  have hin : toLong ((t % 1000000 : Nat) : Int) = ((t % 1000000 : Nat) : Int) := by
    apply toLong_of_lt <;> omega
  have hout : toLong (((t % 1000000 : Nat) : Int) * 1000) =
      (((t % 1000000) * 1000 : Nat) : Int) := by
    rw [toLong_of_lt] <;> omega
  unfold timeout_ts
  rw [if_pos h0]
  simp only []
  rw [hsec, hmicro, hin, hout]

/-- On the descriptor path with something to watch, the `pselect6` call is in
the trace `_DkObjectWaitOne` leaves. -/
theorem waitone_select_call_mem (env : Env) (p timeout : Nat) (w : World)
    (hfds : (w.mem p).flags &&& HAS_FDS ≠ 0)
    (hn : (watch_of (w.mem p)).nfds ≠ 0) :
    select_call (watch_of (w.mem p)) timeout ∈ (_DkObjectWaitOne env p timeout w).2.trace := by
  rw [waitone_fd_path env p timeout w hfds, if_neg hn]
  split
  · split <;> simp
  · split
    · simp
    · rw [classify_fold_eq env p _ _ range_lt_MAX_FDS]
      simp

/-- On the multi-handle path with something to watch, the `pselect6` call is
in the trace `_DkObjectsWaitAny` leaves. -/
theorem waitany_select_call_mem (env : Env) (hs : List (Option Nat)) (timeout : Nat)
    (w : World) (hlen : 2 ≤ hs.length) (hn : (watch_array w hs).nfds ≠ 0) :
    ∃ res, _DkObjectsWaitAny env hs timeout w = some res ∧
      select_call (watch_array w hs) timeout ∈ res.world.trace := by
  obtain ⟨a, b, tl, rfl⟩ := two_le_length hlen
  rw [waitany_multi_eq, if_neg hn]
  split
  · split <;> exact ⟨_, rfl, by simp⟩
  · split
    · exact ⟨_, rfl, by simp⟩
    · refine ⟨_, rfl, ?_⟩
      rw [classify_array_eq]
      simp

/-- A slot without interest, or holding the sentinel, is skipped by the build
loop. -/
theorem watch_slot_skip (h : pal_handle) (s : WatchSets) (i : Nat)
    (hskip : (interest_read h i || interest_write h i) = false ∨ occupied h i = false) :
    watch_slot h s i = s := by
  have hr : watches_read h i = false := by
    cases hc : watches_read h i
    · rfl
    · have := watches_read_interest hc
      rcases hskip with hs | hs
      · simp [this.1] at hs
      · simp [this.2.1] at hs
  have hw : watches_write h i = false := by
    cases hc : watches_write h i
    · rfl
    · have := watches_write_interest hc
      rcases hskip with hs | hs
      · simp [this.1] at hs
      · simp [this.2.1] at hs
  rw [watch_slot_eq, watch_slot_spec]
  have hcond : ((interest_read h i || interest_write h i) && occupied h i &&
      FD_ISSET (h.fds i) (watch_sets_step h s i).efds) = false := by
    rcases hskip with hs | hs <;> simp [hs]
  rw [hcond]
  simp [watch_sets_step, hr, hw]

theorem own_result_bits_zero (h : pal_handle) : own_result_bits h 0 := by
  intro k hk
  simp at hk

theorem slot_fires_interest {h : pal_handle} {r : SelectReply} {i : Nat}
    (hf : slot_fires h r i = true) :
    occupied h i = true ∧ (interest_read h i || interest_write h i) = true := by
  simp only [slot_fires, Bool.and_eq_true] at hf
  exact ⟨hf.1.2, hf.1.1⟩

theorem own_result_bits_slot (env : Env) (h : pal_handle) (r : SelectReply) {j : Nat}
    (hj : j < MAX_FDS) : own_result_bits h (slot_result_bits env h r j) := by
  intro k hk
  rw [testBit_slot_result_bits] at hk
  simp only [Bool.or_eq_true, Bool.and_eq_true, decide_eq_true_eq] at hk
  rcases hk with ⟨he, hk⟩ | ⟨hw, hk⟩
  · have hf : slot_fires h r j = true := by
      simp only [sets_error, Bool.and_eq_true] at he
      exact he.1
    exact ⟨j, hj, Or.inr (by rw [ERROR_eq, hk]), slot_fires_interest hf⟩
  · have hf : slot_fires h r j = true := by
      simp only [sets_writable, Bool.and_eq_true] at hw
      exact hw.1
    exact ⟨j, hj, Or.inl (by rw [WRITEABLE_eq, hk]), slot_fires_interest hf⟩

theorem own_result_bits_or {h : pal_handle} {a b : Nat} (ha : own_result_bits h a)
    (hb : own_result_bits h b) : own_result_bits h (a ||| b) := by
  intro k hk
  rw [Nat.testBit_or, Bool.or_eq_true] at hk
  rcases hk with hk | hk
  · exact ha k hk
  · exact hb k hk

theorem own_result_bits_result_bits (env : Env) (h : pal_handle) (r : SelectReply) :
    own_result_bits h (result_bits env h r) := by
  rw [result_bits_unfold]
  exact own_result_bits_or (own_result_bits_slot env h r (by decide))
    (own_result_bits_or (own_result_bits_slot env h r (by decide))
      (own_result_bits_or (own_result_bits_slot env h r (by decide)) (own_result_bits_zero h)))

theorem high_only_of_own {h : pal_handle} {x : Nat} (hx : own_result_bits h x) :
    high_only x := by
  intro k hk
  cases hb : x.testBit k
  · rfl
  · obtain ⟨i, _, hor, _⟩ := hx k hb
    rcases hor with he | he
    · rw [WRITEABLE_eq] at he
      have := Nat.pow_right_injective (le_refl 2) he
      omega
    · rw [ERROR_eq] at he
      have := Nat.pow_right_injective (le_refl 2) he
      omega

theorem wait_frame_with_bits {h : pal_handle} {x : Nat} (hx : own_result_bits h x) :
    wait_frame h (with_bits h x) := by
  have hh := high_only_of_own hx
  refine ⟨rfl, rfl, ?_, x, rfl, hx⟩
  intro i hi
  have hi3 : i < 3 := hi
  simp only [interest_read_eq, interest_write_eq, result_writable_eq, result_error_eq,
    with_bits, Nat.testBit_or, hh i (by omega), hh (i + 3) (by omega), Bool.or_false]
  refine ⟨trivial, trivial, ?_, ?_⟩ <;> (intro h1; simp [h1])

theorem wait_frame_refl (h : pal_handle) : wait_frame h h := by
  have := wait_frame_with_bits (own_result_bits_zero h)
  rwa [with_bits_zero] at this

theorem wait_frame_cases (env : Env) (r : SelectReply) {h h' : pal_handle}
    (hc : h' = h ∨ h' = with_bits h (result_bits env h r)) : wait_frame h h' := by
  rcases hc with rfl | rfl
  · exact wait_frame_refl _
  · exact wait_frame_with_bits (own_result_bits_result_bits env h r)

/-- On the descriptor path, `_DkObjectWaitOne` leaves each handle as it was or
with the result bits of the host's reply OR-ed in. -/
theorem waitone_fd_mem (env : Env) (p timeout : Nat) (w : World)
    (hfds : (w.mem p).flags &&& HAS_FDS ≠ 0) (q : Nat) :
    (_DkObjectWaitOne env p timeout w).2.mem q = w.mem q ∨
    (_DkObjectWaitOne env p timeout w).2.mem q =
      with_bits (w.mem q)
        (result_bits env (w.mem q) (host_reply env (watch_of (w.mem p)) timeout)) := by
  rw [waitone_fd_path env p timeout w hfds]
  split
  · exact Or.inl rfl
  · split
    · split <;> exact Or.inl rfl
    · split
      · exact Or.inl rfl
      · rw [classify_fold_eq env p _ _ range_lt_MAX_FDS]
        by_cases hqp : q = p
        · subst hqp
          right
          simp only [Function.update_same]
          rfl
        · left
          simp only [Function.update_noteq hqp]

/-- On the multi-handle path, `_DkObjectsWaitAny` leaves each handle as it was
or with the result bits of the host's reply OR-ed in. -/
theorem waitany_multi_mem (env : Env) (hs : List (Option Nat)) (timeout : Nat) (w : World)
    (hlen : 2 ≤ hs.length) :
    ∃ res, _DkObjectsWaitAny env hs timeout w = some res ∧
      ∀ q, res.world.mem q = w.mem q ∨
        res.world.mem q =
          with_bits (w.mem q)
            (result_bits env (w.mem q) (host_reply env (watch_array w hs) timeout)) := by
  obtain ⟨a, b, tl, rfl⟩ := two_le_length hlen
  rw [waitany_multi_eq]
  split
  · exact ⟨_, rfl, fun _ => Or.inl rfl⟩
  · split
    · split <;> exact ⟨_, rfl, fun _ => Or.inl rfl⟩
    · split
      · exact ⟨_, rfl, fun _ => Or.inl rfl⟩
      · refine ⟨_, rfl, ?_⟩
        intro q
        rw [classify_array_eq]
        simp only [mem_after]
        by_cases hq : q ∈ handles_of (a :: b :: tl)
        · right; simp [hq]
        · left; simp [hq]

theorem two_pow_31_int : (2 : Int) ^ 31 = 2147483648 := by norm_num

theorem two_pow_32_int : (2 : Int) ^ 32 = 4294967296 := by norm_num

theorem bump_nfds_nfds (s : WatchSets) (fd : Nat) :
    (bump_nfds s fd).nfds =
      if toUInt32 s.nfds ≤ fd then toInt32 (((fd + 1) % 2 ^ 32 : Nat) : Int) else s.nfds := by
  unfold bump_nfds; split <;> rfl

/-- Below `2^31 - 1` the statement `if (nfds <= fd) nfds = fd + 1;` is the
maximum of `nfds` and `fd + 1`. -/
theorem bump_nfds_small (s : WatchSets) (fd : Nat) (h0 : 0 ≤ s.nfds)
    (h1 : s.nfds < 2147483648) (hfd : fd < 2147483647) :
    (bump_nfds s fd).nfds = (if s.nfds ≤ (fd : Int) then (fd : Int) + 1 else s.nfds) := by
  rw [bump_nfds_nfds]
  have hu : toUInt32 s.nfds = s.nfds.toNat := by
    unfold toUInt32; rw [two_pow_32_int]; omega
  have hi : toInt32 (((fd + 1) % 2 ^ 32 : Nat) : Int) = (fd : Int) + 1 := by
    unfold toInt32; rw [two_pow_31_int, two_pow_32_int]
    norm_num
    omega
  rw [hu, hi]
  by_cases hle : s.nfds ≤ (fd : Int)
  · rw [if_pos hle, if_pos (by omega)]
  · rw [if_neg hle, if_neg (by omega)]

theorem nfds_inv_init : nfds_inv WatchSets.init := by
  refine ⟨?_, ?_, ⟨le_refl _, by decide⟩, ?_, ?_⟩
  · intro d hd; simp [WatchSets.init, FD_ISSET_FD_ZERO] at hd
  · intro d hd; simp [WatchSets.init, FD_ISSET_FD_ZERO] at hd
  · intro d hd; simp [WatchSets.init, FD_ISSET_FD_ZERO] at hd
  · intro h; exact absurd rfl h

/-- One build step keeps `nfds_inv`. -/
theorem nfds_inv_step (h : pal_handle) (s : WatchSets) (i : Nat) (hs : nfds_inv s) :
    nfds_inv (watch_slot h s i) := by
  obtain ⟨hr, hw, ⟨h0, h1⟩, hc, hd⟩ := hs
  rw [two_pow_31_int] at h1
  have er := watch_sets_step_rfds h s i
  have ew := watch_sets_step_wfds h s i
  have ee := watch_sets_step_efds h s i
  have en := watch_sets_step_nfds h s i
  -- the sets after the step, whatever happens to `nfds`
  have hr2 : ∀ d, FD_ISSET d (watch_sets_step h s i).rfds = true →
      FD_ISSET d (watch_sets_step h s i).efds = true := by
    intro d hd'
    rw [er] at hd'; rw [ee]
    by_cases c1 : watches_read h i = true
    · simp only [c1, if_true, FD_ISSET_FD_SET, Bool.true_or, Bool.or_eq_true,
        Bool.and_eq_true, decide_eq_true_eq] at hd' ⊢
      rcases hd' with hd' | hd'
      · exact Or.inl (hr d hd')
      · exact Or.inr hd'
    · have c1' : watches_read h i = false := by simpa using c1
      simp only [c1', Bool.false_eq_true, if_false] at hd'
      have := hr d hd'
      split
      · rw [FD_ISSET_FD_SET, this]; rfl
      · exact this
  have hw2 : ∀ d, FD_ISSET d (watch_sets_step h s i).wfds = true →
      FD_ISSET d (watch_sets_step h s i).efds = true := by
    intro d hd'
    rw [ew] at hd'; rw [ee]
    by_cases c1 : watches_write h i = true
    · simp only [c1, if_true, FD_ISSET_FD_SET, Bool.or_true, Bool.or_eq_true,
        Bool.and_eq_true, decide_eq_true_eq] at hd' ⊢
      rcases hd' with hd' | hd'
      · exact Or.inl (hw d hd')
      · exact Or.inr hd'
    · have c1' : watches_write h i = false := by simpa using c1
      simp only [c1', Bool.false_eq_true, if_false] at hd'
      have := hw d hd'
      split
      · rw [FD_ISSET_FD_SET, this]; rfl
      · exact this
  have hc2 : ∀ d, FD_ISSET d (watch_sets_step h s i).efds = true →
      (d : Int) < s.nfds ∨ (d = h.fds i ∧ (watches_read h i || watches_write h i) = true) := by
    intro d hd'
    rw [ee] at hd'
    by_cases c1 : (watches_read h i || watches_write h i) = true
    · simp only [c1, if_true, FD_ISSET_FD_SET, Bool.or_eq_true, Bool.and_eq_true,
        decide_eq_true_eq] at hd'
      rcases hd' with hd' | hd'
      · exact Or.inl (hc d hd')
      · exact Or.inr ⟨hd'.1.symm, c1⟩
    · simp only [c1, if_false] at hd'
      exact Or.inl (hc d hd')
  have hd2 : s.nfds ≠ 0 → ∃ d, FD_ISSET d (watch_sets_step h s i).efds = true ∧
      s.nfds = (d : Int) + 1 := by
    intro hne
    obtain ⟨d, hd1, hd2⟩ := hd hne
    refine ⟨d, ?_, hd2⟩
    rw [ee]
    split
    · rw [FD_ISSET_FD_SET, hd1]; rfl
    · exact hd1
  rw [watch_slot_eq, watch_slot_spec]
  by_cases hcond : ((interest_read h i || interest_write h i) && occupied h i &&
      FD_ISSET (h.fds i) (watch_sets_step h s i).efds) = true
  · rw [if_pos hcond]
    simp only [Bool.and_eq_true] at hcond
    have hfd : h.fds i < 2147483647 :=
      lt_trans (FD_ISSET_lt hcond.2) (by unfold __FD_SETSIZE; norm_num)
    have hb := bump_nfds_small (watch_sets_step h s i) (h.fds i) (by rw [en]; exact h0)
      (by rw [en]; exact h1) hfd
    rw [en] at hb
    refine ⟨?_, ?_, ?_, ?_, ?_⟩
    · simpa using hr2
    · simpa using hw2
    · rw [hb, two_pow_31_int]; split <;> omega
    · intro d hd'
      rw [bump_nfds_efds] at hd'
      rw [hb]
      rcases hc2 d hd' with hlt | ⟨heq, _⟩
      · split <;> omega
      · subst heq; split <;> omega
    · intro _
      rw [hb]
      by_cases hle : s.nfds ≤ (h.fds i : Int)
      · rw [if_pos hle]
        exact ⟨h.fds i, by rw [bump_nfds_efds]; exact hcond.2, rfl⟩
      · rw [if_neg hle]
        have hne : s.nfds ≠ 0 := by omega
        obtain ⟨d, hd1, hd2'⟩ := hd2 hne
        exact ⟨d, by rw [bump_nfds_efds]; exact hd1, hd2'⟩
  · rw [if_neg hcond]
    refine ⟨hr2, hw2, ?_, ?_, ?_⟩
    · rw [en, two_pow_31_int]; exact ⟨h0, h1⟩
    · intro d hd'
      rw [en]
      rcases hc2 d hd' with hlt | ⟨heq, hc'⟩
      · exact hlt
      · exfalso
        apply hcond
        subst heq
        have hio : (interest_read h i || interest_write h i) = true ∧ occupied h i = true := by
          rcases Bool.or_eq_true _ _ ▸ hc' with hx | hx
          · have := watches_read_interest hx
            simp [this.1, this.2.1]
          · have := watches_write_interest hx
            simp [this.1, this.2.1]
        simp [hio.1, hio.2, hd']
    · rw [en]; exact hd2

theorem nfds_inv_fold (h : pal_handle) (l : List Nat) (s : WatchSets) (hs : nfds_inv s) :
    nfds_inv (l.foldl (watch_slot h) s) := by
  induction l generalizing s with
  | nil => exact hs
  | cons i l ih =>
    rw [List.foldl_cons]
    exact ih _ (nfds_inv_step h s i hs)

theorem nfds_inv_entries (w : World) (hs : List (Option Nat)) (s : WatchSets)
    (hinv : nfds_inv s) :
    nfds_inv (hs.foldl (watch_entry w) s) := by
  induction hs generalizing s with
  | nil => exact hinv
  | cons e hs ih =>
    rw [List.foldl_cons]
    cases e with
    | none => exact ih _ hinv
    | some p => exact ih _ (nfds_inv_fold (w.mem p) (List.range MAX_FDS) s hinv)

/-- The bitmap stays a 1024-bit object: no bit from `__FD_SETSIZE` on. -/
theorem FD_SET_lt {fd x : Nat} (hx : x < 2 ^ __FD_SETSIZE) : FD_SET fd x < 2 ^ __FD_SETSIZE := by
  unfold FD_SET
  split
  · rename_i hfd
    apply Nat.or_lt_two_pow hx
    rw [Nat.one_shiftLeft]
    exact Nat.pow_lt_pow_right (by norm_num) hfd
  · exact hx

theorem watch_slot_lt (h : pal_handle) (s : WatchSets) (i : Nat)
    (hs : s.rfds < 2 ^ __FD_SETSIZE ∧ s.wfds < 2 ^ __FD_SETSIZE ∧ s.efds < 2 ^ __FD_SETSIZE) :
    (watch_slot h s i).rfds < 2 ^ __FD_SETSIZE ∧ (watch_slot h s i).wfds < 2 ^ __FD_SETSIZE ∧
      (watch_slot h s i).efds < 2 ^ __FD_SETSIZE := by
  rw [watch_slot_rfds, watch_slot_wfds, watch_slot_efds]
  refine ⟨?_, ?_, ?_⟩
  · split
    · exact FD_SET_lt hs.1
    · exact hs.1
  · split
    · exact FD_SET_lt hs.2.1
    · exact hs.2.1
  · split
    · exact FD_SET_lt hs.2.2
    · exact hs.2.2

theorem watch_fold_lt (h : pal_handle) (l : List Nat) (s : WatchSets)
    (hs : s.rfds < 2 ^ __FD_SETSIZE ∧ s.wfds < 2 ^ __FD_SETSIZE ∧ s.efds < 2 ^ __FD_SETSIZE) :
    (l.foldl (watch_slot h) s).rfds < 2 ^ __FD_SETSIZE ∧
      (l.foldl (watch_slot h) s).wfds < 2 ^ __FD_SETSIZE ∧
      (l.foldl (watch_slot h) s).efds < 2 ^ __FD_SETSIZE := by
  induction l generalizing s with
  | nil => exact hs
  | cons i l ih => rw [List.foldl_cons]; exact ih _ (watch_slot_lt h s i hs)

theorem watch_entries_lt (w : World) (hs : List (Option Nat)) (s : WatchSets)
    (h : s.rfds < 2 ^ __FD_SETSIZE ∧ s.wfds < 2 ^ __FD_SETSIZE ∧ s.efds < 2 ^ __FD_SETSIZE) :
    (hs.foldl (watch_entry w) s).rfds < 2 ^ __FD_SETSIZE ∧
      (hs.foldl (watch_entry w) s).wfds < 2 ^ __FD_SETSIZE ∧
      (hs.foldl (watch_entry w) s).efds < 2 ^ __FD_SETSIZE := by
  induction hs generalizing s with
  | nil => exact h
  | cons e hs ih =>
    rw [List.foldl_cons]
    cases e with
    | none => exact ih _ h
    | some p => exact ih _ (watch_fold_lt (w.mem p) (List.range MAX_FDS) s h)

theorem init_lt : WatchSets.init.rfds < 2 ^ __FD_SETSIZE ∧
    WatchSets.init.wfds < 2 ^ __FD_SETSIZE ∧ WatchSets.init.efds < 2 ^ __FD_SETSIZE := by
  simp [WatchSets.init, FD_ZERO]

theorem fd_set_empty_iff (x : Nat) (hx : x < 2 ^ __FD_SETSIZE) :
    x = FD_ZERO ↔ ∀ d, FD_ISSET d x = false := by
  constructor
  · intro h d; rw [h]; exact FD_ISSET_FD_ZERO d
  · intro h
    apply Nat.eq_of_testBit_eq
    intro d
    have := h d
    by_cases hd : d < __FD_SETSIZE
    · simpa [FD_ISSET, FD_ZERO, hd] using this
    · have hle : 2 ^ __FD_SETSIZE ≤ 2 ^ d :=
        Nat.pow_le_pow_right (by norm_num) (Nat.le_of_not_lt hd)
      rw [Nat.testBit_lt_two_pow (lt_of_lt_of_le hx hle)]
      simp [FD_ZERO]

theorem descriptor_bound_of_inv {s : WatchSets} (hs : nfds_inv s)
    (hlt : s.rfds < 2 ^ __FD_SETSIZE ∧ s.wfds < 2 ^ __FD_SETSIZE ∧ s.efds < 2 ^ __FD_SETSIZE) :
    descriptor_bound s := by
  obtain ⟨hr, hw, ⟨h0, _⟩, hc, hd⟩ := hs
  refine ⟨?_, ?_, hd, ?_⟩
  · intro d h
    rcases h with h | h
    · exact hr d h
    · exact hw d h
  · constructor
    · intro hz
      have he : ∀ d, FD_ISSET d s.efds = false := by
        intro d
        cases hb : FD_ISSET d s.efds
        · rfl
        · have := hc d hb
          omega
      refine ⟨(fd_set_empty_iff _ hlt.1).2 ?_, (fd_set_empty_iff _ hlt.2.1).2 ?_,
        (fd_set_empty_iff _ hlt.2.2).2 he⟩
      · intro d
        cases hb : FD_ISSET d s.rfds
        · rfl
        · have hx := hr d hb
          rw [he d] at hx
          exact Bool.noConfusion hx
      · intro d
        cases hb : FD_ISSET d s.wfds
        · rfl
        · have hx := hw d hb
          rw [he d] at hx
          exact Bool.noConfusion hx
    · rintro ⟨_, _, he⟩
      by_contra hne
      obtain ⟨d, hd1, _⟩ := hd hne
      rw [(fd_set_empty_iff _ hlt.2.2).1 he d] at hd1
      exact Bool.noConfusion hd1
  · intro d h
    rcases h with h | h | h
    · exact hc d (hr d h)
    · exact hc d (hw d h)
    · exact hc d h

/-- For a handle that is not of a stream kind the result bits do not involve
the byte-count query. -/
theorem slot_result_bits_congr (env env2 : Env) (h : pal_handle) (r : SelectReply) (i : Nat)
    (hk : stream_kind h.type = false) :
    slot_result_bits env h r i = slot_result_bits env2 h r i := by
  simp [slot_result_bits, sets_error, hk]

theorem result_bits_congr (env env2 : Env) (h : pal_handle) (r : SelectReply)
    (hk : stream_kind h.type = false) : result_bits env h r = result_bits env2 h r := by
  rw [result_bits_unfold, result_bits_unfold, slot_result_bits_congr env env2 h r 0 hk,
    slot_result_bits_congr env env2 h r 1 hk, slot_result_bits_congr env env2 h r 2 hk]

theorem slot_queries_non_stream (h : pal_handle) (r : SelectReply) (i : Nat)
    (hk : stream_kind h.type = false) : slot_queries h r i = [] := by
  simp [slot_queries, hk]

theorem handle_queries_non_stream (h : pal_handle) (r : SelectReply)
    (hk : stream_kind h.type = false) : handle_queries h r = [] := by
  have hrange : List.range MAX_FDS = [0, 1, 2] := by decide
  simp [handle_queries, queries_list, hrange, slot_queries_non_stream h r _ hk]

/-- For a handle that is not of a stream kind, a reply that holds its
descriptors in the read set only sets no result bit. -/
theorem result_bits_read_only (env : Env) (h : pal_handle) (r : SelectReply)
    (hk : stream_kind h.type = false)
    (hro : ∀ i, i < MAX_FDS →
      FD_ISSET (h.fds i) r.wfds = false ∧ FD_ISSET (h.fds i) r.efds = false) :
    result_bits env h r = 0 := by
  have hz : ∀ i, i < MAX_FDS → slot_result_bits env h r i = 0 := by
    intro i hi
    simp [slot_result_bits, sets_error, sets_writable, hk, (hro i hi).1, (hro i hi).2]
  rw [result_bits_unfold, hz 0 (by decide), hz 1 (by decide), hz 2 (by decide)]
  rfl

/-- The outcome of `_DkObjectWaitOne` on a handle that is not of a stream kind
is the same under any answers of the byte-count query. -/
theorem waitone_non_stream_congr (env : Env) (f : Nat → IoctlReply) (p timeout : Nat)
    (w : World) (hk : stream_kind (w.mem p).type = false) :
    _DkObjectWaitOne { env with ioctl_FIONREAD := f } p timeout w =
      _DkObjectWaitOne env p timeout w := by
  by_cases hfds : (w.mem p).flags &&& HAS_FDS ≠ 0
  · rw [waitone_fd_path env p timeout w hfds,
      waitone_fd_path { env with ioctl_FIONREAD := f } p timeout w hfds]
    have hrep : host_reply { env with ioctl_FIONREAD := f } (watch_of (w.mem p)) timeout =
        host_reply env (watch_of (w.mem p)) timeout := rfl
    rw [hrep]
    split
    · rfl
    · split
      · split <;> rfl
      · split
        · rfl
        · rw [classify_fold_eq env p _ _ range_lt_MAX_FDS,
            classify_fold_eq { env with ioctl_FIONREAD := f } p _ _ range_lt_MAX_FDS]
          have hb : bits_list { env with ioctl_FIONREAD := f } (w.mem p)
              (host_reply env (watch_of (w.mem p)) timeout) (List.range MAX_FDS) =
              bits_list env (w.mem p) (host_reply env (watch_of (w.mem p)) timeout)
                (List.range MAX_FDS) :=
            result_bits_congr _ env (w.mem p) _ hk
          simp only [hb]
  · simp only [_DkObjectWaitOne, if_neg hfds]

/-- The trace left by the success path of `_DkObjectWaitOne`. -/
theorem waitone_ready_trace (env : Env) (p timeout : Nat) (w : World)
    (hfds : (w.mem p).flags &&& HAS_FDS ≠ 0)
    (hn : (watch_of (w.mem p)).nfds ≠ 0)
    (hret : 0 < (host_reply env (watch_of (w.mem p)) timeout).ret) :
    (_DkObjectWaitOne env p timeout w).2.trace =
      w.trace ++ [select_call (watch_of (w.mem p)) timeout] ++
        handle_queries (w.mem p) (host_reply env (watch_of (w.mem p)) timeout) := by
  rw [waitone_ready env p timeout w hfds hn hret]

theorem getD_append_cons (pre : List HEAP_ALLOC_RECORD) (x d : HEAP_ALLOC_RECORD)
    (rest : List HEAP_ALLOC_RECORD) : (pre ++ x :: rest).getD pre.length d = x := by
  induction pre with
  | nil => rfl
  | cons a pre ih => simpa using ih

theorem set_append_cons (pre : List HEAP_ALLOC_RECORD) (x y : HEAP_ALLOC_RECORD)
    (rest : List HEAP_ALLOC_RECORD) :
    (pre ++ x :: rest).set pre.length y = pre ++ y :: rest := by
  induction pre with
  | nil => rfl
  | cons a pre ih => simp [ih]

/-- The inner loop finds no record with the call site. -/
theorem scan_table_miss (c : Nat) (mid pre post : List HEAP_ALLOC_RECORD)
    (hmid : ∀ r ∈ mid, r.caller ≠ c) :
    scan_table c mid.length pre.length (pre ++ (mid ++ post)) =
      (pre.length + mid.length, pre ++ (mid ++ post)) := by
  induction mid generalizing pre with
  | nil => rfl
  | cons r mid ih =>
    have hr : c ≠ r.caller := fun h => hmid r (List.mem_cons_self r mid) h.symm
    have hget : (pre ++ r :: (mid ++ post)).getD pre.length { caller := 0, count := 0 } = r :=
      getD_append_cons pre r _ _
    have hrec : scan_table c mid.length (pre.length + 1) (pre ++ r :: (mid ++ post)) =
        (pre.length + 1 + mid.length, pre ++ r :: (mid ++ post)) := by
      have := ih (pre ++ [r]) (fun x hx => hmid x (List.mem_cons_of_mem r hx))
      simpa using this
    rw [List.cons_append, List.length_cons, scan_table, hget, if_neg hr, hrec]
    congr 1
    omega

/-- The inner loop stops at the first record with the call site and increments
its count. -/
theorem scan_table_hit (c : Nat) (mid1 : List HEAP_ALLOC_RECORD) (r : HEAP_ALLOC_RECORD)
    (rest pre : List HEAP_ALLOC_RECORD) (more : Nat)
    (hmid : ∀ x ∈ mid1, x.caller ≠ c) (hr : r.caller = c) :
    scan_table c (mid1.length + (more + 1)) pre.length (pre ++ (mid1 ++ r :: rest)) =
      (pre.length + mid1.length,
        pre ++ (mid1 ++ { caller := c, count := (r.count + 1) % 2 ^ 64 } :: rest)) := by
  induction mid1 generalizing pre with
  | nil =>
    have hget : (pre ++ r :: rest).getD pre.length { caller := 0, count := 0 } = r :=
      getD_append_cons pre r _ _
    rw [List.nil_append, List.length_nil, Nat.zero_add, scan_table, hget, if_pos hr.symm,
      set_append_cons, hr]
    rfl
  | cons a mid1 ih =>
    have ha : c ≠ a.caller := fun h => hmid a (List.mem_cons_self a mid1) h.symm
    have hget : (pre ++ a :: (mid1 ++ r :: rest)).getD pre.length
        { caller := 0, count := 0 } = a :=
      getD_append_cons pre a _ _
    have hrec : scan_table c (mid1.length + (more + 1)) (pre.length + 1)
        (pre ++ a :: (mid1 ++ r :: rest)) =
        (pre.length + 1 + mid1.length,
          pre ++ a :: (mid1 ++ { caller := c, count := (r.count + 1) % 2 ^ 64 } :: rest)) := by
      have := ih (pre ++ [a]) (fun x hx => hmid x (List.mem_cons_of_mem a hx))
      simpa using this
    have hlen : (a :: mid1).length + (more + 1) = (mid1.length + (more + 1)) + 1 := by
      simp only [List.length_cons]; omega
    rw [List.cons_append, hlen, scan_table, hget, if_neg ha, hrec, List.cons_append,
      List.length_cons]
    congr 1
    omega


theorem mem_first_occurrences (l : List Nat) (x : Nat) : x ∈ first_occurrences l ↔ x ∈ l := by
  induction l with
  | nil => simp [first_occurrences]
  | cons c l ih =>
    simp only [first_occurrences, List.mem_cons, List.mem_filter, ih, decide_eq_true_eq]
    by_cases hx : x = c
    · simp [hx]
    · simp [hx]

theorem nodup_first_occurrences (l : List Nat) : (first_occurrences l).Nodup := by
  induction l with
  | nil => simp [first_occurrences]
  | cons c l ih =>
    simp only [first_occurrences, List.nodup_cons, List.mem_filter, decide_eq_true_eq]
    exact ⟨fun h => h.2 rfl, ih.filter _⟩

theorem first_occurrences_snoc (l : List Nat) (c : Nat) :
    first_occurrences (l ++ [c]) =
      if c ∈ l then first_occurrences l else first_occurrences l ++ [c] := by
  induction l with
  | nil => simp [first_occurrences]
  | cons a l ih =>
    rw [List.cons_append, first_occurrences, ih]
    by_cases hca : c = a
    · subst hca
      by_cases hcl : c ∈ l
      · simp [hcl, first_occurrences]
      · simp [hcl, first_occurrences, List.filter_append]
    · by_cases hcl : c ∈ l
      · simp [hcl, hca, first_occurrences]
      · simp [hcl, hca, first_occurrences, List.filter_append]

theorem first_occurrences_append_prefix (l m : List Nat) :
    first_occurrences l <+: first_occurrences (l ++ m) := by
  induction m using List.reverseRecOn with
  | nil => simp
  | append_singleton m c ih =>
    rw [← List.append_assoc, first_occurrences_snoc]
    split
    · exact ih
    · exact ih.trans (List.prefix_append _ _)

theorem first_occurrences_prefix {l1 l2 : List Nat} (h : l1 <+: l2) :
    first_occurrences l1 <+: first_occurrences l2 := by
  obtain ⟨m, rfl⟩ := h
  exact first_occurrences_append_prefix l1 m

theorem count_snoc (l : List Nat) (c x : Nat) :
    (l ++ [c]).count x = l.count x + (if x = c then 1 else 0) := by
  rw [List.count_append, List.count_singleton]
  by_cases hx : x = c
  · simp [hx]
  · have : ¬ c = x := fun h => hx h.symm
    simp [hx, this]

/-- The summary after one more handle from a call site not seen before. -/
theorem summary_snoc_new (done : List Nat) (c : Nat) (hc : c ∉ done) :
    summary (done ++ [c]) = summary done ++ [{ caller := c, count := 1 }] := by
  have hcount : done.count c = 0 := List.count_eq_zero_of_not_mem hc
  simp only [summary, first_occurrences_snoc, if_neg hc, List.map_append, List.map_cons,
    List.map_nil, count_snoc, if_pos rfl, hcount]
  congr 1
  apply List.map_congr_left
  intro x hx
  have hxd : x ∈ done := (mem_first_occurrences done x).1 hx
  have hne : x ≠ c := fun h => hc (h ▸ hxd)
  simp [hne]

/-- The summary splits around the record of a call site seen before; one more
handle from that call site increments that record's count. -/
theorem summary_snoc_seen (done : List Nat) (c : Nat) (hc : c ∈ done) :
    ∃ A B : List HEAP_ALLOC_RECORD,
      summary done = A ++ { caller := c, count := done.count c } :: B ∧
      summary (done ++ [c]) = A ++ { caller := c, count := done.count c + 1 } :: B ∧
      ∀ r ∈ A, r.caller ≠ c := by
  have hmem : c ∈ first_occurrences done := (mem_first_occurrences done c).2 hc
  obtain ⟨s, t, hst⟩ := List.append_of_mem hmem
  have hnd := nodup_first_occurrences done
  rw [hst] at hnd
  have hcs : c ∉ s := by
    intro h
    have := List.nodup_append.1 hnd
    exact this.2.2 h (List.mem_cons_self c t)
  have hct : c ∉ t := by
    have := (List.nodup_append.1 hnd).2.1
    exact (List.nodup_cons.1 this).1
  refine ⟨s.map (fun x => { caller := x, count := done.count x }),
    t.map (fun x => { caller := x, count := done.count x }), ?_, ?_, ?_⟩
  · simp [summary, hst]
  · simp only [summary, first_occurrences_snoc, if_pos hc, hst, List.map_append, List.map_cons,
      count_snoc, if_pos rfl]
    congr 1
    · apply List.map_congr_left
      intro x hx
      have hne : x ≠ c := fun h => hcs (h ▸ hx)
      simp [hne]
    · congr 1
      apply List.map_congr_left
      intro x hx
      have hne : x ≠ c := fun h => hct (h ▸ hx)
      simp [hne]
  · intro r hr
    obtain ⟨x, hx, rfl⟩ := List.mem_map.1 hr
    exact fun h => hcs (h ▸ hx)

theorem summary_caller_ne (done : List Nat) (c : Nat) (hc : c ∉ done) :
    ∀ r ∈ summary done, r.caller ≠ c := by
  intro r hr
  obtain ⟨x, hx, rfl⟩ := List.mem_map.1 hr
  exact fun h => hc (h ▸ (mem_first_occurrences done x).1 hx)

theorem length_summary (l : List Nat) : (summary l).length = (first_occurrences l).length := by
  simp [summary]


theorem padding_succ (k : Nat) : padding (k + 1) = { caller := 0, count := 0 } :: padding k := rfl

/-- The outer loop, started after the handles `done` were summarised, ends with
the summary of `done` and of a prefix `scanned` of the remaining handles:
all of them, or those before the first handle from a new call site met
when `max_records` call sites are recorded. -/
theorem collect_table_spec (max_records : Nat) (rest : List Nat) :
    ∀ (done : List Nat) (k : Nat),
      (first_occurrences done).length + k = max_records →
      done.length + rest.length < 2 ^ 64 →
      ∃ scanned, scanned <+: rest ∧
        collect_table max_records rest (summary done ++ padding k)
            (first_occurrences done).length =
          summary (done ++ scanned) ++
            padding (max_records - (first_occurrences (done ++ scanned)).length) ∧
        (first_occurrences (done ++ scanned)).length ≤ max_records ∧
        (scanned = rest ∨ ∃ c tl, rest = scanned ++ c :: tl ∧ c ∉ done ++ scanned ∧
          (first_occurrences (done ++ scanned)).length = max_records) := by
  induction rest with
  | nil =>
    intro done k hk _
    refine ⟨[], List.prefix_refl _, ?_, ?_, Or.inl rfl⟩
    · have : max_records - (first_occurrences done).length = k := by omega
      simp [collect_table, this]
    · simp only [List.append_nil]; omega
  | cons c tl ih =>
    intro done k hk hlen
    have hlen' : (done ++ [c]).length + tl.length < 2 ^ 64 := by
      simp only [List.length_append, List.length_singleton, List.length_cons, List.length_nil] at hlen ⊢
      omega
    by_cases hc : c ∈ done
    · -- a call site already recorded
      obtain ⟨A, B, hA, hA', hne⟩ := summary_snoc_seen done c hc
      have hn : (first_occurrences done).length = A.length + (B.length + 1) := by
        rw [← length_summary, hA]; simp
      have hcnt : (done.count c + 1) % 2 ^ 64 = done.count c + 1 := by
        apply Nat.mod_eq_of_lt
        have := List.count_le_length (a := c) (l := done)
        simp only [List.length_cons] at hlen
        omega
      have hscan : scan_table c (first_occurrences done).length 0
          (summary done ++ padding k) =
          (A.length, summary (done ++ [c]) ++ padding k) := by
        have := scan_table_hit c A { caller := c, count := done.count c } (B ++ padding k) []
          B.length hne rfl
        simp only [List.nil_append, List.length_nil, Nat.zero_add, hcnt] at this
        rw [hn, hA, hA', List.append_assoc, List.cons_append, this, List.append_assoc,
          List.cons_append]
      have hfo : first_occurrences (done ++ [c]) = first_occurrences done := by
        rw [first_occurrences_snoc, if_pos hc]
      obtain ⟨scanned, hpre, hres, hle, hstop⟩ := ih (done ++ [c]) k (by rw [hfo]; exact hk) hlen'
      have happ : done ++ [c] ++ scanned = done ++ c :: scanned := by simp
      rw [happ] at hres hle hstop
      refine ⟨c :: scanned, ?_, ?_, hle, ?_⟩
      · obtain ⟨t, ht⟩ := hpre
        exact ⟨t, by simp [ht]⟩
      · have hi : ¬ (scan_table c (first_occurrences done).length 0
            (summary done ++ padding k)).1 = (first_occurrences done).length := by
          rw [hscan, hn]; simp only; omega
        rw [collect_table, if_neg hi, hscan]
        rw [hfo] at hres
        exact hres
      · rcases hstop with h | ⟨c', tl', h1, h2, h3⟩
        · exact Or.inl (by rw [h])
        · exact Or.inr ⟨c', tl', by rw [h1]; rfl, h2, h3⟩
    · -- a new call site
      have hscan : scan_table c (first_occurrences done).length 0
          (summary done ++ padding k) =
          ((first_occurrences done).length, summary done ++ padding k) := by
        have := scan_table_miss c (summary done) [] (padding k) (summary_caller_ne done c hc)
        simp only [List.nil_append, List.length_nil, Nat.zero_add, length_summary] at this
        exact this
      by_cases hfull : (first_occurrences done).length = max_records
      · -- the table is full: the scan stops here
        refine ⟨[], List.nil_prefix, ?_, ?_, Or.inr ⟨c, tl, rfl, by simpa using hc, by simpa using hfull⟩⟩
        · have hk0 : k = 0 := by omega
          rw [collect_table, hscan, if_pos rfl, if_pos hfull]
          simp [hk0, hfull]
        · simp only [List.append_nil]; omega
      · obtain ⟨k', rfl⟩ : ∃ k', k = k' + 1 := ⟨k - 1, by omega⟩
        have hfo : first_occurrences (done ++ [c]) = first_occurrences done ++ [c] := by
          rw [first_occurrences_snoc, if_neg hc]
        have hset : (summary done ++ padding (k' + 1)).set (first_occurrences done).length
            { caller := c, count := 1 } = summary (done ++ [c]) ++ padding k' := by
          rw [padding_succ, ← length_summary, set_append_cons, summary_snoc_new done c hc]
          simp
        obtain ⟨scanned, hpre, hres, hle, hstop⟩ := ih (done ++ [c]) k'
          (by rw [hfo]; simp only [List.length_append, List.length_singleton]; omega) hlen'
        have happ : done ++ [c] ++ scanned = done ++ c :: scanned := by simp
        rw [happ] at hres hle hstop
        refine ⟨c :: scanned, ?_, ?_, hle, ?_⟩
        · obtain ⟨t, ht⟩ := hpre
          exact ⟨t, by simp [ht]⟩
        · rw [collect_table, hscan, if_pos rfl, if_neg hfull, hset]
          rw [hfo, List.length_append, List.length_singleton] at hres
          exact hres
        · rcases hstop with h | ⟨c', tl', h1, h2, h3⟩
          · exact Or.inl (by rw [h])
          · exact Or.inr ⟨c', tl', by rw [h1]; rfl, h2, h3⟩

/-- On a slot whose descriptor fits the set the checked iteration is the
iteration of the build loop. -/
theorem watch_slot_checked_eq (h : pal_handle) (s : WatchSets) (i : Nat)
    (hfit : occupied h i = true → (interest_read h i || interest_write h i) = true →
      h.fds i < __FD_SETSIZE) :
    watch_slot_checked h s i = some (watch_slot h s i) := by
  unfold watch_slot_checked watch_slot
  simp only []
  by_cases h1 : (h.flags >>> i) &&& 0o11 = 0
  · rw [if_pos h1, if_pos h1]
  · rw [if_neg h1, if_neg h1]
    by_cases h2 : h.fds i = PAL_IDX_POISON
    · rw [if_pos h2, if_pos h2]
    · rw [if_neg h2, if_neg h2]
      have hlt : h.fds i < __FD_SETSIZE :=
        hfit (by simp [occupied, h2]) ((interest_iff h i).2 h1)
      simp only [FD_SET_checked, FD_ISSET_checked, if_pos hlt]
      by_cases c1 : (h.flags >>> i) &&& 0o1001 = 0o1 <;>
        by_cases c2 : (h.flags >>> i) &&& 0o1110 = 0o10 <;>
        simp only [c1, c2, if_true, if_false, Option.some_bind] <;>
        split_ifs <;> rfl

theorem watch_fold_checked_eq (h : pal_handle) (l : List Nat) (s : WatchSets)
    (hl : ∀ i ∈ l, i < MAX_FDS) (hfit : fds_fit h) :
    l.foldlM (watch_slot_checked h) s = some (l.foldl (watch_slot h) s) := by
  induction l generalizing s with
  | nil => rfl
  | cons i l ih =>
    rw [List.foldlM_cons, watch_slot_checked_eq h s i (hfit i (hl i (List.mem_cons_self i l)))]
    exact ih _ (fun j hj => hl j (List.mem_cons_of_mem i hj))

theorem watch_handle_checked_eq (h : pal_handle) (s : WatchSets) (hfit : fds_fit h) :
    watch_handle_checked h s = some (watch_handle h s) :=
  watch_fold_checked_eq h (List.range MAX_FDS) s (fun _ hi => List.mem_range.1 hi) hfit

theorem watch_entries_checked_eq (w : World) (hs : List (Option Nat)) (s : WatchSets)
    (hfit : ∀ q, q ∈ handles_of hs → fds_fit (w.mem q)) :
    hs.foldlM (watch_entry_checked w) s = some (hs.foldl (watch_entry w) s) := by
  induction hs generalizing s with
  | nil => rfl
  | cons e hs ih =>
    cases e with
    | none =>
      rw [List.foldlM_cons, List.foldl_cons]
      exact ih _ (fun q hq => hfit q (by simpa [handles_of] using hq))
    | some p =>
      have hp : p ∈ handles_of (some p :: hs) := by simp [handles_of]
      rw [List.foldlM_cons, List.foldl_cons]
      simp only [watch_entry_checked, watch_entry, watch_handle_checked_eq _ _ (hfit p hp)]
      apply ih
      intro q hq
      apply hfit q
      simp only [handles_of, List.filterMap_cons, id]
      exact List.mem_cons_of_mem p hq

/-- The system calls of `_DkObjectWaitOne` on the descriptor path, whatever the
host answers. -/
theorem waitone_trace_all (env : Env) (p timeout : Nat) (w : World)
    (hfds : (w.mem p).flags &&& HAS_FDS ≠ 0) :
    (_DkObjectWaitOne env p timeout w).2.trace =
      w.trace ++ wait_calls (watch_of (w.mem p)) timeout
        (host_reply env (watch_of (w.mem p)) timeout)
        (handle_queries (w.mem p) (host_reply env (watch_of (w.mem p)) timeout)) := by
  by_cases hn : (watch_of (w.mem p)).nfds = 0
  · rw [waitone_fd_path env p timeout w hfds, if_pos hn]
    simp [wait_calls, hn]
  · by_cases hret : 0 < (host_reply env (watch_of (w.mem p)) timeout).ret
    · rw [waitone_ready_trace env p timeout w hfds hn hret]
      simp [wait_calls, hn, hret]
    · rw [waitone_fd_path env p timeout w hfds, if_neg hn]
      simp only [wait_calls, if_neg hn, if_neg hret]
      split
      · split <;> rfl
      · rename_i hne
        have h0 : (host_reply env (watch_of (w.mem p)) timeout).ret = 0 := by
          rw [IS_ERR_iff] at hne; omega
        rw [if_pos h0]

/-- On the descriptor path a handle that is not of a stream kind keeps its flags
when the reply holds its descriptors in the read set only. -/
theorem waitone_non_stream_flags (env : Env) (p timeout : Nat) (w : World)
    (hfds : (w.mem p).flags &&& HAS_FDS ≠ 0)
    (hk : stream_kind (w.mem p).type = false)
    (hro : ∀ i, i < MAX_FDS →
      FD_ISSET ((w.mem p).fds i) (host_reply env (watch_of (w.mem p)) timeout).wfds = false ∧
      FD_ISSET ((w.mem p).fds i) (host_reply env (watch_of (w.mem p)) timeout).efds = false) :
    ((_DkObjectWaitOne env p timeout w).2.mem p).flags = (w.mem p).flags := by
  rcases waitone_fd_mem env p timeout w hfds p with h | h
  · rw [h]
  · rw [h, result_bits_read_only env _ _ hk hro, with_bits_zero]

/-- The multi-handle `_DkObjectsWaitAny`, whatever the host answers: the system
calls issued, the heap left, and the independence of result code and chosen
handle from the answers of the byte-count query. -/
theorem waitany_multi_all (env : Env) (hs : List (Option Nat)) (timeout : Nat) (w : World)
    (hlen : 2 ≤ hs.length) :
    ∃ res, _DkObjectsWaitAny env hs timeout w = some res ∧
      res.world.trace = w.trace ++ wait_calls (watch_array w hs) timeout
        (host_reply env (watch_array w hs) timeout)
        (queries_of w.mem (host_reply env (watch_array w hs) timeout) (handles_of hs)) ∧
      (res.world.mem = w.mem ∨
        res.world.mem =
          mem_after env (host_reply env (watch_array w hs) timeout) w.mem (handles_of hs)) ∧
      ∀ f : Nat → IoctlReply, ∃ res2,
        _DkObjectsWaitAny { env with ioctl_FIONREAD := f } hs timeout w = some res2 ∧
        res2.ret = res.ret ∧ res2.polled = res.polled ∧
        ((res.world.mem = w.mem ∧ res2.world.mem = w.mem) ∨
          (res.world.mem =
              mem_after env (host_reply env (watch_array w hs) timeout) w.mem (handles_of hs) ∧
            res2.world.mem =
              mem_after { env with ioctl_FIONREAD := f }
                (host_reply env (watch_array w hs) timeout) w.mem (handles_of hs))) := by
  by_cases hn : (watch_array w hs).nfds = 0
  · obtain ⟨a, b, tl, rfl⟩ := two_le_length hlen
    refine ⟨_, by rw [waitany_multi_eq, if_pos hn], ?_, Or.inl rfl, ?_⟩
    · simp [wait_calls, hn]
    · intro f
      exact ⟨_, by rw [waitany_multi_eq, if_pos hn], rfl, rfl, Or.inl ⟨rfl, rfl⟩⟩
  · by_cases hret : 0 < (host_reply env (watch_array w hs) timeout).ret
    · refine ⟨_, waitany_ready env hs timeout w hlen hn hret, ?_, Or.inr rfl, ?_⟩
      · simp [wait_calls, hn, hret]
      · intro f
        exact ⟨_, waitany_ready { env with ioctl_FIONREAD := f } hs timeout w hlen hn hret,
          rfl, rfl, Or.inr ⟨rfl, rfl⟩⟩
    · obtain ⟨a, b, tl, rfl⟩ := two_le_length hlen
      by_cases herr : IS_ERR (host_reply env (watch_array w (a :: b :: tl)) timeout).ret = true
      · by_cases hint : ERRNO (host_reply env (watch_array w (a :: b :: tl)) timeout).ret = EINTR ∨
            ERRNO (host_reply env (watch_array w (a :: b :: tl)) timeout).ret = ERESTART
        · refine ⟨_, by rw [waitany_multi_eq, if_neg hn, if_pos herr, if_pos hint], ?_,
            Or.inl rfl, ?_⟩
          · simp [wait_calls, hn, hret]
          · intro f
            refine ⟨_, by rw [waitany_multi_eq, if_neg hn]; exact (if_pos herr).trans (if_pos hint),
              rfl, rfl, Or.inl ⟨rfl, rfl⟩⟩
        · refine ⟨_, by rw [waitany_multi_eq, if_neg hn, if_pos herr, if_neg hint], ?_,
            Or.inl rfl, ?_⟩
          · simp [wait_calls, hn, hret]
          · intro f
            refine ⟨_, by rw [waitany_multi_eq, if_neg hn]; exact (if_pos herr).trans (if_neg hint),
              rfl, rfl, Or.inl ⟨rfl, rfl⟩⟩
      · have h0 : (host_reply env (watch_array w (a :: b :: tl)) timeout).ret = 0 := by
          rw [IS_ERR_iff] at herr; omega
        refine ⟨_, by rw [waitany_multi_eq, if_neg hn, if_neg herr, if_pos h0], ?_,
          Or.inl rfl, ?_⟩
        · simp [wait_calls, hn, hret]
        · intro f
          refine ⟨_, by rw [waitany_multi_eq, if_neg hn]; exact (if_neg herr).trans (if_pos h0),
            rfl, rfl, Or.inl ⟨rfl, rfl⟩⟩

theorem scan_table_length (c : Nat) :
    ∀ (left i : Nat) (records : List HEAP_ALLOC_RECORD),
      (scan_table c left i records).2.length = records.length := by
  intro left
  induction left with
  | zero => intro i records; rfl
  | succ left ih =>
    intro i records
    rw [scan_table]
    split
    · simp
    · exact ih _ _

/-- Inside the buffer the inner loop of the code is the loop on mathematical
integers. -/
theorem scan_records_eq (c : Nat) :
    ∀ (left i : Nat) (records : List HEAP_ALLOC_RECORD), i + left ≤ records.length →
      scan_records c left (i : Int) records =
        some (((scan_table c left i records).1 : Int), (scan_table c left i records).2) := by
  intro left
  induction left with
  | zero => intro i records _; rfl
  | succ left ih =>
    intro i records hlen
    have hg : ¬ ((i : Int) < 0 ∨ (records.length : Int) ≤ (i : Int)) := by omega
    rw [scan_records, if_neg hg, scan_table, Int.toNat_ofNat]
    split
    · rfl
    · have := ih (i + 1) records (by omega)
      rw [← this]
      rfl

theorem buffer_records_eq {max_records : Nat} (h : max_records < 2 ^ 60) :
    buffer_records max_records = max_records := by
  unfold buffer_records sizeof_HEAP_ALLOC_RECORD
  have h' : max_records < 1152921504606846976 := by norm_num at h; exact h
  have : 16 * max_records % 2 ^ 64 = 16 * max_records := by
    apply Nat.mod_eq_of_lt
    norm_num
    omega
  rw [this]
  omega

/-- Inside a buffer of `max_records` records, and as long as the record counter
stays an `int` (the cap, or the counter plus the handles still to scan, is
below `2^31`), the outer loop of the code is the loop on mathematical
integers. -/
theorem collect_loop_eq (max_records : Nat) (hmax : max_records < 2 ^ 60) :
    ∀ (rest : List Nat) (records : List HEAP_ALLOC_RECORD) (n : Nat),
      n ≤ max_records → (max_records < 2 ^ 31 ∨ n + rest.length < 2 ^ 31) →
      records.length = max_records →
      collect_loop max_records rest records (n : Int) =
        some (collect_table max_records rest records n) := by
  have hmax' : max_records < 1152921504606846976 := by norm_num at hmax; exact hmax
  intro rest
  induction rest with
  | nil => intro records n _ _ _; rfl
  | cons c rest ih =>
    intro records n hn hint hlen
    have hint' : max_records < 2147483648 ∨ n + (rest.length + 1) < 2147483648 := by
      rcases hint with h | h
      · left; norm_num at h; exact h
      · right; rw [List.length_cons] at h; norm_num at h; exact h
    have hscan := scan_records_eq c n 0 records (by omega)
    rw [collect_loop, Int.toNat_ofNat]
    have h0 : ((0 : Nat) : Int) = 0 := rfl
    rw [h0] at hscan
    rw [hscan]
    simp only []
    rw [collect_table]
    have hl := scan_table_length c n 0 records
    by_cases hi : (scan_table c n 0 records).1 = n
    · rw [if_pos hi, if_pos (by rw [hi])]
      have hu : toULong (n : Int) = n := toULong_of_lt n (by omega)
      have hm : max_records % 2 ^ 64 = max_records := by
        apply Nat.mod_eq_of_lt
        norm_num
        omega
      rw [hu, hm]
      by_cases hfull : n = max_records
      · rw [if_pos hfull, if_pos hfull]
      · rw [if_neg hfull, if_neg hfull]
        have hg : ¬ ((n : Int) < 0 ∨
            (((scan_table c n 0 records).2.length : Nat) : Int) ≤ (n : Int)) := by
          rw [hl]; omega
        rw [if_neg hg, if_neg (by omega)]
        have := ih ((scan_table c n 0 records).2.set n { caller := c, count := 1 }) (n + 1)
          (by omega)
          (by
            rcases hint' with h | h
            · left; norm_num; exact h
            · right; norm_num; omega)
          (by simp [hl, hlen])
        rw [Nat.cast_add, Nat.cast_one] at this
        exact this
    · rw [if_neg hi, if_neg (by intro h; exact hi (by exact_mod_cast h))]
      exact ih _ n hn
        (by
          rcases hint' with h | h
          · left; norm_num; exact h
          · right; norm_num; omega)
        (by rw [hl, hlen])

/-! ## Claims -/

/-- C1: when `_DkObjectWaitOne` is called on a descriptor-bearing handle whose
descriptors fit the 1024-bit descriptor set, the host is invoked and reports a
nonzero ready count with result sets `r`, the call returns success and the
handle's final flags word is the initial one OR-ed with exactly the bits of
`result_bits`: for each occupied interest-bearing slot whose descriptor is in
a result set, `ERROR(i)` iff the descriptor is in the error set or is in the
read set of a handle of kind pipe, private pipe, TCP, UDP or process
(`stream_kind`) whose byte-count query fails or reports zero, and
`WRITEABLE(i)` iff the descriptor is in the write set. Read slot by slot:
`result_error` ends up set iff it was set or `sets_error` holds, and likewise
`result_writable`. -/
theorem waitone_result_classification (env : Env) (p timeout : Nat) (w : World)
    (hfds : (w.mem p).flags &&& HAS_FDS ≠ 0)
    (_hfit : fds_fit (w.mem p))
    (hn : (watch_of (w.mem p)).nfds ≠ 0)
    (hret : 0 < (host_reply env (watch_of (w.mem p)) timeout).ret) :
    (_DkObjectWaitOne env p timeout w).1 = 0 ∧
    ((_DkObjectWaitOne env p timeout w).2.mem p).flags =
      (w.mem p).flags |||
        result_bits env (w.mem p) (host_reply env (watch_of (w.mem p)) timeout) ∧
    ∀ i, i < MAX_FDS →
      result_error ((_DkObjectWaitOne env p timeout w).2.mem p) i =
        (result_error (w.mem p) i ||
          sets_error env (w.mem p) (host_reply env (watch_of (w.mem p)) timeout) i) ∧
      result_writable ((_DkObjectWaitOne env p timeout w).2.mem p) i =
        (result_writable (w.mem p) i ||
          sets_writable (w.mem p) (host_reply env (watch_of (w.mem p)) timeout) i) := by
  refine ⟨?_, ?_, ?_⟩
  · rw [waitone_ready env p timeout w hfds hn hret]
  · rw [waitone_ready_mem env p timeout w hfds hn hret]
    rfl
  · intro i hi
    rw [waitone_ready_mem env p timeout w hfds hn hret]
    exact ⟨result_error_with_bits env _ _ hi, result_writable_with_bits env _ _ hi⟩

/-- Witness for C1: a private-pipe handle with one descriptor and write
interest only, reported writable only: success, `result_writable` set,
`result_error` clear. -/
theorem waitone_result_classification_witness :
    (_DkObjectWaitOne host_writable 1 100000 (world_of pipeprv_writer)).1 = 0 ∧
    result_writable
      ((_DkObjectWaitOne host_writable 1 100000 (world_of pipeprv_writer)).2.mem 1) 0 = true ∧
    result_error
      ((_DkObjectWaitOne host_writable 1 100000 (world_of pipeprv_writer)).2.mem 1) 0 = false := by
  have h := waitone_result_classification host_writable 1 100000 (world_of pipeprv_writer)
    (by decide) (by decide) (by decide) (by decide)
  refine ⟨h.1, ?_, ?_⟩
  · rw [(h.2.2 0 (by decide)).2]; decide
  · rw [(h.2.2 0 (by decide)).1]; decide

/-- C2: for a handle of kind pipe, private pipe, TCP, UDP or process whose
descriptors fit the 1024-bit descriptor set and whose only occupied
interest-bearing slot `i` has read interest only and clear result flags, if
the host (which reports as writable only descriptors it was asked to watch for
writing) reports the slot's descriptor readable and the byte-count query on it
fails or returns 0, `_DkObjectWaitOne` returns success with `result_error` set
and `result_writable` not set for that slot. -/
theorem waitone_end_of_stream (env : Env) (p timeout : Nat) (w : World) (i : Nat)
    (hi : i < MAX_FDS)
    (hfit : fds_fit (w.mem p))
    (hkind : (w.mem p).type = pal_type.pipe ∨ (w.mem p).type = pal_type.pipeprv ∨
      (w.mem p).type = pal_type.tcp ∨ (w.mem p).type = pal_type.udp ∨
      (w.mem p).type = pal_type.process)
    (hocc : occupied (w.mem p) i = true)
    (hread : interest_read (w.mem p) i = true)
    (hnw : interest_write (w.mem p) i = false)
    (hcw : result_writable (w.mem p) i = false)
    (hce : result_error (w.mem p) i = false)
    (honly : ∀ j, j < MAX_FDS → j ≠ i →
      ((interest_read (w.mem p) j || interest_write (w.mem p) j) &&
        occupied (w.mem p) j) = false)
    (hret : 0 < (host_reply env (watch_of (w.mem p)) timeout).ret)
    (hR : FD_ISSET ((w.mem p).fds i) (host_reply env (watch_of (w.mem p)) timeout).rfds = true)
    (hsub : (host_reply env (watch_of (w.mem p)) timeout).wfds &&& (watch_of (w.mem p)).wfds =
      (host_reply env (watch_of (w.mem p)) timeout).wfds)
    (hq : query_closed env ((w.mem p).fds i) = true) :
    (_DkObjectWaitOne env p timeout w).1 = 0 ∧
    result_error ((_DkObjectWaitOne env p timeout w).2.mem p) i = true ∧
    result_writable ((_DkObjectWaitOne env p timeout w).2.mem p) i = false := by
  have hfds : (w.mem p).flags &&& HAS_FDS ≠ 0 :=
    has_fds_of_interest hi (by simp [hread])
  have hwr : watches_read (w.mem p) i = true := by simp [watches_read, hocc, hread, hce]
  have hk : stream_kind (w.mem p).type = true := by
    rcases hkind with h | h | h | h | h <;> rw [h] <;> rfl
  have hn : (watch_of (w.mem p)).nfds ≠ 0 :=
    watch_of_nfds_ne_zero (hfit i hi hocc (by simp [hread])) hi (by simp [hwr])
  have hww : ∀ j ∈ List.range MAX_FDS, watches_write (w.mem p) j = false := by
    intro j hj
    by_cases hji : j = i
    · subst hji; simp [watches_write, hnw]
    · have := honly j (List.mem_range.1 hj) hji
      cases ho : occupied (w.mem p) j
      · simp [watches_write, ho]
      · cases hiw : interest_write (w.mem p) j
        · simp [watches_write, hiw]
        · simp [ho, hiw] at this
  have hw0 : (watch_of (w.mem p)).wfds = 0 :=
    watch_fold_wfds_idle (w.mem p) (List.range MAX_FDS) WatchSets.init hww
  have hW : FD_ISSET ((w.mem p).fds i) (host_reply env (watch_of (w.mem p)) timeout).wfds
      = false := by
    rw [hw0, Nat.and_zero] at hsub
    rw [← hsub]; simp [FD_ISSET]
  have hfire : slot_fires (w.mem p) (host_reply env (watch_of (w.mem p)) timeout) i = true := by
    simp [slot_fires, hread, hocc, in_result, hR]
  refine ⟨?_, ?_, ?_⟩
  · rw [waitone_ready env p timeout w hfds hn hret]
  · rw [waitone_ready_mem env p timeout w hfds hn hret, result_error_with_bits env _ _ hi]
    simp [sets_error, hfire, hR, hk, hq]
  · rw [waitone_ready_mem env p timeout w hfds hn hret, result_writable_with_bits env _ _ hi]
    simp [sets_writable, hW, hcw]

/-- Witness for C2: a TCP handle with read interest whose peer closed the
connection. -/
theorem waitone_end_of_stream_witness :
    (_DkObjectWaitOne host_eof 1 0 (world_of tcp_reader)).1 = 0 ∧
    result_error ((_DkObjectWaitOne host_eof 1 0 (world_of tcp_reader)).2.mem 1) 0 = true ∧
    result_writable ((_DkObjectWaitOne host_eof 1 0 (world_of tcp_reader)).2.mem 1) 0 = false :=
  waitone_end_of_stream host_eof 1 0 (world_of tcp_reader) 0
    (by decide) (by decide) (Or.inr (Or.inr (Or.inl rfl))) (by decide) (by decide) (by decide)
    (by decide) (by decide) (by decide) (by decide) (by decide) (by decide) (by decide)

/-- C3: for a list of two or more entries whose handles hold descriptors that
fit the 1024-bit descriptor set, on which the host is invoked and reports a
nonzero ready count, `_DkObjectsWaitAny` stores through `polled` the first
non-null handle in list order that has an occupied interest-bearing slot
whose descriptor is in the read, write or error result set (list order, not
the order of the descriptor values), and every non-null handle of the list,
chosen or not, ends with its flags word OR-ed with the same `result_bits`
that `_DkObjectWaitOne` step 7 applies. -/
theorem waitany_list_order (env : Env) (hs : List (Option Nat)) (timeout : Nat) (w : World)
    (hlen : 2 ≤ hs.length)
    (_hfit : ∀ q, q ∈ handles_of hs → fds_fit (w.mem q))
    (hn : (watch_array w hs).nfds ≠ 0)
    (hret : 0 < (host_reply env (watch_array w hs) timeout).ret) :
    ∃ res, _DkObjectsWaitAny env hs timeout w = some res ∧
      res.polled = some (first_ready w (host_reply env (watch_array w hs) timeout) hs) ∧
      ∀ q, q ∈ handles_of hs →
        (res.world.mem q).flags =
          (w.mem q).flags |||
            result_bits env (w.mem q) (host_reply env (watch_array w hs) timeout) := by
  refine ⟨_, waitany_ready env hs timeout w hlen hn hret, rfl, ?_⟩
  intro q hq
  simp [mem_after, hq, with_bits]

/-- Witness for C3: `[h1, h2]` both writable, `h2` holding the smaller
descriptor: `h1` is chosen and `h2` has `result_writable` set. -/
theorem waitany_list_order_witness :
    ∃ res, _DkObjectsWaitAny host_writable [some 1, some 2] 0 two_writers = some res ∧
      res.polled = some (some 1) ∧
      result_writable (res.world.mem 2) 0 = true := by
  obtain ⟨res, h1, h2, h3⟩ := waitany_list_order host_writable [some 1, some 2] 0 two_writers
    (by decide) (by decide) (by decide) (by decide)
  refine ⟨res, h1, ?_, ?_⟩
  · rw [h2]; decide
  · have := h3 2 (by decide)
    rw [result_writable_eq, this]
    decide

/-- C4: on the one-element list `[h]`, `_DkObjectsWaitAny` returns the result
code of `_DkObjectWaitOne(h, timeout)` and leaves the state (the flags of
`h` included) exactly as `_DkObjectWaitOne` leaves it, whichever path
`_DkObjectWaitOne` takes; on success the chosen handle is `h`, otherwise
nothing is stored through `polled`. -/
theorem waitany_single_is_waitone (env : Env) (p timeout : Nat) (w : World) :
    ∃ res, _DkObjectsWaitAny env [some p] timeout w = some res ∧
      res.ret = (_DkObjectWaitOne env p timeout w).1 ∧
      res.world = (_DkObjectWaitOne env p timeout w).2 ∧
      (res.world.mem p).flags = ((_DkObjectWaitOne env p timeout w).2.mem p).flags ∧
      (res.ret = 0 → res.polled = some (some p)) ∧
      (res.ret ≠ 0 → res.polled = none) := by
  by_cases h0 : (_DkObjectWaitOne env p timeout w).1 = 0
  · refine ⟨{ ret := (_DkObjectWaitOne env p timeout w).1, polled := some (some p),
              world := (_DkObjectWaitOne env p timeout w).2 }, ?_, rfl, rfl, rfl,
            fun _ => rfl, fun h => absurd h0 h⟩
    simp [_DkObjectsWaitAny, h0]
  · refine ⟨{ ret := (_DkObjectWaitOne env p timeout w).1, polled := none,
              world := (_DkObjectWaitOne env p timeout w).2 }, ?_, rfl, rfl, rfl,
            fun h => absurd h h0, fun _ => rfl⟩
    simp [_DkObjectsWaitAny, h0]

/-- C5: the outcome of the host's multiplexed wait is mapped the same way by
`_DkObjectWaitOne` (descriptor path, host invoked) and by the multi-handle
path of `_DkObjectsWaitAny`: `EINTR`/`ERESTART` give `Interrupted`, any
other host error `e` gives exactly `unix_to_pal_error(e)`, zero ready
descriptors give `WouldBlock`, and none of these is success (for a
translated error: unless the translation itself is 0). -/
theorem wait_host_outcome_mapping (env : Env) (p : Nat) (hs : List (Option Nat))
    (timeout : Nat) (w : World)
    (hfds : (w.mem p).flags &&& HAS_FDS ≠ 0)
    (hn : (watch_of (w.mem p)).nfds ≠ 0)
    (hlen : 2 ≤ hs.length)
    (hn2 : (watch_array w hs).nfds ≠ 0) :
    host_outcome env (host_reply env (watch_of (w.mem p)) timeout).ret
      (_DkObjectWaitOne env p timeout w).1 ∧
    ∃ res, _DkObjectsWaitAny env hs timeout w = some res ∧
      host_outcome env (host_reply env (watch_array w hs) timeout).ret res.ret := by
  constructor
  · rw [waitone_fd_path env p timeout w hfds, if_neg hn]
    by_cases hneg : (host_reply env (watch_of (w.mem p)) timeout).ret < 0
    · rw [if_pos ((IS_ERR_iff _).2 hneg)]
      by_cases hi : ERRNO (host_reply env (watch_of (w.mem p)) timeout).ret = EINTR ∨
          ERRNO (host_reply env (watch_of (w.mem p)) timeout).ret = ERESTART
      · rw [if_pos hi]
        exact host_outcome_intr env ((errno_intr_iff _).1 hi)
      · rw [if_neg hi]
        exact host_outcome_other env hneg (fun h => hi ((errno_intr_iff _).2 h))
    · rw [if_neg (fun h => hneg ((IS_ERR_iff _).1 h))]
      by_cases h0 : (host_reply env (watch_of (w.mem p)) timeout).ret = 0
      · rw [if_pos h0]
        exact host_outcome_zero env h0
      · rw [if_neg h0]
        exact host_outcome_pos env (by omega) _
  · obtain ⟨a, b, tl, rfl⟩ := two_le_length hlen
    rw [waitany_multi_eq, if_neg hn2]
    by_cases hneg : (host_reply env (watch_array w (a :: b :: tl)) timeout).ret < 0
    · rw [if_pos ((IS_ERR_iff _).2 hneg)]
      by_cases hi : ERRNO (host_reply env (watch_array w (a :: b :: tl)) timeout).ret = EINTR ∨
          ERRNO (host_reply env (watch_array w (a :: b :: tl)) timeout).ret = ERESTART
      · rw [if_pos hi]
        exact ⟨_, rfl, host_outcome_intr env ((errno_intr_iff _).1 hi)⟩
      · rw [if_neg hi]
        exact ⟨_, rfl, host_outcome_other env hneg (fun h => hi ((errno_intr_iff _).2 h))⟩
    · rw [if_neg (fun h => hneg ((IS_ERR_iff _).1 h))]
      by_cases h0 : (host_reply env (watch_array w (a :: b :: tl)) timeout).ret = 0
      · rw [if_pos h0]
        exact ⟨_, rfl, host_outcome_zero env h0⟩
      · rw [if_neg h0]
        exact ⟨_, rfl, host_outcome_pos env (by omega) _⟩

/-- Witness for C5: an interrupted host wait, for a single TCP reader and for
a list of three handles. -/
theorem wait_host_outcome_mapping_witness :
    (_DkObjectWaitOne host_interrupted 3 0 third_reader).1 = -PAL_ERROR_INTERRUPTED ∧
    ∃ res, _DkObjectsWaitAny host_interrupted [some 1, some 2, some 3] 0 third_reader
        = some res ∧ res.ret = -PAL_ERROR_INTERRUPTED := by
  obtain ⟨h1, res, h2, h3⟩ := wait_host_outcome_mapping host_interrupted 3
    [some 1, some 2, some 3] 0 third_reader (by decide) (by decide) (by decide) (by decide)
  exact ⟨h1.1 (Or.inl (by decide)), res, h2, h3.1 (Or.inl (by decide))⟩

/-- C6: whenever the descriptor path of `_DkObjectWaitOne`, or
`_DkObjectsWaitAny` on two or more entries, returns a nonzero result (any
error), the heap of handles, hence every flags word, is what it was before
the call. -/
theorem wait_failure_leaves_flags (env : Env) (p : Nat) (hs : List (Option Nat))
    (timeout : Nat) (w : World)
    (hfds : (w.mem p).flags &&& HAS_FDS ≠ 0)
    (hlen : 2 ≤ hs.length) :
    ((_DkObjectWaitOne env p timeout w).1 ≠ 0 →
      (_DkObjectWaitOne env p timeout w).2.mem = w.mem) ∧
    ∃ res, _DkObjectsWaitAny env hs timeout w = some res ∧
      (res.ret ≠ 0 → res.world.mem = w.mem) := by
  constructor
  · rw [waitone_fd_path env p timeout w hfds]
    split
    · intro _; rfl
    · split
      · split <;> (intro _; rfl)
      · split
        · intro _; rfl
        · intro h; exact absurd rfl h
  · obtain ⟨a, b, tl, rfl⟩ := two_le_length hlen
    rw [waitany_multi_eq]
    split
    · exact ⟨_, rfl, fun _ => rfl⟩
    · split
      · split <;> exact ⟨_, rfl, fun _ => rfl⟩
      · split
        · exact ⟨_, rfl, fun _ => rfl⟩
        · refine ⟨_, rfl, ?_⟩
          rw [classify_array_eq]
          intro hne
          have hnone : first_ready w (host_reply env (watch_array w (a :: b :: tl)) timeout)
              (a :: b :: tl) = none := by
            cases hf : first_ready w (host_reply env (watch_array w (a :: b :: tl)) timeout)
              (a :: b :: tl) with
            | none => rfl
            | some q =>
              have hf' : first_ready
                  { w with trace := w.trace ++
                    [select_call (watch_array w (a :: b :: tl)) timeout] }
                  (host_reply env (watch_array w (a :: b :: tl)) timeout)
                  (a :: b :: tl) = some q := hf
              simp [hf'] at hne
          apply mem_after_idle
          intro q hq
          have := List.find?_eq_none.1 hnone q hq
          simpa using this

/-- Witness for C6: `_DkObjectsWaitAny` over three handles of which only the
third has an interest-bearing slot, the host wait timing out: `WouldBlock`,
and no handle changed. -/
theorem wait_failure_leaves_flags_witness :
    ∃ res, _DkObjectsWaitAny host_timeout [some 1, some 2, some 3] 100000 third_reader
        = some res ∧
      res.ret = -PAL_ERROR_TRYAGAIN ∧ res.world.mem = third_reader.mem := by
  obtain ⟨res, h1, h2⟩ :=
    (wait_failure_leaves_flags host_timeout 3 [some 1, some 2, some 3] 100000 third_reader
      (by decide) (by decide)).2
  have hret : (_DkObjectsWaitAny host_timeout [some 1, some 2, some 3] 100000
      third_reader).map (fun x => x.ret) = some (-PAL_ERROR_TRYAGAIN) := by decide
  rw [h1] at hret
  have hr : res.ret = -PAL_ERROR_TRYAGAIN := by simpa using hret
  exact ⟨res, h1, hr, h2 (by rw [hr]; decide)⟩

/-- C7: for a handle with no interest bit under the `HAS_FDS` mask,
`_DkObjectWaitOne` issues no system call of its own: without a `wait`
operation it returns `NotSupported` in an unchanged state, otherwise its
outcome is exactly that of `ops->wait(handle, timeout)` run in the state of
the call, with the timeout it was given. -/
theorem waitone_delegates (env : Env) (p timeout : Nat) (w : World)
    (h0 : (w.mem p).flags &&& HAS_FDS = 0) :
    ((env.HANDLE_OPS (w.mem p)).wait = none →
      _DkObjectWaitOne env p timeout w = (-PAL_ERROR_NOTSUPPORT, w)) ∧
    (∀ wait, (env.HANDLE_OPS (w.mem p)).wait = some wait →
      _DkObjectWaitOne env p timeout w = wait p timeout w) := by
  have h0' : ¬ (w.mem p).flags &&& HAS_FDS ≠ 0 := fun h => h h0
  constructor
  · intro hw
    simp only [_DkObjectWaitOne, if_neg h0', hw]
  · intro wait hw
    simp only [_DkObjectWaitOne, if_neg h0', hw]

/-- Witness for C7: an event handle whose `wait` returns the negated timeout. -/
theorem waitone_delegates_witness :
    (_DkObjectWaitOne host_event 1 42 (world_of event_handle)).1 = -42 ∧
    (_DkObjectWaitOne host_event 1 42 (world_of event_handle)).2.trace = [] ∧
    (_DkObjectWaitOne host_writable 1 42 (world_of event_handle)).1 = -PAL_ERROR_NOTSUPPORT := by
  have h1 := (waitone_delegates host_event 1 42 (world_of event_handle) (by decide)).2
    (fun _ t w => (-(t : Int), w)) rfl
  have h2 := (waitone_delegates host_writable 1 42 (world_of event_handle) (by decide)).1 rfl
  rw [h1, h2]
  exact ⟨rfl, rfl, rfl⟩

/-- C8: a handle with interest flags set whose every interest-bearing slot
holds the unused sentinel makes `_DkObjectWaitOne` fail with `WouldBlock`,
and a handle with no interest flag and no `wait` operation makes it fail
with `NotSupported`; in both cases the state, trace of system calls
included, is unchanged: the host wait is not invoked. -/
theorem waitone_nothing_to_wait_on (env : Env) (p q timeout : Nat) (w : World)
    (hp : (w.mem p).flags &&& HAS_FDS ≠ 0)
    (hsent : ∀ i, i < MAX_FDS →
      (interest_read (w.mem p) i || interest_write (w.mem p) i) = true →
      (w.mem p).fds i = PAL_IDX_POISON)
    (hq : (w.mem q).flags &&& HAS_FDS = 0)
    (hnone : (env.HANDLE_OPS (w.mem q)).wait = none) :
    _DkObjectWaitOne env p timeout w = (-PAL_ERROR_TRYAGAIN, w) ∧
    _DkObjectWaitOne env q timeout w = (-PAL_ERROR_NOTSUPPORT, w) := by
  constructor
  · have hidle : watch_of (w.mem p) = WatchSets.init := by
      apply watch_fold_idle _ _ _ rfl
      intro i hi
      have hi' := List.mem_range.1 hi
      cases hint : (interest_read (w.mem p) i || interest_write (w.mem p) i)
      · simp only [Bool.or_eq_false_iff] at hint
        simp [watches_read, watches_write, hint.1, hint.2]
      · have := hsent i hi' hint
        simp [watches_read, watches_write, occupied, this]
    rw [waitone_fd_path env p timeout w hp, hidle]
    rfl
  · have hq' : ¬ (w.mem q).flags &&& HAS_FDS ≠ 0 := fun h => h hq
    simp only [_DkObjectWaitOne, if_neg hq', hnone]

/-- Witness for C8: a pipe with read interest on an unused slot, and an
event handle without a `wait` operation. -/
theorem waitone_nothing_to_wait_on_witness :
    _DkObjectWaitOne host_writable 1 0 unused_and_event =
      (-PAL_ERROR_TRYAGAIN, unused_and_event) ∧
    _DkObjectWaitOne host_writable 2 0 unused_and_event =
      (-PAL_ERROR_NOTSUPPORT, unused_and_event) :=
  waitone_nothing_to_wait_on host_writable 1 2 0 unused_and_event
    (by decide) (by decide) (by decide) rfl

/-- C9 as stated fails: a TCP handle whose slot 0 is occupied and has
`interest_read`, with `result_error` left set by an earlier wait, gets its
descriptor in neither read-watch nor error-watch, and `_DkObjectWaitOne`
then returns `WouldBlock` without invoking the host; likewise a UDP handle
whose slot 0 is occupied and has `interest_write`, with `result_writable`
left set, gets its descriptor in neither write-watch nor error-watch. (And
a slot holding descriptor 1024 takes the build loop outside the 1024-bit
descriptor sets.) -/
theorem watch_sets_skip_errored_slot :
    occupied tcp_reader_errored 0 = true ∧
    interest_read tcp_reader_errored 0 = true ∧
    FD_ISSET (tcp_reader_errored.fds 0) (watch_of tcp_reader_errored).rfds = false ∧
    FD_ISSET (tcp_reader_errored.fds 0) (watch_of tcp_reader_errored).efds = false ∧
    (_DkObjectWaitOne host_eof 1 0 (world_of tcp_reader_errored)).1 = -PAL_ERROR_TRYAGAIN ∧
    (_DkObjectWaitOne host_eof 1 0 (world_of tcp_reader_errored)).2.trace = [] ∧
    occupied udp_writer_reported 0 = true ∧
    interest_write udp_writer_reported 0 = true ∧
    FD_ISSET (udp_writer_reported.fds 0) (watch_of udp_writer_reported).wfds = false ∧
    FD_ISSET (udp_writer_reported.fds 0) (watch_of udp_writer_reported).efds = false ∧
    FD_ISSET (udp_writer_reported.fds 0)
      (watch_array (world_of udp_writer_reported) [some 1, some 2]).wfds = false ∧
    watch_handle_checked fd1024_reader WatchSets.init = none := by
  decide

/-- C9 (amended): in the sets that `_DkObjectWaitOne` builds for a handle whose
descriptors fit the 1024-bit descriptor set, and in those `_DkObjectsWaitAny`
builds for a list containing it, the descriptor of every occupied slot with
`interest_read` and `result_error` clear is in read-watch and error-watch,
and the descriptor of every occupied slot with `interest_write` and both
`result_writable` and `result_error` clear is in write-watch and
error-watch. -/
theorem watch_sets_contain_unreported_interest (w : World) (hs : List (Option Nat))
    (p i : Nat) (hi : i < MAX_FDS) (hp : p ∈ handles_of hs)
    (hfit : fds_fit (w.mem p))
    (hocc : occupied (w.mem p) i = true) :
    (interest_read (w.mem p) i = true → result_error (w.mem p) i = false →
      FD_ISSET ((w.mem p).fds i) (watch_of (w.mem p)).rfds = true ∧
      FD_ISSET ((w.mem p).fds i) (watch_of (w.mem p)).efds = true ∧
      FD_ISSET ((w.mem p).fds i) (watch_array w hs).rfds = true ∧
      FD_ISSET ((w.mem p).fds i) (watch_array w hs).efds = true) ∧
    (interest_write (w.mem p) i = true → result_writable (w.mem p) i = false →
      result_error (w.mem p) i = false →
      FD_ISSET ((w.mem p).fds i) (watch_of (w.mem p)).wfds = true ∧
      FD_ISSET ((w.mem p).fds i) (watch_of (w.mem p)).efds = true ∧
      FD_ISSET ((w.mem p).fds i) (watch_array w hs).wfds = true ∧
      FD_ISSET ((w.mem p).fds i) (watch_array w hs).efds = true) := by
  constructor
  · intro hr he
    have hlt := hfit i hi hocc (by simp [hr])
    have hw : watches_read (w.mem p) i = true := by simp [watches_read, hocc, hr, he]
    refine ⟨?_, ?_, ?_, ?_⟩
    · rw [watch_of, watch_handle, watch_fold_rfds]
      simp [any_slot_of_mem hi (f := fun j => watches_read (w.mem p) j &&
        (decide ((w.mem p).fds j = (w.mem p).fds i) && decide ((w.mem p).fds j < __FD_SETSIZE))) (by simp [hw, hlt])]
    · rw [watch_of, watch_handle, watch_fold_efds]
      simp [any_slot_of_mem hi (f := fun j => (watches_read (w.mem p) j ||
        watches_write (w.mem p) j) && (decide ((w.mem p).fds j = (w.mem p).fds i) && decide ((w.mem p).fds j < __FD_SETSIZE)))
        (by simp [hw, hlt])]
    · rw [watch_array, watch_entries_rfds]
      simp [any_handle_of_mem hp (f := fun q => (List.range MAX_FDS).any
        (fun j => watches_read (w.mem q) j && (decide ((w.mem q).fds j = (w.mem p).fds i) && decide ((w.mem q).fds j < __FD_SETSIZE))))
        (any_slot_of_mem hi (by simp [hw, hlt]))]
    · rw [watch_array, watch_entries_efds]
      simp [any_handle_of_mem hp (f := fun q => (List.range MAX_FDS).any
        (fun j => (watches_read (w.mem q) j || watches_write (w.mem q) j) &&
          (decide ((w.mem q).fds j = (w.mem p).fds i) && decide ((w.mem q).fds j < __FD_SETSIZE))))
        (any_slot_of_mem hi (by simp [hw, hlt]))]
  · intro hr hcw he
    have hlt := hfit i hi hocc (by simp [hr])
    have hw : watches_write (w.mem p) i = true := by
      simp [watches_write, hocc, hr, hcw, he]
    refine ⟨?_, ?_, ?_, ?_⟩
    · rw [watch_of, watch_handle, watch_fold_wfds]
      simp [any_slot_of_mem hi (f := fun j => watches_write (w.mem p) j &&
        (decide ((w.mem p).fds j = (w.mem p).fds i) && decide ((w.mem p).fds j < __FD_SETSIZE))) (by simp [hw, hlt])]
    · rw [watch_of, watch_handle, watch_fold_efds]
      simp [any_slot_of_mem hi (f := fun j => (watches_read (w.mem p) j ||
        watches_write (w.mem p) j) && (decide ((w.mem p).fds j = (w.mem p).fds i) && decide ((w.mem p).fds j < __FD_SETSIZE)))
        (by simp [hw, hlt])]
    · rw [watch_array, watch_entries_wfds]
      simp [any_handle_of_mem hp (f := fun q => (List.range MAX_FDS).any
        (fun j => watches_write (w.mem q) j && (decide ((w.mem q).fds j = (w.mem p).fds i) && decide ((w.mem q).fds j < __FD_SETSIZE))))
        (any_slot_of_mem hi (by simp [hw, hlt]))]
    · rw [watch_array, watch_entries_efds]
      simp [any_handle_of_mem hp (f := fun q => (List.range MAX_FDS).any
        (fun j => (watches_read (w.mem q) j || watches_write (w.mem q) j) &&
          (decide ((w.mem q).fds j = (w.mem p).fds i) && decide ((w.mem q).fds j < __FD_SETSIZE))))
        (any_slot_of_mem hi (by simp [hw, hlt]))]

/-- Witness for C9 (amended): the read slot (descriptor 4) of a pipe handle
listed with another handle. -/
theorem watch_sets_contain_unreported_interest_witness :
    FD_ISSET 4 (watch_of pipe_duplex).rfds = true ∧
    FD_ISSET 4 (watch_of pipe_duplex).efds = true ∧
    FD_ISSET 4 (watch_array duplex_and_writer [some 2, none, some 1]).rfds = true ∧
    FD_ISSET 4 (watch_array duplex_and_writer [some 2, none, some 1]).efds = true :=
  (watch_sets_contain_unreported_interest duplex_and_writer [some 2, none, some 1] 1 0
    (by decide) (by decide) (by decide) (by decide)).1 (by decide) (by decide)

/-- C10 at the failing input: called with the all-ones timeout (the "no
timeout" value), `_DkObjectWaitOne` and `_DkObjectsWaitAny` hand `pselect6`
a deadline of 18446744073709 s 551615000 ns, not a null deadline; with
timeout 0 they hand it the zero deadline. -/
theorem no_timeout_still_passes_deadline :
    (_DkObjectWaitOne host_writable 1 (2 ^ 64 - 1) (world_of pipeprv_writer)).2.trace =
      [Syscall.pselect6 6 0 32 32
        (some { tv_sec := 18446744073709, tv_nsec := 551615000 })] ∧
    (_DkObjectsWaitAny host_writable [some 1, some 2] (2 ^ 64 - 1) two_writers).map
        (fun res => res.world.trace) =
      some [Syscall.pselect6 6 0 40 40
        (some { tv_sec := 18446744073709, tv_nsec := 551615000 })] ∧
    (_DkObjectWaitOne host_writable 1 0 (world_of pipeprv_writer)).2.trace =
      [Syscall.pselect6 6 0 32 32 (some { tv_sec := 0, tv_nsec := 0 })] ∧
    (_DkObjectsWaitAny host_writable [some 1, some 2] 0 two_writers).map
        (fun res => res.world.trace) =
      some [Syscall.pselect6 6 0 40 40 (some { tv_sec := 0, tv_nsec := 0 })] := by
  decide

/-- C12 at the failing input: on a one-element list whose entry is null,
`_DkObjectsWaitAny` hands the null pointer to `_DkObjectWaitOne`, which
reads its flags: the call ends in a null dereference, whatever the host,
timeout and state. -/
theorem waitany_single_null_is_dereferenced (env : Env) (timeout : Nat) (w : World) :
    _DkObjectsWaitAny env [none] timeout w = none := rfl

/-- C13: on a list of two or more entries whose handles hold descriptors that
fit the 1024-bit descriptor set, when the host is invoked and reports a
nonzero ready count, `_DkObjectsWaitAny` returns success exactly
when some non-null handle has an occupied interest-bearing slot whose
descriptor is in the read, write or error result set; when there is none it
fails with `WouldBlock` and stores a null handle through `polled`. -/
theorem waitany_defensive_no_match (env : Env) (hs : List (Option Nat)) (timeout : Nat)
    (w : World) (hlen : 2 ≤ hs.length)
    (_hfit : ∀ q, q ∈ handles_of hs → fds_fit (w.mem q))
    (hn : (watch_array w hs).nfds ≠ 0)
    (hret : 0 < (host_reply env (watch_array w hs) timeout).ret) :
    ∃ res, _DkObjectsWaitAny env hs timeout w = some res ∧
      (res.ret = 0 ↔ ∃ p, p ∈ handles_of hs ∧ ∃ i, i < MAX_FDS ∧
        slot_fires (w.mem p) (host_reply env (watch_array w hs) timeout) i = true) ∧
      ((¬ ∃ p, p ∈ handles_of hs ∧ ∃ i, i < MAX_FDS ∧
          slot_fires (w.mem p) (host_reply env (watch_array w hs) timeout) i = true) →
        res.ret = -PAL_ERROR_TRYAGAIN ∧ res.polled = some none) := by
  have hiff : (first_ready w (host_reply env (watch_array w hs) timeout) hs).isSome = true ↔
      ∃ p, p ∈ handles_of hs ∧ ∃ i, i < MAX_FDS ∧
        slot_fires (w.mem p) (host_reply env (watch_array w hs) timeout) i = true := by
    simp only [first_ready, List.find?_isSome, handle_fires_iff]
  refine ⟨_, waitany_ready env hs timeout w hlen hn hret, ?_, ?_⟩
  · rw [← hiff]
    cases hf : (first_ready w (host_reply env (watch_array w hs) timeout) hs).isSome
    · simp [PAL_ERROR_TRYAGAIN]
    · simp
  · intro hno
    have hf : (first_ready w (host_reply env (watch_array w hs) timeout) hs).isSome = false := by
      cases hc : (first_ready w (host_reply env (watch_array w hs) timeout) hs).isSome
      · rfl
      · exact absurd (hiff.1 hc) hno
    have hnone : first_ready w (host_reply env (watch_array w hs) timeout) hs = none := by
      simpa using hf
    simp [hnone]

/-- Witness for C13: the host reports one ready descriptor but no set holds a
descriptor of the two listed writers. -/
theorem waitany_defensive_no_match_witness :
    ∃ res, _DkObjectsWaitAny host_spurious [some 1, some 2] 0 two_writers = some res ∧
      res.ret = -PAL_ERROR_TRYAGAIN ∧ res.polled = some none := by
  obtain ⟨res, h1, _, h3⟩ := waitany_defensive_no_match host_spurious [some 1, some 2] 0
    two_writers (by decide) (by decide) (by decide) (by decide)
  exact ⟨res, h1, h3 (by decide)⟩

/-- C15: for handles whose descriptors fit the 1024-bit descriptor set, every
descriptor that `_DkObjectWaitOne` (for a handle) or `_DkObjectsWaitAny`
(for a list) places in read-watch is the descriptor of
an occupied slot with `interest_read`, every descriptor in write-watch that
of an occupied slot with `interest_write`, every descriptor in error-watch
that of an occupied slot with `interest_read` or `interest_write`, the slot
being one of a non-null listed handle; and a slot with neither interest
flag, or holding the sentinel, leaves the sets and `nfds` as they were. -/
theorem watch_sets_exclusion (w : World) (hs : List (Option Nat)) (p d : Nat)
    (_hfitp : fds_fit (w.mem p)) (_hfit : ∀ q, q ∈ handles_of hs → fds_fit (w.mem q)) :
    (FD_ISSET d (watch_of (w.mem p)).rfds = true →
      ∃ i, i < MAX_FDS ∧ occupied (w.mem p) i = true ∧ interest_read (w.mem p) i = true ∧
        (w.mem p).fds i = d) ∧
    (FD_ISSET d (watch_of (w.mem p)).wfds = true →
      ∃ i, i < MAX_FDS ∧ occupied (w.mem p) i = true ∧ interest_write (w.mem p) i = true ∧
        (w.mem p).fds i = d) ∧
    (FD_ISSET d (watch_of (w.mem p)).efds = true →
      ∃ i, i < MAX_FDS ∧ occupied (w.mem p) i = true ∧
        (interest_read (w.mem p) i || interest_write (w.mem p) i) = true ∧
        (w.mem p).fds i = d) ∧
    (FD_ISSET d (watch_array w hs).rfds = true →
      ∃ q, q ∈ handles_of hs ∧ ∃ i, i < MAX_FDS ∧ occupied (w.mem q) i = true ∧
        interest_read (w.mem q) i = true ∧ (w.mem q).fds i = d) ∧
    (FD_ISSET d (watch_array w hs).wfds = true →
      ∃ q, q ∈ handles_of hs ∧ ∃ i, i < MAX_FDS ∧ occupied (w.mem q) i = true ∧
        interest_write (w.mem q) i = true ∧ (w.mem q).fds i = d) ∧
    (FD_ISSET d (watch_array w hs).efds = true →
      ∃ q, q ∈ handles_of hs ∧ ∃ i, i < MAX_FDS ∧ occupied (w.mem q) i = true ∧
        (interest_read (w.mem q) i || interest_write (w.mem q) i) = true ∧
        (w.mem q).fds i = d) ∧
    (∀ (h : pal_handle) (s : WatchSets) (i : Nat),
      ((interest_read h i || interest_write h i) = false ∨ occupied h i = false) →
      watch_slot h s i = s) := by
  have hR : ∀ (h : pal_handle) (i : Nat),
      (watches_read h i && (decide (h.fds i = d) && decide (h.fds i < __FD_SETSIZE))) = true →
      occupied h i = true ∧ interest_read h i = true ∧ h.fds i = d := by
    intro h i hc
    simp only [Bool.and_eq_true, decide_eq_true_eq] at hc
    have := watches_read_interest hc.1
    exact ⟨this.2.1, this.1, hc.2.1⟩
  have hW : ∀ (h : pal_handle) (i : Nat),
      (watches_write h i && (decide (h.fds i = d) && decide (h.fds i < __FD_SETSIZE))) = true →
      occupied h i = true ∧ interest_write h i = true ∧ h.fds i = d := by
    intro h i hc
    simp only [Bool.and_eq_true, decide_eq_true_eq] at hc
    have := watches_write_interest hc.1
    exact ⟨this.2.1, this.1, hc.2.1⟩
  have hE : ∀ (h : pal_handle) (i : Nat),
      ((watches_read h i || watches_write h i) && (decide (h.fds i = d) && decide (h.fds i < __FD_SETSIZE))) = true →
      occupied h i = true ∧ (interest_read h i || interest_write h i) = true ∧
        h.fds i = d := by
    intro h i hc
    simp only [Bool.and_eq_true, Bool.or_eq_true, decide_eq_true_eq] at hc
    rcases hc.1 with hr | hw
    · have := watches_read_interest hr
      exact ⟨this.2.1, by simp [this.1], hc.2.1⟩
    · have := watches_write_interest hw
      exact ⟨this.2.1, by simp [this.1], hc.2.1⟩
  refine ⟨?_, ?_, ?_, ?_, ?_, ?_, watch_slot_skip⟩
  · intro hd
    rw [watch_of, watch_handle, watch_fold_rfds] at hd
    simp only [WatchSets.init, FD_ISSET_FD_ZERO, Bool.false_or, List.any_eq_true,
      List.mem_range] at hd
    obtain ⟨i, hi, hc⟩ := hd
    exact ⟨i, hi, hR _ i hc⟩
  · intro hd
    rw [watch_of, watch_handle, watch_fold_wfds] at hd
    simp only [WatchSets.init, FD_ISSET_FD_ZERO, Bool.false_or, List.any_eq_true,
      List.mem_range] at hd
    obtain ⟨i, hi, hc⟩ := hd
    exact ⟨i, hi, hW _ i hc⟩
  · intro hd
    rw [watch_of, watch_handle, watch_fold_efds] at hd
    simp only [WatchSets.init, FD_ISSET_FD_ZERO, Bool.false_or, List.any_eq_true,
      List.mem_range] at hd
    obtain ⟨i, hi, hc⟩ := hd
    exact ⟨i, hi, hE _ i hc⟩
  · intro hd
    rw [watch_array, watch_entries_rfds] at hd
    simp only [WatchSets.init, FD_ISSET_FD_ZERO, Bool.false_or, List.any_eq_true,
      List.mem_range] at hd
    obtain ⟨q, hq, i, hi, hc⟩ := hd
    exact ⟨q, hq, i, hi, hR _ i hc⟩
  · intro hd
    rw [watch_array, watch_entries_wfds] at hd
    simp only [WatchSets.init, FD_ISSET_FD_ZERO, Bool.false_or, List.any_eq_true,
      List.mem_range] at hd
    obtain ⟨q, hq, i, hi, hc⟩ := hd
    exact ⟨q, hq, i, hi, hW _ i hc⟩
  · intro hd
    rw [watch_array, watch_entries_efds] at hd
    simp only [WatchSets.init, FD_ISSET_FD_ZERO, Bool.false_or, List.any_eq_true,
      List.mem_range] at hd
    obtain ⟨q, hq, i, hi, hc⟩ := hd
    exact ⟨q, hq, i, hi, hE _ i hc⟩

/-- Witness for C15: descriptor 4 in the read-watch set built for the duplex
pipe handle is the descriptor of one of its occupied slots with
`interest_read`. -/
theorem watch_sets_exclusion_witness :
    ∃ i, i < MAX_FDS ∧ occupied (duplex_and_writer.mem 1) i = true ∧
      interest_read (duplex_and_writer.mem 1) i = true ∧
      (duplex_and_writer.mem 1).fds i = 4 :=
  (watch_sets_exclusion duplex_and_writer [some 2, none, some 1] 1 4
    (by decide) (by decide)).1 (by decide)

/-- C19: for every 64-bit timeout `t` in microseconds the deadline built is
`tv_sec = t div 1000000`, `tv_nsec = (t mod 1000000) * 1000`; so `tv_nsec`
is below 10^9, `tv_sec * 10^9 + tv_nsec = 1000 * t`, both fields are below
2^63, and the `pselect6` call of `_DkObjectWaitOne` and that of
`_DkObjectsWaitAny` carry this same deadline. -/
theorem timeout_conversion_exact (env : Env) (p : Nat) (hs : List (Option Nat))
    (t : Nat) (w : World)
    (ht : t < 2 ^ 64)
    (hfds : (w.mem p).flags &&& HAS_FDS ≠ 0)
    (hn : (watch_of (w.mem p)).nfds ≠ 0)
    (hlen : 2 ≤ hs.length)
    (hn2 : (watch_array w hs).nfds ≠ 0) :
    timeout_ts t =
      some { tv_sec := ((t / 1000000 : Nat) : Int),
             tv_nsec := (((t % 1000000) * 1000 : Nat) : Int) } ∧
    (t % 1000000) * 1000 < 10 ^ 9 ∧
    (t / 1000000) * 10 ^ 9 + (t % 1000000) * 1000 = 1000 * t ∧
    t / 1000000 < 2 ^ 63 ∧ (t % 1000000) * 1000 < 2 ^ 63 ∧
    Syscall.pselect6 (watch_of (w.mem p)).nfds (watch_of (w.mem p)).rfds
        (watch_of (w.mem p)).wfds (watch_of (w.mem p)).efds
        (some { tv_sec := ((t / 1000000 : Nat) : Int),
                tv_nsec := (((t % 1000000) * 1000 : Nat) : Int) })
      ∈ (_DkObjectWaitOne env p t w).2.trace ∧
    ∃ res, _DkObjectsWaitAny env hs t w = some res ∧
      Syscall.pselect6 (watch_array w hs).nfds (watch_array w hs).rfds
          (watch_array w hs).wfds (watch_array w hs).efds
          (some { tv_sec := ((t / 1000000 : Nat) : Int),
                  tv_nsec := (((t % 1000000) * 1000 : Nat) : Int) })
        ∈ res.world.trace := by
  have hts := timeout_ts_eq t ht
  have ht' : t < 18446744073709551616 := by norm_num at ht; exact ht
  refine ⟨hts, ?_, ?_, ?_, ?_, ?_, ?_⟩
  · norm_num; omega
  · norm_num; omega
  · norm_num; omega
  · norm_num; omega
  · have := waitone_select_call_mem env p t w hfds hn
    rw [select_call, hts] at this
    exact this
  · obtain ⟨res, h1, h2⟩ := waitany_select_call_mem env hs t w hlen hn2
    rw [select_call, hts] at h2
    exact ⟨res, h1, h2⟩

/-- Witness for C19: the timeout 2500000 µs (2 s 500000000 ns) on a private
pipe writer and on two writers. -/
theorem timeout_conversion_exact_witness :
    timeout_ts 2500000 = some { tv_sec := 2, tv_nsec := 500000000 } ∧
    Syscall.pselect6 6 0 32 32 (some { tv_sec := 2, tv_nsec := 500000000 })
      ∈ (_DkObjectWaitOne host_writable 1 2500000 two_writers).2.trace ∧
    ∃ res, _DkObjectsWaitAny host_writable [some 1, some 2] 2500000 two_writers = some res ∧
      Syscall.pselect6 6 0 40 40 (some { tv_sec := 2, tv_nsec := 500000000 })
        ∈ res.world.trace := by
  have h := timeout_conversion_exact host_writable 1 [some 1, some 2] 2500000 two_writers
    (by decide) (by decide) (by decide) (by decide) (by decide)
  exact ⟨h.1, h.2.2.2.2.2.1, h.2.2.2.2.2.2⟩

/-- C16: whatever the host replies, a call of the descriptor path of
`_DkObjectWaitOne`, and a call of `_DkObjectsWaitAny` (on two or more
entries, or on the one descriptor-bearing handle), leave every handle with
its kind tag, descriptor slots, `interest_read` and `interest_write` bits
unchanged and every `result_writable` / `result_error` bit that was set
still set: the final flags word is the initial one OR-ed with result bits
of the handle's own occupied interest-bearing slots. -/
theorem wait_frame_and_monotonicity (env : Env) (p : Nat) (hs : List (Option Nat))
    (timeout : Nat) (w : World)
    (hfds : (w.mem p).flags &&& HAS_FDS ≠ 0)
    (hlen : 2 ≤ hs.length) :
    (∀ q, wait_frame (w.mem q) ((_DkObjectWaitOne env p timeout w).2.mem q)) ∧
    (∃ res, _DkObjectsWaitAny env hs timeout w = some res ∧
      ∀ q, wait_frame (w.mem q) (res.world.mem q)) ∧
    ∃ res, _DkObjectsWaitAny env [some p] timeout w = some res ∧
      ∀ q, wait_frame (w.mem q) (res.world.mem q) := by
  have hone : ∀ q, wait_frame (w.mem q) ((_DkObjectWaitOne env p timeout w).2.mem q) :=
    fun q => wait_frame_cases env _ (waitone_fd_mem env p timeout w hfds q)
  refine ⟨hone, ?_, ?_⟩
  · obtain ⟨res, h1, h2⟩ := waitany_multi_mem env hs timeout w hlen
    exact ⟨res, h1, fun q => wait_frame_cases env _ (h2 q)⟩
  · by_cases h0 : (_DkObjectWaitOne env p timeout w).1 = 0
    · exact ⟨{ ret := (_DkObjectWaitOne env p timeout w).1, polled := some (some p),
               world := (_DkObjectWaitOne env p timeout w).2 },
        by simp [_DkObjectsWaitAny, h0], hone⟩
    · exact ⟨{ ret := (_DkObjectWaitOne env p timeout w).1, polled := none,
               world := (_DkObjectWaitOne env p timeout w).2 },
        by simp [_DkObjectsWaitAny, h0], hone⟩

/-- Witness for C16: the two writers, both reported writable. -/
theorem wait_frame_and_monotonicity_witness :
    (∀ q, wait_frame (two_writers.mem q)
      ((_DkObjectWaitOne host_writable 1 0 two_writers).2.mem q)) ∧
    ∃ res, _DkObjectsWaitAny host_writable [some 1, some 2] 0 two_writers = some res ∧
      ∀ q, wait_frame (two_writers.mem q) (res.world.mem q) :=
  ⟨(wait_frame_and_monotonicity host_writable 1 [some 1, some 2] 0 two_writers
      (by decide) (by decide)).1,
    (wait_frame_and_monotonicity host_writable 1 [some 1, some 2] 0 two_writers
      (by decide) (by decide)).2.1⟩

/-- C18 as stated fails: with the descriptor 1024, which is below `2^31`, in a
slot that is occupied and has `interest_read` with `result_error` clear, the
build loop of `_DkObjectWaitOne`, and that of `_DkObjectsWaitAny` on a list
with the handle, hands `__FD_SET` a descriptor outside the 1024-bit sets: the
write is out of bounds and the build phase leaves no defined sets and `nfds`
for the claimed relation to hold of. -/
theorem watch_build_leaves_set_at_1024 :
    fd1024_reader.fds 0 < 2 ^ 31 ∧
    occupied fd1024_reader 0 = true ∧
    interest_read fd1024_reader 0 = true ∧
    result_error fd1024_reader 0 = false ∧
    FD_SET_checked (fd1024_reader.fds 0) WatchSets.init.rfds = none ∧
    watch_handle_checked fd1024_reader WatchSets.init = none ∧
    watch_array_checked (world_of fd1024_reader) [some 1, none] = none := by
  decide

/-- C18 (amended): for handles whose descriptors are below 1024, the size of a
descriptor set, the build loop of `_DkObjectWaitOne` for a handle and that of
`_DkObjectsWaitAny` for a list stay inside the sets, and in the sets they
build every descriptor in read-watch or write-watch is in error-watch, `nfds`
is 0 exactly when the three sets are empty, and otherwise `nfds` is one plus
the largest watched descriptor, so that every watched descriptor is below
`nfds`. -/
theorem nfds_is_descriptor_bound (w : World) (hs : List (Option Nat)) (p : Nat)
    (hp : fds_fit (w.mem p))
    (hall : ∀ q, q ∈ handles_of hs → fds_fit (w.mem q)) :
    watch_handle_checked (w.mem p) WatchSets.init = some (watch_of (w.mem p)) ∧
    watch_array_checked w hs = some (watch_array w hs) ∧
    descriptor_bound (watch_of (w.mem p)) ∧ descriptor_bound (watch_array w hs) :=
  ⟨watch_handle_checked_eq _ _ hp,
    watch_entries_checked_eq w hs WatchSets.init hall,
    descriptor_bound_of_inv
      (nfds_inv_fold (w.mem p) (List.range MAX_FDS) WatchSets.init nfds_inv_init)
      (watch_fold_lt (w.mem p) (List.range MAX_FDS) WatchSets.init init_lt),
    descriptor_bound_of_inv (nfds_inv_entries w hs WatchSets.init nfds_inv_init)
      (watch_entries_lt w hs WatchSets.init init_lt)⟩

/-- Witness for C18 (amended): a pipe with descriptors 4 and 9, alone and
listed with a writer on descriptor 3: `nfds` is 10. -/
theorem nfds_is_descriptor_bound_witness :
    (watch_of (duplex_and_writer.mem 1)).nfds = 10 ∧
    (watch_array duplex_and_writer [some 2, none, some 1]).nfds = 10 ∧
    descriptor_bound (watch_of (duplex_and_writer.mem 1)) ∧
    descriptor_bound (watch_array duplex_and_writer [some 2, none, some 1]) :=
  ⟨by decide, by decide,
    (nfds_is_descriptor_bound duplex_and_writer [some 2, none, some 1] 1
      (by decide) (by decide)).2.2⟩

/-- C14 as stated fails: on the list `[h, h]`, `h` a TCP reader whose slot 0
the host reports readable, `_DkObjectsWaitAny` visits `h` twice and issues
the byte-count query on descriptor 7 twice for the one slot that is due
one. (And a slot holding descriptor 1024 takes the build loop outside the
1024-bit descriptor sets before any query.) -/
theorem listed_twice_is_queried_twice :
    (_DkObjectsWaitAny host_eof [some 1, some 1] 0 (world_of tcp_reader)).map
        (fun res => res.world.trace) =
      some [Syscall.pselect6 8 128 0 128 (some { tv_sec := 0, tv_nsec := 0 }),
            Syscall.ioctl_FIONREAD 7, Syscall.ioctl_FIONREAD 7] ∧
    handle_queries tcp_reader { ret := 1, rfds := 128, wfds := 0, efds := 0 } =
      [Syscall.ioctl_FIONREAD 7] ∧
    watch_handle_checked fd1024_reader WatchSets.init = none := by
  decide

/-- C14 (amended): with descriptors that fit the 1024-bit descriptor sets,
during one `_DkObjectWaitOne` call on a descriptor-bearing handle, or one
`_DkObjectsWaitAny` call on a list of two or more entries, the system calls
issued are those of `wait_calls`: after the `pselect6` call, when the host
reports ready descriptors, the byte-count query is issued exactly once, per
listing of its handle, for each occupied interest-bearing slot whose
descriptor is in the host's read-result set and whose handle kind is pipe,
private pipe, TCP, UDP or process (`handle_queries`, for each non-null entry
in list order), and for no other slot; otherwise no query is issued. For a
handle that is not of such a kind, a reply holding its descriptors in the
read set only leaves its flags unchanged, and under any other answers of the
query `_DkObjectWaitOne` has the same outcome, and `_DkObjectsWaitAny` the
same result code, the same chosen handle and the same final state of that
handle. -/
theorem byte_count_query_discipline (env : Env) (p : Nat) (hs : List (Option Nat))
    (timeout : Nat) (w : World)
    (hfds : (w.mem p).flags &&& HAS_FDS ≠ 0)
    (_hfit : fds_fit (w.mem p))
    (hlen : 2 ≤ hs.length)
    (_hfits : ∀ q, q ∈ handles_of hs → fds_fit (w.mem q)) :
    ((_DkObjectWaitOne env p timeout w).2.trace =
        w.trace ++ wait_calls (watch_of (w.mem p)) timeout
          (host_reply env (watch_of (w.mem p)) timeout)
          (handle_queries (w.mem p) (host_reply env (watch_of (w.mem p)) timeout)) ∧
      (stream_kind (w.mem p).type = false →
        ((∀ i, i < MAX_FDS →
            FD_ISSET ((w.mem p).fds i) (host_reply env (watch_of (w.mem p)) timeout).wfds
              = false ∧
            FD_ISSET ((w.mem p).fds i) (host_reply env (watch_of (w.mem p)) timeout).efds
              = false) →
          ((_DkObjectWaitOne env p timeout w).2.mem p).flags = (w.mem p).flags) ∧
        ∀ f : Nat → IoctlReply,
          _DkObjectWaitOne { env with ioctl_FIONREAD := f } p timeout w =
            _DkObjectWaitOne env p timeout w)) ∧
    ∃ res, _DkObjectsWaitAny env hs timeout w = some res ∧
      res.world.trace =
        w.trace ++ wait_calls (watch_array w hs) timeout
          (host_reply env (watch_array w hs) timeout)
          (queries_of w.mem (host_reply env (watch_array w hs) timeout) (handles_of hs)) ∧
      ∀ q, q ∈ handles_of hs → stream_kind (w.mem q).type = false →
        ((∀ i, i < MAX_FDS →
            FD_ISSET ((w.mem q).fds i) (host_reply env (watch_array w hs) timeout).wfds
              = false ∧
            FD_ISSET ((w.mem q).fds i) (host_reply env (watch_array w hs) timeout).efds
              = false) →
          (res.world.mem q).flags = (w.mem q).flags) ∧
        ∀ f : Nat → IoctlReply, ∃ res2,
          _DkObjectsWaitAny { env with ioctl_FIONREAD := f } hs timeout w = some res2 ∧
          res2.ret = res.ret ∧ res2.polled = res.polled ∧
          res2.world.mem q = res.world.mem q := by
  refine ⟨⟨waitone_trace_all env p timeout w hfds, ?_⟩, ?_⟩
  · intro hk
    exact ⟨waitone_non_stream_flags env p timeout w hfds hk,
      fun f => waitone_non_stream_congr env f p timeout w hk⟩
  · obtain ⟨res, h1, h2, h3, h4⟩ := waitany_multi_all env hs timeout w hlen
    refine ⟨res, h1, h2, ?_⟩
    intro q hq hk
    constructor
    · intro hro
      rcases h3 with h3 | h3
      · rw [h3]
      · rw [h3]
        simp only [mem_after, if_pos hq]
        rw [result_bits_read_only env _ _ hk hro, with_bits_zero]
    · intro f
      obtain ⟨res2, g1, g2, g3, g4⟩ := h4 f
      refine ⟨res2, g1, g2, g3, ?_⟩
      rcases g4 with ⟨a, b⟩ | ⟨a, b⟩
      · rw [a, b]
      · rw [a, b]
        simp only [mem_after, if_pos hq]
        rw [result_bits_congr { env with ioctl_FIONREAD := f } env _ _ hk]

/-- Witness for C14 (amended): a TCP reader at end of stream, alone and listed
after two event handles: one query on descriptor 7 in each call. -/
theorem byte_count_query_discipline_witness :
    (_DkObjectWaitOne host_eof 3 0 third_reader).2.trace =
      [Syscall.pselect6 8 128 0 128 (some { tv_sec := 0, tv_nsec := 0 }),
       Syscall.ioctl_FIONREAD 7] ∧
    ∃ res, _DkObjectsWaitAny host_eof [some 1, some 2, some 3] 0 third_reader = some res ∧
      res.world.trace =
        [Syscall.pselect6 8 128 0 128 (some { tv_sec := 0, tv_nsec := 0 }),
         Syscall.ioctl_FIONREAD 7] := by
  have h := byte_count_query_discipline host_eof 3 [some 1, some 2, some 3] 0 third_reader
    (by decide) (by decide) (by decide) (by decide)
  obtain ⟨⟨h1, _⟩, res, h2, h3, _⟩ := h
  refine ⟨?_, res, h2, ?_⟩
  · rw [h1]; decide
  · rw [h3]; decide

/-- C17 as stated fails: on the registry of call sites `[100, 200, 100]` with
`max_records = 1`, the scan stops at the second handle (a new call site
with the table full), so the record of call site 100 has count 1 although
two handles of the registry were allocated there. And with
`max_records = 2^60` the size `16 * 2^60` of the buffer wraps to 0: the
buffer holds no record and the first handle is recorded outside it. -/
theorem collect_stops_counting_at_cap :
    collect_heap_alloc_records true [100, 200, 100] 1 =
      some (some [{ caller := 100, count := 1 }]) ∧
    [100, 200, 100].count 100 = 2 ∧
    buffer_records (2 ^ 60) = 0 ∧
    collect_heap_alloc_records true [100] (2 ^ 60) = none := by
  decide

/-- C17 (amended): for every registry (of fewer than `2^64` handles) and every
cap `max_records` below `2^60` (the buffer size does not wrap), the cap or
the length of the registry being below `2^31` (the `int` record counter does
not overflow), with the output buffer allocated,
`collect_heap_alloc_records` returns the summary of the scanned handles
followed by untouched (zero) records, `max_records` records in all. The
scanned handles are a prefix of the registry: all of it, or the handles
before the first one whose call site is new when `max_records` call sites
are recorded; all of it whenever the registry has at most `max_records`
distinct call sites. The summary's records have nonzero counts, pairwise
distinct call sites in order of first occurrence in the registry, and each
count is the number of scanned handles allocated at the record's call
site. -/
theorem collect_records_summary (registry : List Nat) (max_records : Nat)
    (hlen : registry.length < 2 ^ 64) (hmax : max_records < 2 ^ 60)
    (hint : max_records < 2 ^ 31 ∨ registry.length < 2 ^ 31) :
    ∃ scanned, scanned <+: registry ∧
      collect_heap_alloc_records true registry max_records =
        some (some (summary scanned ++ padding (max_records - (summary scanned).length))) ∧
      (summary scanned).length ≤ max_records ∧
      (∀ r ∈ summary scanned, r.count ≠ 0 ∧ r.count = scanned.count r.caller) ∧
      ((summary scanned).map (fun r => r.caller)).Nodup ∧
      (summary scanned).map (fun r => r.caller) = first_occurrences scanned ∧
      first_occurrences scanned <+: first_occurrences registry ∧
      (scanned = registry ∨ ∃ c tl, registry = scanned ++ c :: tl ∧ c ∉ scanned ∧
        (first_occurrences scanned).length = max_records) ∧
      ((first_occurrences registry).length ≤ max_records → scanned = registry) := by
  obtain ⟨scanned, hpre, hres, hle, hstop⟩ := collect_table_spec max_records registry []
    max_records (by simp [first_occurrences]) (by simpa using hlen)
  simp only [List.nil_append] at hres hle hstop
  have hcallers : (summary scanned).map (fun r => r.caller) = first_occurrences scanned := by
    simp [summary, Function.comp_def]
  refine ⟨scanned, hpre, ?_, ?_, ?_, ?_, hcallers, first_occurrences_prefix hpre, hstop, ?_⟩
  · rw [length_summary]
    have hsim := collect_loop_eq max_records hmax registry
      (List.replicate max_records { caller := 0, count := 0 }) 0 (Nat.zero_le _)
      (by simpa using hint) (by simp)
    have hz : ((0 : Nat) : Int) = 0 := rfl
    rw [hz] at hsim
    have hres2 : collect_table max_records registry
        (List.replicate max_records { caller := 0, count := 0 }) 0 =
        summary scanned ++ padding (max_records - (first_occurrences scanned).length) := by
      simpa [summary, padding, first_occurrences] using hres
    simp only [collect_heap_alloc_records, buffer_records_eq hmax, hsim, hres2]
    rfl
  · rw [length_summary]; exact hle
  · intro r hr
    obtain ⟨x, hx, rfl⟩ := List.mem_map.1 hr
    have hxs : x ∈ scanned := (mem_first_occurrences scanned x).1 hx
    exact ⟨Nat.pos_iff_ne_zero.1 (List.count_pos_iff.2 hxs), rfl⟩
  · rw [hcallers]; exact nodup_first_occurrences scanned
  · intro hall
    rcases hstop with h | ⟨c, tl, h1, h2, h3⟩
    · exact h
    · exfalso
      have hp : first_occurrences (scanned ++ [c]) <+: first_occurrences registry := by
        apply first_occurrences_prefix
        exact ⟨tl, by rw [h1]; simp⟩
      have := hp.length_le
      rw [first_occurrences_snoc, if_neg h2, List.length_append, List.length_singleton] at this
      omega

/-- Witness for C17 (amended): six handles from three call sites, cap 5. -/
theorem collect_records_summary_witness :
    collect_heap_alloc_records true [100, 200, 100, 300, 200, 100] 5 =
      some (some [{ caller := 100, count := 3 }, { caller := 200, count := 2 },
            { caller := 300, count := 1 }, { caller := 0, count := 0 },
            { caller := 0, count := 0 }]) ∧
    ∃ scanned, scanned = [100, 200, 100, 300, 200, 100] ∧
      collect_heap_alloc_records true [100, 200, 100, 300, 200, 100] 5 =
        some (some (summary scanned ++ padding (5 - (summary scanned).length))) := by
  obtain ⟨scanned, _, hres, _, _, _, _, _, _, hall⟩ :=
    collect_records_summary [100, 200, 100, 300, 200, 100] 5 (by decide) (by decide)
      (Or.inl (by decide))
  exact ⟨by decide, scanned, hall (by decide), hres⟩

end DbObject
